import Mathlib

/-!
# AiC GPS: NMEA reader (`gps_goby.cpp`) and sentence synthesizer (`local_gps.cpp`)

A shallow embedding of the NMEA tokenizer, the scalar parsers, the fix
accumulator, the sentence dispatcher and the session thread of
`src/gps_goby.cpp`, followed by theorems about them.

Modelling conventions.

* A C `char` is a Lean `Char`; a byte range `[p, end)` is a `List Char`.
* A `double` or `float` is an exact rational (`ℚ`): rounding, overflow to
  infinity and NaN are outside the model.
* A `Token` owns a 128-byte buffer that is filled with `snprintf("%s")`.  The
  model keeps the bytes of the buffer before its terminator and the length
  `end - p`.  A byte of `[p, end)` that lies at or after the terminator reads
  as NUL (in C the bytes after the terminator are indeterminate).
* A function pointer is a `Nat` (its identity); `NULL` is `none`.  A call
  through a function pointer is recorded in a list of calls, in order.
* Reading through a NULL pointer makes a function return `none`.
-/

namespace AicGps

/-! ## NMEA tokenizer -/

/-- The NUL byte that terminates a C string. -/
def NUL : Char := Char.ofNat 0

/-- What `snprintf(buff, sizeof(buff), "%s", src)` leaves in a 128-byte buffer
before the terminator: the bytes of `src` up to its first NUL, at most 127. -/
def snprintf_s (src : List Char) : List Char :=
  (src.takeWhile (fun c => c != NUL)).take 127

/-- Embedding of `Token`: `buff` holds the bytes of the buffer before its terminator, `span`
is `none` when `p` and `end` are NULL (a zero-filled token) and `some n` when
`p = buff` and `end = p + n`. -/
structure Token where
  buff : List Char
  init : Bool
  span : Option Nat
deriving DecidableEq, Repr

/-- A zero-filled token (`memset(&tokens, 0, sizeof(tokens))`). -/
def Token.zero : Token := { buff := [], init := false, span := none }

/-- Embedding of `tok->end - tok->p`. -/
def Token.len (t : Token) : Nat := t.span.getD 0

/-- Embedding of `tok->p[i]`, for a token whose `p` is not NULL. -/
def Token.byte (t : Token) (i : Nat) : Char := t.buff.getD i NUL

/-- The bytes of `[tok->p, tok->end)`. -/
def Token.bytes (t : Token) : List Char :=
  t.buff.take t.len ++ List.replicate (t.len - t.buff.length) NUL

/-- Embedding of `MAX_NMEA_TOKENS`. -/
def MAX_NMEA_TOKENS : Nat := 16

/-- Embedding of `NmeaTokenizer`: `tokens` lists the slots `tokens[0 .. count-1]` that have
been written. -/
structure NmeaTokenizer where
  count : Nat
  tokens : List Token
deriving DecidableEq, Repr

/-- Embedding of `memchr(p, c, n)` over the `n` bytes `s`: the offset of the first `c`, or
`none` for a NULL result. -/
def memchr : List Char → Char → Option Nat
  | [], _ => none
  | x :: xs, c => if x = c then some 0 else (memchr xs c).map (fun i => i + 1)

/-- The `while (p < end)` loop of `nmea_tokenizer_init`; `rest` is `[p, end)`.
Each round consumes at least one byte, so `rest.length` rounds suffice.  The
copy `snprintf(buff, sizeof(buff), "%s", p)` is taken from `rest`: what it
copies from beyond `end` lies outside `[p, end)` of every token and is never
read. -/
def nmea_tokenizer_loop : Nat → List Char → NmeaTokenizer → NmeaTokenizer
  | 0, _, t => t
  | fuel + 1, rest, t =>
    if rest.length = 0 then t
    else
      let q := (memchr rest ',').getD rest.length
      let t1 :=
        if q > 0 then
          if t.count < MAX_NMEA_TOKENS then
            { count := t.count + 1,
              tokens := t.tokens ++
                [{ buff := snprintf_s rest, init := true, span := some q }] }
          else t
        else t
      let q1 := if q < rest.length then q + 1 else q
      nmea_tokenizer_loop fuel (rest.drop q1) t1

/-- Embedding of `nmea_tokenizer_init(t, p, end)` on the bytes `line = [p, end)`; the
returned count is the `count` field of the result. -/
def nmea_tokenizer_init (line : List Char) : NmeaTokenizer :=
  -- the initial '$' is optional
  let s1 := if 0 < line.length ∧ line.getD 0 NUL = '$' then line.drop 1 else line
  -- remove trailing newline
  let s2 :=
    if s1.length > 0 ∧ s1.getD (s1.length - 1) NUL = '\n' then
      let s := s1.take (s1.length - 1)
      if s.length > 0 ∧ s.getD (s.length - 1) NUL = '\r' then s.take (s.length - 1)
      else s
    else s1
  -- get rid of checksum at the end of the sentence
  let s3 :=
    if s2.length ≥ 3 ∧ s2.getD (s2.length - 3) NUL = '*' then s2.take (s2.length - 3)
    else s2
  nmea_tokenizer_loop s3.length s3 { count := 0, tokens := [] }

/-- Embedding of `nmea_tokenizer_get(t, index, tok)`: the token written to `tok`. -/
def nmea_tokenizer_get (t : NmeaTokenizer) (index : Int) : Token :=
  if index < 0 ∨ index ≥ (t.count : Int) then
    { buff := [], init := true, span := some 0 }
  else
    match t.tokens.get? index.toNat with
    | some src => { buff := snprintf_s src.buff, init := true, span := some src.len }
    | none => { buff := [], init := true, span := some 0 }

/-! ### Specification side of the tokenizer -/

/-- Drop one leading `$`. -/
def dropDollar : List Char → List Char
  | '$' :: r => r
  | s => s

/-- Drop one trailing `\n`, together with a `\r` right before it. -/
def dropNewline (s : List Char) : List Char :=
  match s.reverse with
  | '\n' :: '\r' :: r => r.reverse
  | '\n' :: r => r.reverse
  | _ => s

/-- Drop a trailing 3-byte suffix whose first byte is `*`. -/
def dropChecksum (s : List Char) : List Char :=
  match s.reverse with
  | _ :: _ :: '*' :: r => r.reverse
  | _ => s

/-- The trimmed line. -/
def trimLine (line : List Char) : List Char :=
  dropChecksum (dropNewline (dropDollar line))

/-- The non-empty comma-separated pieces of a byte string. -/
def pieces (s : List Char) : List (List Char) :=
  (s.splitOn ',').filter (fun f => f ≠ [])

/-! ## Scalar parsers -/

/-- Conversion of a mathematical integer to a 32-bit two's-complement `int`. -/
def wrap32 (x : Int) : Int := (x + 2147483648) % 4294967296 - 2147483648

/-- The `for` loop of `str2int`: `s` is what is left of `[p, end)`. -/
def str2int_loop : List Char → Int → Int
  | [], result => result
  | ch :: rest, result =>
    let c : Int := (ch.toNat : Int) - 48
    -- (unsigned)c >= 10
    if c < 0 ∨ c ≥ 10 then -1
    else str2int_loop rest (wrap32 (result * 10 + c))

/-- Embedding of `str2int(p, end)` on the bytes `s = [p, end)`. -/
def str2int (s : List Char) : Int := str2int_loop s 0

/-- Embedding of `isspace` in the C locale. -/
def isspace (c : Char) : Bool :=
  c = ' ' || c = '\t' || c = '\n' || c = Char.ofNat 11 || c = Char.ofNat 12 || c = '\r'

/-- Embedding of `isdigit`. -/
def isdigit (c : Char) : Bool := 48 ≤ c.toNat && c.toNat ≤ 57

/-- Reads a run of decimal digits: the accumulated value, the number of digits
read and the unread bytes. -/
def readDigits : List Char → Nat → Nat → Nat × Nat × List Char
  | [], acc, n => (acc, n, [])
  | c :: cs, acc, n =>
    if isdigit c then readDigits cs (acc * 10 + (c.toNat - 48)) (n + 1)
    else (acc, n, c :: cs)

/-- The decimal exponent part `e[+-]ddd` at the head of `s`, or 0 when there is
none (an `e` that no digit follows is not part of the number). -/
def readExponent (s : List Char) : Int :=
  match s with
  | c :: r =>
    if c = 'e' ∨ c = 'E' then
      match r with
      | '-' :: r1 =>
        let d := readDigits r1 0 0
        if d.2.1 = 0 then 0 else -(d.1 : Int)
      | '+' :: r1 =>
        let d := readDigits r1 0 0
        if d.2.1 = 0 then 0 else (d.1 : Int)
      | _ =>
        let d := readDigits r 0 0
        if d.2.1 = 0 then 0 else (d.1 : Int)
    else 0
  | [] => 0

/-- The value of a hexadecimal digit, `none` for any other byte. -/
def hexval (c : Char) : Option Nat :=
  if isdigit c then some (c.toNat - 48)
  else if 97 ≤ c.toNat ∧ c.toNat ≤ 102 then some (c.toNat - 87)
  else if 65 ≤ c.toNat ∧ c.toNat ≤ 70 then some (c.toNat - 55)
  else none

/-- Reads a run of hexadecimal digits: the accumulated value, the number of
digits read and the unread bytes. -/
def readHexDigits : List Char → Nat → Nat → Nat × Nat × List Char
  | [], acc, n => (acc, n, [])
  | c :: cs, acc, n =>
    match hexval c with
    | some d => readHexDigits cs (acc * 16 + d) (n + 1)
    | none => (acc, n, c :: cs)

/-- The binary exponent part `p[+-]ddd` at the head of `s`, or 0 when there is
none (a `p` that no decimal digit follows is not part of the number). -/
def readBinaryExponent (s : List Char) : Int :=
  match s with
  | c :: r =>
    if c = 'p' ∨ c = 'P' then
      match r with
      | '-' :: r1 =>
        let d := readDigits r1 0 0
        if d.2.1 = 0 then 0 else -(d.1 : Int)
      | '+' :: r1 =>
        let d := readDigits r1 0 0
        if d.2.1 = 0 then 0 else (d.1 : Int)
      | _ =>
        let d := readDigits r 0 0
        if d.2.1 = 0 then 0 else (d.1 : Int)
    else 0
  | [] => 0

/-- The bytes begin with the hexadecimal prefix `0x` or `0X`. -/
def isHexPrefix : List Char → Bool
  | '0' :: x :: _ => x = 'x' || x = 'X'
  | _ => false

/-- The magnitude that `strtod` reads at the head of `s`, after the white space
and the sign: decimal digits with an optional point and an optional decimal
exponent, or, after the prefix `0x`, hexadecimal digits with an optional point
and an optional binary exponent (when no hexadecimal digit follows the prefix,
the number is its `0`); 0 when no number starts `s`. -/
def strtod_number (s : List Char) : ℚ :=
  if isHexPrefix s then
    let ip := readHexDigits (s.drop 2) 0 0
    let fp := if ip.2.2.head? = some '.' then readHexDigits (ip.2.2.drop 1) ip.1 0
              else (ip.1, 0, ip.2.2)
    if ip.2.1 + fp.2.1 = 0 then 0
    else
      let e : Int := readBinaryExponent fp.2.2 - 4 * (fp.2.1 : Int)
      if 0 ≤ e then mkRat ((fp.1 : Int) * 2 ^ e.toNat) 1
      else mkRat (fp.1 : Int) (2 ^ (-e).toNat)
  else
    let ip := readDigits s 0 0
    let fp := if ip.2.2.head? = some '.' then readDigits (ip.2.2.drop 1) ip.1 0
              else (ip.1, 0, ip.2.2)
    if ip.2.1 + fp.2.1 = 0 then 0
    else
      let e : Int := readExponent fp.2.2 - (fp.2.1 : Int)
      if 0 ≤ e then mkRat ((fp.1 : Int) * 10 ^ e.toNat) 1
      else mkRat (fp.1 : Int) (10 ^ (-e).toNat)

/-- The C library's `strtod(s, NULL)`, as an exact rational: leading white
space, an optional sign, and the number that `strtod_number` reads, decimal or
hexadecimal; 0 when no number starts the string.  Rounding to a `double` is
outside the model, and so are the values that are no rational: a number beyond
the range of a `double` and the spellings of infinity and NaN, which the C
library also reads. -/
def strtod (s : List Char) : ℚ :=
  let s1 := s.dropWhile isspace
  let s2 := if s1.head? = some '-' ∨ s1.head? = some '+' then s1.drop 1 else s1
  if s1.head? = some '-' then - strtod_number s2 else strtod_number s2

/-- Embedding of `str2float(p, end)` on the bytes `s = [p, end)`. -/
def str2float (s : List Char) : ℚ :=
  if s.length ≥ 16 then 0
  else strtod s

/-- The integer part of a rational number: truncation towards zero. -/
def int_part (x : ℚ) : Int := Int.tdiv x.num (x.den : Int)

/-- The C cast `(int)x` of a `double` to the 32-bit `int`: truncation towards
zero when the integer part is in the range of `int`.  Outside that range C
leaves the cast undefined; the value here is `INT_MIN`, which the conversion
instruction of x86 returns for every operand out of range. -/
def double_to_int (x : ℚ) : Int :=
  if -2147483648 ≤ int_part x ∧ int_part x ≤ 2147483647 then int_part x
  else -2147483648

/-- The C library's `floor`. -/
def floor (x : ℚ) : ℚ := ((Rat.floor x : Int) : ℚ)

/-! ## NMEA parser -/

/-- Embedding of `NMEA_MAX_SIZE`. -/
def NMEA_MAX_SIZE : Nat := 83

/-- Modelled from the spec: the presence bit of latitude and longitude in the
fix bitmask; the constant is declared in the Android header `hardware/gps.h`,
which is not among the sources. -/
def GPS_LOCATION_HAS_LAT_LONG : Nat := 0x0001

/-- Modelled from the spec: the presence bit of the altitude (`hardware/gps.h`,
not among the sources). -/
def GPS_LOCATION_HAS_ALTITUDE : Nat := 0x0002

/-- Modelled from the spec: the presence bit of the speed (`hardware/gps.h`,
not among the sources). -/
def GPS_LOCATION_HAS_SPEED : Nat := 0x0004

/-- Modelled from the spec: the presence bit of the bearing (`hardware/gps.h`,
not among the sources). -/
def GPS_LOCATION_HAS_BEARING : Nat := 0x0008

/-- Modelled from the spec: the presence bit of the accuracy (`hardware/gps.h`,
not among the sources). -/
def GPS_LOCATION_HAS_ACCURACY : Nat := 0x0010

/-- Modelled from the spec: the fix record `GpsLocation` of `hardware/gps.h`
(not among the sources): the bitmask `flags`, the coordinates, and the
timestamp in milliseconds.  The `size` member, a layout constant, is left out. -/
structure GpsLocation where
  flags : Nat
  latitude : ℚ
  longitude : ℚ
  altitude : ℚ
  speed : ℚ
  bearing : ℚ
  accuracy : ℚ
  timestamp : Int
deriving DecidableEq

/-- A call `callback(&r->fix)`: the function called and the record it sees. -/
abbrev FixCall := Nat × GpsLocation

/-- The members of the C library's `struct tm` that the reader uses. -/
structure Tm where
  tm_sec : Int
  tm_min : Int
  tm_hour : Int
  tm_mday : Int
  tm_mon : Int
  tm_year : Int
  tm_yday : Int
  tm_isdst : Int
deriving DecidableEq

/-- The C library's clock and calendar as one call sees them: the calendar date
of `gmtime_r(time(NULL))` (`tm_year + 1900`, `tm_mon + 1`, `tm_mday`; natural
numbers, as the clock does not precede the epoch) and the function `mktime`. -/
structure Env where
  year : Nat
  mon : Nat
  mday : Nat
  mktime : Tm → Int

/-- Embedding of `NmeaReader`.  `in_` holds the bytes `in[0 .. pos-1]` and `pos` is its
length; the bytes of `in` at and after `pos` are never read. -/
structure NmeaReader where
  in_ : List Char
  overflow : Bool
  utc_year : Int
  utc_mon : Int
  utc_day : Int
  utc_diff : Int
  fix : GpsLocation
  callback : Option Nat

/-- Embedding of `r->pos`. -/
def NmeaReader.pos (r : NmeaReader) : Nat := r.in_.length

/-- The process-wide `t_all_tokens tokens` of `gps_goby.hpp`. -/
structure t_all_tokens where
  time : Token
  latitude : Token
  latitudeHemi : Token
  longitude : Token
  fixStatus : Token
  longitudeHemi : Token
  accuracy : Token
  altitude : Token
  altitudeUnits : Token
  speed : Token
  bearing : Token
  date : Token
deriving DecidableEq

/-- The field set after `memset(&tokens, 0, sizeof(tokens))` in `open_gps`. -/
def t_all_tokens.zero : t_all_tokens :=
  { time := Token.zero, latitude := Token.zero, latitudeHemi := Token.zero,
    longitude := Token.zero, fixStatus := Token.zero, longitudeHemi := Token.zero,
    accuracy := Token.zero, altitude := Token.zero, altitudeUnits := Token.zero,
    speed := Token.zero, bearing := Token.zero, date := Token.zero }

/-- Embedding of `tok.p[0]`; `none` when `p` is NULL. -/
def Token.first (t : Token) : Option Char := t.span.map (fun _ => t.byte 0)

/-- The seconds count that `nmea_reader_update_utc_diff` derives from a
`struct tm`. -/
def tm_seconds (t : Tm) : Int :=
  t.tm_sec + 60 * (t.tm_min + 60 * (t.tm_hour + 24 * (t.tm_yday + 365 * t.tm_year)))

/-- Embedding of `nmea_reader_update_utc_diff`, given `gmtime_r(&now)` and
`localtime_r(&now)`. -/
def nmea_reader_update_utc_diff (r : NmeaReader) (tm_utc tm_local : Tm) : NmeaReader :=
  { r with utc_diff := tm_seconds tm_utc - tm_seconds tm_local }

/-- Embedding of `nmea_reader_init`. -/
def nmea_reader_init (tm_utc tm_local : Tm) : NmeaReader :=
  nmea_reader_update_utc_diff
    { in_ := [], overflow := false, utc_year := -1, utc_mon := -1, utc_day := -1,
      utc_diff := 0,
      fix := { flags := 0, latitude := 0, longitude := 0, altitude := 0, speed := 0,
               bearing := 0, accuracy := 0, timestamp := 0 },
      callback := none }
    tm_utc tm_local

/-- Embedding of `nmea_reader_set_callback`: the reader afterwards and the calls made. -/
def nmea_reader_set_callback (r : NmeaReader) (cb : Option Nat) :
    NmeaReader × List FixCall :=
  let r1 := { r with callback := cb }
  match cb with
  | some f =>
    if r1.fix.flags ≠ 0 then
      ({ r1 with fix := { r1.fix with flags := 0 } }, [(f, r1.fix)])
    else (r1, [])
  | none => (r1, [])

/-- Embedding of `nmea_reader_update_time`: the reader afterwards and the returned status. -/
def nmea_reader_update_time (env : Env) (r : NmeaReader) (tok : Token) :
    NmeaReader × Int :=
  if !tok.init || tok.len < 6 then (r, -1)
  else
    -- no date yet, get current one
    let r1 := if r.utc_year < 0 then
                { r with utc_year := env.year, utc_mon := env.mon, utc_day := env.mday }
              else r
    let hour := str2int (tok.bytes.take 2)
    let minute := str2int ((tok.bytes.drop 2).take 2)
    let seconds := str2float (tok.bytes.drop 4)
    let tm : Tm :=
      { tm_hour := hour, tm_min := minute, tm_sec := double_to_int seconds,
        tm_year := r1.utc_year - 1900, tm_mon := r1.utc_mon - 1, tm_mday := r1.utc_day,
        tm_isdst := -1,
        -- not assigned by the source; `mktime` ignores it
        tm_yday := 0 }
    let fix_time := env.mktime tm + r1.utc_diff
    ({ r1 with fix := { r1.fix with timestamp := fix_time * 1000 } }, 0)

/-- Embedding of `nmea_reader_update_date`. -/
def nmea_reader_update_date (env : Env) (r : NmeaReader) (date time : Token) :
    NmeaReader × Int :=
  if !date.init || date.len ≠ 6 then (r, -1)
  else
    let day := str2int (date.bytes.take 2)
    let mon := str2int ((date.bytes.drop 2).take 2)
    let year := str2int ((date.bytes.drop 4).take 2) + 2000
    -- (day|mon|year) < 0
    if day < 0 ∨ mon < 0 ∨ year < 0 then (r, -1)
    else
      nmea_reader_update_time env
        { r with utc_year := year, utc_mon := mon, utc_day := day } time

/-- Embedding of `convert_from_hhmm`. -/
def convert_from_hhmm (tok : Token) : ℚ :=
  let val := str2float tok.bytes
  let degrees : Int := double_to_int (floor val / 100)
  let minutes : ℚ := val - (degrees : ℚ) * 100
  (degrees : ℚ) + minutes / 60

/-- Embedding of `nmea_reader_update_latlong`. -/
def nmea_reader_update_latlong (r : NmeaReader) (latitude : Token) (latitudeHemi : Char)
    (longitude : Token) (longitudeHemi : Char) : NmeaReader × Int :=
  if !latitude.init || latitude.len < 6 then (r, -1)
  else
    let lat0 := convert_from_hhmm latitude
    let lat := if latitudeHemi = 'S' then -lat0 else lat0
    if !longitude.init || longitude.len < 6 then (r, -1)
    else
      let lon0 := convert_from_hhmm longitude
      let lon := if longitudeHemi = 'W' then -lon0 else lon0
      ({ r with fix := { r.fix with flags := r.fix.flags ||| GPS_LOCATION_HAS_LAT_LONG,
                                    latitude := lat, longitude := lon } }, 0)

/-- Embedding of `nmea_reader_update_altitude`. -/
def nmea_reader_update_altitude (r : NmeaReader) (altitude _units : Token) :
    NmeaReader × Int :=
  if !altitude.init || altitude.len = 0 then (r, -1)
  else
    ({ r with fix := { r.fix with flags := r.fix.flags ||| GPS_LOCATION_HAS_ALTITUDE,
                                  altitude := str2float altitude.bytes } }, 0)

/-- Embedding of `nmea_reader_update_bearing`. -/
def nmea_reader_update_bearing (r : NmeaReader) (bearing : Token) : NmeaReader × Int :=
  if !bearing.init || bearing.len = 0 then (r, -1)
  else
    ({ r with fix := { r.fix with flags := r.fix.flags ||| GPS_LOCATION_HAS_BEARING,
                                  bearing := str2float bearing.bytes } }, 0)

/-- Embedding of `nmea_reader_update_speed`. -/
def nmea_reader_update_speed (r : NmeaReader) (speed : Token) : NmeaReader × Int :=
  if !speed.init || speed.len = 0 then (r, -1)
  else
    ({ r with fix := { r.fix with flags := r.fix.flags ||| GPS_LOCATION_HAS_SPEED,
                                  speed := str2float speed.bytes } }, 0)

/-- Embedding of `nmea_reader_update_accuracy`. -/
def nmea_reader_update_accuracy (r : NmeaReader) (tok : Token) : NmeaReader × Int :=
  if !tok.init then (r, -1)
  else
    let a : Int := str2int tok.bytes
    let accuracy : ℚ := if a < 0 ∨ a > 200 then 1 else (a : ℚ)
    ({ r with fix := { r.fix with accuracy := accuracy,
                                  flags := r.fix.flags ||| GPS_LOCATION_HAS_ACCURACY } }, 0)

/-- The sentence-kind branches of `nmea_reader_parse` (source lines 470-499):
the field set after the `nmea_tokenizer_get` calls of the branch that matches
the three bytes `id` that follow the talker prefix. -/
def nmea_reader_parse_fields (tzer : NmeaTokenizer) (id : List Char)
    (tokens : t_all_tokens) : t_all_tokens :=
  if id = ['G', 'G', 'A'] then
    -- GPS fix
    { tokens with
        time := nmea_tokenizer_get tzer 1,
        fixStatus := nmea_tokenizer_get tzer 2,
        latitude := nmea_tokenizer_get tzer 3,
        latitudeHemi := nmea_tokenizer_get tzer 4,
        longitude := nmea_tokenizer_get tzer 5,
        longitudeHemi := nmea_tokenizer_get tzer 6,
        accuracy := nmea_tokenizer_get tzer 8,
        altitude := nmea_tokenizer_get tzer 9,
        altitudeUnits := nmea_tokenizer_get tzer 10 }
  else if id = ['G', 'S', 'A'] then
    -- do something ?
    tokens
  else if id = ['R', 'M', 'C'] then
    { tokens with
        time := nmea_tokenizer_get tzer 1,
        fixStatus := nmea_tokenizer_get tzer 2,
        latitude := nmea_tokenizer_get tzer 3,
        latitudeHemi := nmea_tokenizer_get tzer 4,
        longitude := nmea_tokenizer_get tzer 5,
        longitudeHemi := nmea_tokenizer_get tzer 6,
        speed := nmea_tokenizer_get tzer 7,
        bearing := nmea_tokenizer_get tzer 8,
        date := nmea_tokenizer_get tzer 9 }
  else tokens

/-- The updates that `nmea_reader_parse` always makes (source lines 502-507):
time, latitude and longitude, altitude, accuracy; `latitudeHemi` and
`longitudeHemi` are the bytes `tokens.latitudeHemi.p[0]` and
`tokens.longitudeHemi.p[0]`. -/
def nmea_reader_parse_always (env : Env) (r : NmeaReader) (tokens : t_all_tokens)
    (latitudeHemi longitudeHemi : Char) : NmeaReader :=
  let r1 := (nmea_reader_update_time env r tokens.time).1
  let r2 := (nmea_reader_update_latlong r1 tokens.latitude latitudeHemi
              tokens.longitude longitudeHemi).1
  let r3 := (nmea_reader_update_altitude r2 tokens.altitude tokens.altitudeUnits).1
  (nmea_reader_update_accuracy r3 tokens.accuracy).1

/-- The updates that `nmea_reader_parse` makes when the fix status is `A`
(source lines 510-512): date, bearing, speed. -/
def nmea_reader_parse_gated (env : Env) (r : NmeaReader) (tokens : t_all_tokens) :
    NmeaReader :=
  let r5 := (nmea_reader_update_date env r tokens.date tokens.time).1
  let r6 := (nmea_reader_update_bearing r5 tokens.bearing).1
  (nmea_reader_update_speed r6 tokens.speed).1

/-- The field updates of `nmea_reader_parse` (source lines 501-513, "Always
update everything"): the reader after them, or `none` when one of the reads
`tokens.latitudeHemi.p[0]`, `tokens.longitudeHemi.p[0]`, `tokens.fixStatus.p[0]`
goes through a NULL pointer. -/
def nmea_reader_parse_updates (env : Env) (r : NmeaReader) (tokens : t_all_tokens) :
    Option NmeaReader :=
  match tokens.latitudeHemi.first, tokens.longitudeHemi.first with
  | some latitudeHemi, some longitudeHemi =>
    let r4 := nmea_reader_parse_always env r tokens latitudeHemi longitudeHemi
    if tokens.fixStatus.init then
      match tokens.fixStatus.first with
      | some c =>
        if c = 'A' then some (nmea_reader_parse_gated env r4 tokens)
        else some r4
      | none => none
    else some r4
  | _, _ => none

/-- The delivery at the end of `nmea_reader_parse` (source lines 515-549). -/
def nmea_reader_parse_deliver (r : NmeaReader) : NmeaReader × List FixCall :=
  if r.fix.flags ≠ 0 then
    match r.callback with
    | some cb => ({ r with fix := { r.fix with flags := 0 } }, [(cb, r.fix)])
    | none =>
      -- no callback, keeping data until needed !
      (r, [])
  else (r, [])

/-- Embedding of `nmea_reader_parse` on the sentence `r->in[0 .. pos-1]`: the reader and the
process-wide field set afterwards and the callback calls made; `none` when the
function reads through a NULL pointer. -/
def nmea_reader_parse (env : Env) (r : NmeaReader) (tokens : t_all_tokens) :
    Option (NmeaReader × t_all_tokens × List FixCall) :=
  if r.pos < 9 then
    -- Too short. discarded.
    some (r, tokens, [])
  else
    let tzer := nmea_tokenizer_init r.in_
    let tok := nmea_tokenizer_get tzer 0
    if tok.len < 5 then
      -- sentence id too short, ignored.
      some (r, tokens, [])
    else
      -- ignore first two characters.
      let tokens1 := nmea_reader_parse_fields tzer [tok.byte 2, tok.byte 3, tok.byte 4] tokens
      match nmea_reader_parse_updates env r tokens1 with
      | some r1 =>
        let d := nmea_reader_parse_deliver r1
        some (d.1, tokens1, d.2)
      | none => none

/-- Embedding of `nmea_reader_addc`. -/
def nmea_reader_addc (env : Env) (r : NmeaReader) (tokens : t_all_tokens) (c : Char) :
    Option (NmeaReader × t_all_tokens × List FixCall) :=
  if r.overflow then
    some ({ r with overflow := (c != '\n') }, tokens, [])
  else if r.pos ≥ NMEA_MAX_SIZE + 1 - 1 then
    some ({ r with overflow := true, in_ := [] }, tokens, [])
  else
    let r1 := { r with in_ := r.in_ ++ [c] }
    if c = '\n' then
      match nmea_reader_parse env r1 tokens with
      | some (r2, tokens2, calls) => some ({ r2 with in_ := [] }, tokens2, calls)
      | none => none
    else some (r1, tokens, [])

/-! ## Connection state -/

/-- Embedding of `CMD_QUIT`. -/
def CMD_QUIT : Nat := 0

/-- Embedding of `CMD_START`. -/
def CMD_START : Nat := 1

/-- Embedding of `CMD_STOP`. -/
def CMD_STOP : Nat := 2

/-- Modelled from the spec: the status values `GpsStatusValue` of
`hardware/gps.h` (not among the sources). -/
inductive GpsStatusValue where
  | GPS_STATUS_NONE
  | GPS_STATUS_SESSION_BEGIN
  | GPS_STATUS_SESSION_END
  | GPS_STATUS_ENGINE_ON
  | GPS_STATUS_ENGINE_OFF
deriving DecidableEq, Repr

/-- Modelled from the spec: the members of `GpsCallbacks` (`hardware/gps.h`, not
among the sources) that the session thread uses. -/
structure GpsCallbacks where
  location_cb : Option Nat
  status_cb : Option Nat

/-- Embedding of `GpsState`, reduced to the member that the session thread reads after its
start-up. -/
structure GpsState where
  callbacks : GpsCallbacks

/-- A call made by the session thread through one of the callbacks. -/
inductive Call where
  | location (cb : Nat) (fix : GpsLocation)
  | status (cb : Nat) (val : GpsStatusValue)
deriving DecidableEq

/-- Embedding of `gps_update_status`: the calls made. -/
def gps_update_status (state : GpsState) (val : GpsStatusValue) : List Call :=
  match state.callbacks.status_cb with
  | some cb => [Call.status cb val]
  | none =>
    -- no status_cb available
    []

/-- The local variables of `gps_state_thread` that outlive one round of its
loop, and the process-wide field set. -/
structure ThreadState where
  reader : NmeaReader
  started : Bool
  tokens : t_all_tokens

/-- One readiness event that `epoll_wait` reports to `gps_state_thread`.
`control cmd` is `EPOLLIN` on the control descriptor, where `cmd` is the value of
the variable `cmd` after the `read` (255 when the `read` stored nothing);
`data env bytes` is `EPOLLIN` on the GPS descriptor, with the bytes that the
`recv` loop drains and the clock during the drain; `hangup` is `EPOLLERR` or
`EPOLLHUP`. -/
inductive Event where
  | control (cmd : Nat)
  | data (env : Env) (bytes : List Char)
  | hangup

/-- How the handling of an event ends: the loop goes on to the next event
(`running`), the thread function has returned (`returned`), or the thread has
read through a NULL pointer (`crashed`). -/
inductive Outcome where
  | running (s : ThreadState)
  | returned
  | crashed

/-- The control branch of the loop of `gps_state_thread` (source lines 729-762)
for the command byte `cmd`. -/
def gps_state_thread_control (state : GpsState) (s : ThreadState) (cmd : Nat) :
    ThreadState × List Call :=
  if cmd = CMD_QUIT then
    -- gps thread quitting on demand
    (s, gps_update_status state GpsStatusValue.GPS_STATUS_ENGINE_OFF)
  else if cmd = CMD_START then
    if !s.started then
      let rc := nmea_reader_set_callback s.reader state.callbacks.location_cb
      ({ s with started := true, reader := rc.1 },
        gps_update_status state GpsStatusValue.GPS_STATUS_SESSION_BEGIN ++
          rc.2.map (fun c => Call.location c.1 c.2))
    else (s, [])
  else if cmd = CMD_STOP then
    if s.started then
      let rc := nmea_reader_set_callback s.reader none
      ({ s with started := false, reader := rc.1 },
        gps_update_status state GpsStatusValue.GPS_STATUS_SESSION_END ++
          rc.2.map (fun c => Call.location c.1 c.2))
    else (s, [])
  else
    -- Unknown GPS command
    (s, [])

/-- The loop `for (nn = 0; nn < ret; nn++) nmea_reader_addc(reader, buff[nn])`
over all the bytes drained by one data event; `none` when `nmea_reader_addc`
reads through a NULL pointer. -/
def gps_state_thread_data (env : Env) :
    List Char → NmeaReader → t_all_tokens → Option (NmeaReader × t_all_tokens × List FixCall)
  | [], r, tokens => some (r, tokens, [])
  | c :: cs, r, tokens =>
    match nmea_reader_addc env r tokens c with
    | some (r1, tokens1, calls1) =>
      match gps_state_thread_data env cs r1 tokens1 with
      | some (r2, tokens2, calls2) => some (r2, tokens2, calls1 ++ calls2)
      | none => none
    | none => none

/-- The body of the event loop of `gps_state_thread` for one event: how it
ends and the calls made. -/
def gps_state_thread_event (state : GpsState) (s : ThreadState) (e : Event) :
    Outcome × List Call :=
  match e with
  | Event.hangup =>
    -- EPOLLERR or EPOLLHUP after epoll_wait() !?
    (Outcome.returned, [])
  | Event.control cmd =>
    let sc := gps_state_thread_control state s cmd
    (Outcome.running sc.1, sc.2)
  | Event.data env bytes =>
    match gps_state_thread_data env bytes s.reader s.tokens with
    | some (r, tokens, calls) =>
      (Outcome.running { s with reader := r, tokens := tokens },
        calls.map (fun c => Call.location c.1 c.2))
    | none => (Outcome.crashed, [])

/-- The event loop of `gps_state_thread` over the events that `epoll_wait`
reports, in order. -/
def gps_state_thread_loop (state : GpsState) :
    List Event → ThreadState → Outcome × List Call
  | [], s => (Outcome.running s, [])
  | e :: es, s =>
    match gps_state_thread_event state s e with
    | (Outcome.running s1, calls1) =>
      let rest := gps_state_thread_loop state es s1
      (rest.1, calls1 ++ rest.2)
    | (o, calls1) => (o, calls1)

/-- Embedding of `gps_state_thread`: the reader is initialised, `GPS_STATUS_ENGINE_ON` is
signalled, and the loop handles the events.  `tokens` is the process-wide field
set when the thread starts; `tm_utc` and `tm_local` are the clock readings of
`nmea_reader_init`. -/
def gps_state_thread (state : GpsState) (tm_utc tm_local : Tm) (tokens : t_all_tokens)
    (events : List Event) : Outcome × List Call :=
  let s : ThreadState :=
    { reader := nmea_reader_init tm_utc tm_local, started := false, tokens := tokens }
  let rest := gps_state_thread_loop state events s
  (rest.1, gps_update_status state GpsStatusValue.GPS_STATUS_ENGINE_ON ++ rest.2)

/-! ## Sentence synthesizer (`local_gps.cpp`) -/

/-- The character of the decimal digit `d`. -/
def digitChar (d : Nat) : Char := Char.ofNat (48 + d)

/-- The decimal digits of `n`, most significant first, as the C library prints
them; `fuel` bounds the number of digits, and `n + 1` is always enough. -/
def natDigits : Nat → Nat → List Char
  | 0, _ => []
  | fuel + 1, n =>
    if n < 10 then [digitChar n]
    else natDigits fuel (n / 10) ++ [digitChar (n % 10)]

/-- The C library's conversion `%0wd` of an `int`: the decimal digits, padded
with zeros on the left to at least `w` characters, a minus sign included. -/
def printf_0d (w : Nat) (n : Int) : List Char :=
  if n < 0 then
    '-' :: (List.replicate (w - 1 - (natDigits (n.natAbs + 1) n.natAbs).length) '0' ++
      natDigits (n.natAbs + 1) n.natAbs)
  else
    List.replicate (w - (natDigits (n.toNat + 1) n.toNat).length) '0' ++
      natDigits (n.toNat + 1) n.toNat

/-- What the synthesizer derives from one coordinate: the hemisphere letter
(`o_clat`, `o_clng`), the degrees (`o_latdeg`, `o_lngdeg`), the minutes
(`o_latmin`, `o_lngmin`) and the last value of `o_lat`, `o_lng`, which is the
fraction of a minute times 10000. -/
structure DegMin where
  hemi : Char
  deg : Int
  min : Int
  frac : ℚ

/-- The degree/minute split of `main` (source lines 243-254 for the latitude,
256-267 for the longitude, which differ in the two hemisphere letters only):
`neg` is the letter of a negative coordinate, `pos` the other one. -/
def degrees_minutes (i : ℚ) (neg pos : Char) : DegMin :=
  let o0 : ℚ := if i < 0 then -i else i
  let c : Char := if i < 0 then neg else pos
  let deg : Int := double_to_int o0
  let o1 : ℚ := 60 * (o0 - (deg : ℚ))
  let min : Int := double_to_int o1
  let o2 : ℚ := 10000 * (o1 - (min : ℚ))
  { hemi := c, deg := deg, min := min, frac := o2 }

/-- The split of `i_lat` (source lines 243-254). -/
def o_lat (i_lat : ℚ) : DegMin := degrees_minutes i_lat 'S' 'N'

/-- The split of `i_lng` (source lines 256-267). -/
def o_lng (i_lng : ℚ) : DegMin := degrees_minutes i_lng 'W' 'E'

/-- The coordinate field of `STRING_GPGGA` and `STRING_GPRMC`: the conversion
`%02d%02d.%04d` of the degrees, the minutes and `(int)` of the fraction. -/
def format_coordinate (d : DegMin) : List Char :=
  printf_0d 2 d.deg ++ printf_0d 2 d.min ++ ['.'] ++ printf_0d 4 (double_to_int d.frac)

/-- Modelled from the spec: the two values of the shared status key,
`GPS_ENABLED` and `GPS_DISABLED`, which are declared in the repository's header
`gps.hpp`, not among the sources. -/
inductive GpsStatusProperty where
  | GPS_ENABLED
  | GPS_DISABLED
deriving DecidableEq, Repr

/-- Modelled from the spec: the keys of the shared state store that the
synthesizer writes (`GPS_STATUS`, `GPS_LATITUDE`, `GPS_LONGITUDE`,
`GPS_ALTITUDE`, `GPS_BEARING`, declared in `gps.hpp`, not among the sources),
with their values; a number stands for its `%lf` text. -/
structure Properties where
  status : GpsStatusProperty
  latitude : ℚ
  longitude : ℚ
  altitude : ℚ
  bearing : ℚ
deriving DecidableEq

/-- Modelled from the spec: the GPS record of a decoded `sensors_packet` (the
generated header `sensors_packet.pb.h` is not among the sources): its declared
status, `true` for `ENABLED`, and its coordinates. -/
structure GPSPayload where
  enabled : Bool
  latitude : ℚ
  longitude : ℚ
  altitude : ℚ
  bearing : ℚ
deriving DecidableEq

/-- Modelled from the spec: a decoded `sensors_packet`; `gps` is `none` when
`has_gps()` is false. -/
structure sensors_packet where
  gps : Option GPSPayload
deriving DecidableEq

/-- What `readBody` obtains from its socket: the return value of `recv` and the
packet that the frame codec decodes from the bytes received. -/
structure BodyInput where
  bytecount : Int
  payload : sensors_packet

/-- Embedding of `readBody(csock, siz)`: the shared state store afterwards. -/
def readBody (props : Properties) (siz : Nat) (body : BodyInput) : Properties :=
  if body.bytecount = -1 then
    -- error receiving data
    props
  else if body.bytecount ≠ (siz : Int) + 4 then props
  else
    match body.payload.gps with
    | some gps =>
      { status := GpsStatusProperty.GPS_ENABLED,
        latitude := gps.latitude,
        longitude := gps.longitude,
        altitude := gps.altitude,
        bearing := gps.bearing }
    | none =>
      -- incorrect message
      props

/-- The outcome of one ingestion step: the shared state store, the variable
`bytecount` of `main`, and whether `readBody` has been called. -/
structure IngestResult where
  props : Properties
  bytecount : Int
  body_read : Bool

/-- The ingestion step of `main` for an accepted update connection (source lines
207-225): `peek` is the return value of `recv(.., MSG_PEEK)` and `framing_size`
the length that `readHdr` decodes from the peeked bytes. -/
def ingest_frame (props : Properties) (peek : Int) (framing_size : Nat)
    (body : BodyInput) : IngestResult :=
  if peek = -1 then
    -- Error receiving data
    { props := props, bytecount := peek, body_read := false }
  else if peek = 0 then
    -- First read byte count is empty
    { props := props, bytecount := peek, body_read := false }
  else if framing_size < 4 * 1024 * 1024 then
    -- Don't expect protobufs > 4MiB
    { props := readBody props framing_size body, bytecount := peek, body_read := true }
  else
    -- Framing size too big
    { props := props, bytecount := 0, body_read := false }

/-! ## Notions used by the statements -/

/-- The C test `flags & bit`: some bit of `bit` is set in `flags`. -/
def has_flag (flags bit : Nat) : Bool := (flags &&& bit) != 0

/-- Every byte is a decimal digit. -/
def allDigits (s : List Char) : Bool := s.all isdigit

/-- The number that a string of decimal digits denotes (0 for the empty
string). -/
def decimalValue (s : List Char) : Nat :=
  s.foldl (fun acc c => acc * 10 + (c.toNat - 48)) 0

/-- The token that `nmea_tokenizer_get` writes for a field with the bytes `s`. -/
def Token.ofBytes (s : List Char) : Token :=
  { buff := snprintf_s s, init := true, span := some s.length }

/-- The reader `r2` differs from `r1` at most in its fix record and date cache,
and every bit of the bitmask of `r1` is still set in `r2`. -/
def Grows (r1 r2 : NmeaReader) : Prop :=
  r2.callback = r1.callback ∧ r2.in_ = r1.in_ ∧ r2.overflow = r1.overflow ∧
  r2.utc_diff = r1.utc_diff ∧
  ∀ bit, has_flag r1.fix.flags bit = true → has_flag r2.fix.flags bit = true

/-- The slots of the field set whose first byte `nmea_reader_parse` reads hold
pointers that are not NULL (as they do once a GGA or RMC sentence has been
dispatched). -/
def t_all_tokens.nonNull (t : t_all_tokens) : Prop :=
  t.latitudeHemi.span ≠ none ∧ t.longitudeHemi.span ≠ none ∧ t.fixStatus.span ≠ none

/-- The reader `r` with the sentence `line` in its line buffer. -/
def NmeaReader.withLine (r : NmeaReader) (line : List Char) : NmeaReader :=
  { r with in_ := line }

/-- The status signals among the calls of the session thread, in order. -/
def statusSignals (calls : List Call) : List GpsStatusValue :=
  calls.filterMap (fun c =>
    match c with
    | Call.status _ val => some val
    | Call.location _ _ => none)

/-- The handling of the events has left the loop of the thread running. -/
def Outcome.isRunning : Outcome → Bool
  | Outcome.running _ => true
  | _ => false

/-- The fix deliveries among the calls of the session thread, in order. -/
def fixDeliveries (calls : List Call) : List GpsLocation :=
  calls.filterMap (fun c =>
    match c with
    | Call.status _ _ => none
    | Call.location _ fix => some fix)

/-- The size of the line buffer, `sizeof(r->in)`. -/
def in_size : Nat := NMEA_MAX_SIZE + 1

/-- The states of a reader and of the process-wide field set that are reachable
from `nmea_reader_init` by a sequence of `nmea_reader_addc` calls, on any bytes
and under any clock. -/
inductive AddcReachable : NmeaReader → t_all_tokens → Prop where
  | init (tm_utc tm_local : Tm) (tokens : t_all_tokens) :
      AddcReachable (nmea_reader_init tm_utc tm_local) tokens
  | addc (r : NmeaReader) (tokens : t_all_tokens) (env : Env) (c : Char)
      (r1 : NmeaReader) (tokens1 : t_all_tokens) (calls : List FixCall) :
      AddcReachable r tokens →
      nmea_reader_addc env r tokens c = some (r1, tokens1, calls) →
      AddcReachable r1 tokens1

/-- The parts of a field body that is decimal digits with an optional point and
at least one digit: the sign flag `neg` handed in, the digits before the point
and the digits after it; `none` for every other body. -/
def decimalBody (neg : Bool) (body : List Char) : Option (Bool × List Char × List Char) :=
  match body.dropWhile isdigit with
  | [] =>
    if (body.takeWhile isdigit).isEmpty then none
    else some (neg, body.takeWhile isdigit, [])
  | c :: fs =>
    if c = '.' ∧ fs.all isdigit = true ∧
        ((body.takeWhile isdigit).isEmpty = false ∨ fs.isEmpty = false) then
      some (neg, body.takeWhile isdigit, fs)
    else none

/-- The parts of a field that spells a decimal number (an optional sign, then
decimal digits with an optional point, at least one digit in all): whether the
sign is `-`, the digits before the point and the digits after it; `none` for
every other field. -/
def decimalParts (s : List Char) : Option (Bool × List Char × List Char) :=
  decimalBody (decide (s.head? = some '-'))
    (if s.head? = some '-' ∨ s.head? = some '+' then s.drop 1 else s)

/-- The decimal value of a field that spells a decimal number; `none` for every
other field. -/
def decimalNumber (s : List Char) : Option ℚ :=
  (decimalParts s).map (fun p =>
    if p.1 then - ((decimalValue (p.2.1 ++ p.2.2) : ℚ) / 10 ^ p.2.2.length)
    else (decimalValue (p.2.1 ++ p.2.2) : ℚ) / 10 ^ p.2.2.length)

/-- The conversion in the words of the specification: degrees = integer part
of value/100, minutes = remainder, decimal = degrees + minutes/60. -/
def spec_hhmm (v : ℚ) : ℚ :=
  let degrees : Int := int_part (v / 100)
  let minutes : ℚ := v - 100 * (degrees : ℚ)
  (degrees : ℚ) + minutes / 60

/-- The value that `convert_from_hhmm` computes from the number `v` while the
cast to `int` is defined: degrees = integer part of `floor(v)/100`, minutes =
`v - degrees*100`, result = degrees + minutes/60. -/
def hhmm_of (v : ℚ) : ℚ :=
  let degrees : Int := int_part (floor v / 100)
  let minutes : ℚ := v - (degrees : ℚ) * 100
  (degrees : ℚ) + minutes / 60

/-- The update from `r` to `r1` touches only the part of the fix record that
belongs to the presence bit `own`: outside the fix record nothing changes; the
timestamp and every value field other than the one (for the latitude/longitude
bit, the two) of `own` are unchanged; every bit of the bitmask outside `own` is
unchanged; and no bit is cleared. -/
def TouchesOnly (own : Nat) (r r1 : NmeaReader) : Prop :=
  r1.in_ = r.in_ ∧ r1.overflow = r.overflow ∧ r1.callback = r.callback ∧
  r1.utc_year = r.utc_year ∧ r1.utc_mon = r.utc_mon ∧ r1.utc_day = r.utc_day ∧
  r1.utc_diff = r.utc_diff ∧ r1.fix.timestamp = r.fix.timestamp ∧
  (own ≠ GPS_LOCATION_HAS_LAT_LONG →
    r1.fix.latitude = r.fix.latitude ∧ r1.fix.longitude = r.fix.longitude) ∧
  (own ≠ GPS_LOCATION_HAS_ALTITUDE → r1.fix.altitude = r.fix.altitude) ∧
  (own ≠ GPS_LOCATION_HAS_SPEED → r1.fix.speed = r.fix.speed) ∧
  (own ≠ GPS_LOCATION_HAS_BEARING → r1.fix.bearing = r.fix.bearing) ∧
  (own ≠ GPS_LOCATION_HAS_ACCURACY → r1.fix.accuracy = r.fix.accuracy) ∧
  (∀ bit, bit &&& own = 0 → has_flag r1.fix.flags bit = has_flag r.fix.flags bit) ∧
  (∀ bit, has_flag r.fix.flags bit = true → has_flag r1.fix.flags bit = true)

/-- The cached year, month and day are all unset (negative) or all set (not
negative). -/
def DateCacheJoint (r : NmeaReader) : Prop :=
  (r.utc_year < 0 ∧ r.utc_mon < 0 ∧ r.utc_day < 0) ∨
  (0 ≤ r.utc_year ∧ 0 ≤ r.utc_mon ∧ 0 ≤ r.utc_day)

/-- The states of a reader that are reachable from `nmea_reader_init` through
`nmea_reader_update_time` and `nmea_reader_update_date` on any fields, and
`nmea_reader_parse` on any sentence and any field set, under any clock. -/
inductive DateReachable : NmeaReader → Prop where
  | init (tm_utc tm_local : Tm) : DateReachable (nmea_reader_init tm_utc tm_local)
  | update_time (r : NmeaReader) (env : Env) (tok : Token) :
      DateReachable r → DateReachable (nmea_reader_update_time env r tok).1
  | update_date (r : NmeaReader) (env : Env) (date time : Token) :
      DateReachable r → DateReachable (nmea_reader_update_date env r date time).1
  | parse (r : NmeaReader) (env : Env) (line : List Char) (tokens : t_all_tokens)
      (r1 : NmeaReader) (tokens1 : t_all_tokens) (calls : List FixCall) :
      DateReachable r →
      nmea_reader_parse env (r.withLine line) tokens = some (r1, tokens1, calls) →
      DateReachable r1

/-! ## Sample inputs -/

/-- A clock reading: 30 October 2026, with a `mktime` that counts seconds
within the day. -/
def sampleEnv : Env :=
  { year := 2026, mon := 10, mday := 30,
    mktime := fun t => t.tm_sec + 60 * (t.tm_min + 60 * t.tm_hour) }

/-- A broken-down time: midnight, 1 January 2026. -/
def sampleTm : Tm :=
  { tm_sec := 0, tm_min := 0, tm_hour := 0, tm_mday := 1, tm_mon := 0, tm_year := 126,
    tm_yday := 0, tm_isdst := 0 }

/-- A freshly initialised reader. -/
def sampleReader : NmeaReader := nmea_reader_init sampleTm sampleTm

/-- The standard GGA sentence of the specification, with its terminator. -/
def sampleGGA : List Char :=
  "$GPGGA,123519,4807.038,N,01131.000,E,1,08,0.9,545.4,M,46.9,M,,*47\n".toList

/-- An RMC sentence with status `A`. -/
def sampleRMC : List Char :=
  "$GPRMC,123519,A,4807.038,N,01131.000,E,022.4,084.4,230394,003.1,W*6A\n".toList

/-- A session whose client has registered both callbacks. -/
def sampleState : GpsState :=
  { callbacks := { location_cb := some 1, status_cb := some 2 } }

/-- A GSA sentence. -/
def sampleGSA : List Char :=
  "$GPGSA,A,3,04,05,,09,12,,,24,,,,,2.5,1.3,2.1*39\n".toList

/-- An RMC sentence of 82 bytes, without its line feed. -/
def sampleRMC82 : List Char :=
  "$GPRMC,123519.000,A,4807.03800,N,01131.00000,E,022.4000,084.4000,230394,003.1,W*6A".toList

/-- An RMC sentence of 83 bytes, without its line feed. -/
def sampleRMC83 : List Char :=
  "$GPRMC,123519.000,A,4807.038000,N,01131.00000,E,022.4000,084.4000,230394,003.1,W*6A".toList

/-- A GGA sentence of 8 non-empty fields: none at the accuracy position 8. -/
def sampleGGA8 : List Char :=
  "$GPGGA,123519,4807.038,N,01131.000,E,1,08\n".toList

/-- An RMC sentence with status `A`, empty speed and bearing fields, and the
magnetic variation after the date. -/
def sampleRMCshift : List Char :=
  "$GPRMC,123519,A,4807.038,N,01131.000,E,,,230394,003.1,W*6A\n".toList

/-- An RMC sentence with status `A`, empty speed and bearing fields, and no
field after the date. -/
def sampleRMCdate : List Char :=
  "$GPRMC,123519,A,4807.038,N,01131.000,E,,,230394*6A\n".toList

/-! # Theorems -/

/-! ## Tokenizer -/

theorem splitOn_memchr (s : List Char) :
    s.splitOn ',' = match memchr s ',' with
      | none => [s]
      | some q => s.take q :: (s.drop (q + 1)).splitOn ',' := by
  induction s with
  | nil => simp [memchr, List.splitOn]
  | cons x xs ih =>
    unfold List.splitOn at ih ⊢
    rw [List.splitOnP_cons]
    by_cases h : x = ','
    · subst h; simp [memchr]
    · simp only [memchr, h, if_false, beq_iff_eq]
      rw [ih]
      cases memchr xs ',' <;> simp [List.modifyHead]

theorem memchr_lt (s : List Char) (c : Char) (q : Nat) (h : memchr s c = some q) :
    q < s.length := by
  induction s generalizing q with
  | nil => simp [memchr] at h
  | cons x xs ih =>
    simp only [memchr] at h
    split at h
    · simp at h; subst h; simp
    · cases hm : memchr xs c with
      | none => simp [hm] at h
      | some k =>
        simp [hm] at h; subst h
        have := ih k hm
        simp; omega

theorem pieces_memchr (s : List Char) :
    pieces s = match memchr s ',' with
      | none => if s = [] then [] else [s]
      | some q => (if q = 0 then [] else [s.take q]) ++ pieces (s.drop (q + 1)) := by
  unfold pieces
  rw [splitOn_memchr]
  cases hm : memchr s ',' with
  | none =>
    by_cases hs : s = [] <;> simp [hs, List.filter]
  | some q =>
    have hq := memchr_lt s ',' q hm
    by_cases h0 : q = 0
    · subst h0; simp [List.filter]
    · have : s.take q ≠ [] := by
        intro h
        have h1 := congrArg List.length h
        rw [List.length_take, List.length_nil] at h1
        omega
      simp [h0, List.filter, this]

theorem bytes_snprintf (rest : List Char) (q : Nat) (hq : q ≤ rest.length)
    (h127 : q ≤ 127) (hnul : NUL ∉ rest.take q) :
    Token.bytes { buff := snprintf_s rest, init := true, span := some q } = rest.take q := by
  have hsplit : rest = rest.take q ++ rest.drop q := (List.take_append_drop q rest).symm
  have htw : (rest.takeWhile (fun c => c != NUL)) =
      rest.take q ++ (rest.drop q).takeWhile (fun c => c != NUL) := by
    conv_lhs => rw [hsplit]
    rw [List.takeWhile_append_of_pos]
    intro c hc
    simp only [bne_iff_ne, ne_eq]
    intro h; subst h; exact hnul hc
  have hlen : (rest.take q).length = q := by simp [hq]
  unfold Token.bytes Token.len snprintf_s
  simp only [Option.getD_some]
  rw [htw, List.take_take]
  have : min q 127 = q := by omega
  rw [this, List.take_left' hlen]
  have : q - (List.take 127 (List.take q rest ++
      List.takeWhile (fun c => c != NUL) (List.drop q rest))).length = 0 := by
    simp [hq]; omega
  rw [this]; simp

theorem loop_nil (fuel : Nat) (t : NmeaTokenizer) : nmea_tokenizer_loop fuel [] t = t := by
  cases fuel <;> simp [nmea_tokenizer_loop]

theorem take_full {α : Type} (A B : List α) (h : A.length = 16) : (A ++ B).take 16 = A := by
  rw [← h]; exact List.take_left _ _

/-- One round of the loop, in terms of the first piece. -/
theorem loop_step (fuel : Nat) (rest : List Char) (t : NmeaTokenizer) (hne : rest ≠ []) :
    nmea_tokenizer_loop (fuel + 1) rest t =
      match memchr rest ',' with
      | none =>
        nmea_tokenizer_loop fuel []
          (if t.count < 16 then
            { count := t.count + 1,
              tokens := t.tokens ++
                [{ buff := snprintf_s rest, init := true, span := some rest.length }] }
           else t)
      | some q =>
        nmea_tokenizer_loop fuel (rest.drop (q + 1))
          (if q = 0 then t
           else if t.count < 16 then
            { count := t.count + 1,
              tokens := t.tokens ++
                [{ buff := snprintf_s rest, init := true, span := some q }] }
           else t) := by
  have hlen : rest.length ≠ 0 := by simpa using hne
  have hpos : 0 < rest.length := Nat.pos_of_ne_zero hlen
  cases hm : memchr rest ',' with
  | none =>
    simp only [nmea_tokenizer_loop, hlen, if_false, hm, Option.getD_none, hpos, if_true,
      MAX_NMEA_TOKENS, gt_iff_lt, lt_irrefl, List.drop_length]
  | some q =>
    have hq := memchr_lt rest ',' q hm
    by_cases h0 : q = 0
    · subst h0
      simp only [nmea_tokenizer_loop, hlen, if_false, hm, Option.getD_some, hpos, if_true,
        gt_iff_lt, lt_irrefl]
    · have hq0 : 0 < q := Nat.pos_of_ne_zero h0
      simp only [nmea_tokenizer_loop, hlen, if_false, hm, Option.getD_some, hq, if_true,
        gt_iff_lt, hq0, h0, MAX_NMEA_TOKENS]

theorem loop_spec : ∀ (fuel : Nat) (rest : List Char) (t : NmeaTokenizer),
    rest.length ≤ fuel → t.count = t.tokens.length → t.count ≤ 16 →
    (∀ f ∈ (pieces rest).take (16 - t.count), f.length ≤ 127 ∧ NUL ∉ f) →
    (nmea_tokenizer_loop fuel rest t).tokens.map Token.bytes
        = (t.tokens.map Token.bytes ++ pieces rest).take 16 ∧
    (nmea_tokenizer_loop fuel rest t).count
        = (nmea_tokenizer_loop fuel rest t).tokens.length ∧
    (∀ tok ∈ (nmea_tokenizer_loop fuel rest t).tokens,
        tok ∈ t.tokens ∨ (tok.init = true ∧ tok.span ≠ none)) := by
  intro fuel
  induction fuel with
  | zero =>
    intro rest t hf hc h16 _
    have hr : rest = [] := List.eq_nil_of_length_eq_zero (Nat.le_zero.mp hf)
    subst hr
    refine ⟨?_, hc, fun tok h => Or.inl h⟩
    simp only [nmea_tokenizer_loop, pieces_memchr, memchr, if_true, List.append_nil]
    rw [List.take_of_length_le]; simp; omega
  | succ fuel ih =>
    intro rest t hf hc h16 H
    by_cases hne : rest = []
    · subst hne
      rw [loop_nil]
      refine ⟨?_, hc, fun tok h => Or.inl h⟩
      simp only [pieces_memchr, memchr, if_true, List.append_nil]
      rw [List.take_of_length_le]; simp; omega
    · rw [loop_step fuel rest t hne]
      rw [pieces_memchr] at H ⊢
      cases hm : memchr rest ',' with
      | none =>
        simp only [hm, hne, if_false] at H ⊢
        rw [loop_nil]
        by_cases hlt : t.count < 16
        · have hmem : rest ∈ List.take (16 - t.count) [rest] := by
            have : 16 - t.count = (16 - t.count - 1) + 1 := by omega
            rw [this]; simp
          obtain ⟨h127, hnul⟩ := H rest hmem
          have hb := bytes_snprintf rest rest.length (le_refl _) h127 (by simpa using hnul)
          simp only [hlt, if_true, List.map_append, List.map_cons, List.map_nil, hb,
            List.take_length]
          refine ⟨?_, ?_, ?_⟩
          · rw [List.take_of_length_le]; simp; omega
          · simp; omega
          · intro tok htok
            rcases List.mem_append.mp htok with h | h
            · exact Or.inl h
            · right; simp at h; subst h; simp
        · simp only [hlt, if_false]
          refine ⟨?_, hc, fun tok h => Or.inl h⟩
          rw [take_full]; simp; omega
      | some q =>
        have hq := memchr_lt rest ',' q hm
        simp only [hm] at H ⊢
        have hf' : (rest.drop (q + 1)).length ≤ fuel := by
          simp only [List.length_drop]; omega
        by_cases h0 : q = 0
        · subst h0
          simp only [if_true, List.nil_append] at H ⊢
          exact ih _ t hf' hc h16 H
        · simp only [h0, if_false] at H ⊢
          by_cases hlt : t.count < 16
          · have hsplit : 16 - t.count = (16 - t.count - 1) + 1 := by omega
            rw [hsplit] at H
            simp only [List.singleton_append, List.take_succ_cons, List.mem_cons] at H
            obtain ⟨h127, hnul⟩ := H (rest.take q) (Or.inl rfl)
            have h127' : q ≤ 127 := by
              rw [List.length_take] at h127; omega
            have hb := bytes_snprintf rest q (le_of_lt hq) h127' hnul
            simp only [hlt, if_true]
            have := ih (rest.drop (q + 1))
              { count := t.count + 1,
                tokens := t.tokens ++
                  [{ buff := snprintf_s rest, init := true, span := some q }] }
              hf' (by simp; omega) (by simp; omega)
              (by
                intro f hfm
                apply H f
                right
                have : 16 - (t.count + 1) = 16 - t.count - 1 := by omega
                simpa [this] using hfm)
            obtain ⟨h1, h2, h3⟩ := this
            refine ⟨?_, h2, ?_⟩
            · rw [h1]; simp [hb]
            · intro tok htok
              rcases h3 tok htok with h | h
              · rcases List.mem_append.mp h with h | h
                · exact Or.inl h
                · right; simp at h; subst h; simp
              · exact Or.inr h
          · simp only [hlt, if_false]
            have hc16 : t.count = 16 := by omega
            have := ih (rest.drop (q + 1)) t hf' hc h16
              (by intro f hfm; simp [hc16] at hfm)
            obtain ⟨h1, h2, h3⟩ := this
            refine ⟨?_, h2, h3⟩
            rw [h1, take_full, take_full] <;> simp <;> omega
theorem getD_concat_last (r : List Char) (a d : Char) :
    (r ++ [a]).getD ((r ++ [a]).length - 1) d = a := by
  simp [List.getD_eq_getElem?_getD, List.getElem?_append_right]

theorem take_concat_last (r : List Char) (a : Char) :
    (r ++ [a]).take ((r ++ [a]).length - 1) = r := by
  simp

theorem dropDollar_eq (line : List Char) :
    (if 0 < line.length ∧ line.getD 0 NUL = '$' then line.drop 1 else line)
      = dropDollar line := by
  cases line with
  | nil => simp [dropDollar]
  | cons x xs =>
    by_cases h : x = '$'
    · subst h; simp [dropDollar]
    · simp only [List.length_cons, Nat.zero_lt_succ, List.getD_cons_zero, h, and_false, if_false]
      unfold dropDollar
      split
      · rename_i heq; simp at heq; exact absurd heq.1 h
      · rfl

theorem dropNewline_eq (s1 : List Char) :
    (if s1.length > 0 ∧ s1.getD (s1.length - 1) NUL = '\n' then
      (if (s1.take (s1.length - 1)).length > 0 ∧
          (s1.take (s1.length - 1)).getD ((s1.take (s1.length - 1)).length - 1) NUL = '\r'
        then (s1.take (s1.length - 1)).take ((s1.take (s1.length - 1)).length - 1)
        else s1.take (s1.length - 1))
    else s1) = dropNewline s1 := by
  rcases List.eq_nil_or_concat s1 with rfl | ⟨r, a, rfl⟩
  · simp [dropNewline]
  · rw [List.concat_eq_append, take_concat_last, getD_concat_last]
    unfold dropNewline
    simp only [List.reverse_append, List.reverse_singleton, List.singleton_append]
    by_cases ha : a = '\n'
    · subst ha
      rcases List.eq_nil_or_concat r with rfl | ⟨r2, b, rfl⟩
      · simp
      · rw [List.concat_eq_append, take_concat_last, getD_concat_last]
        simp only [List.reverse_append, List.reverse_singleton, List.singleton_append]
        by_cases hb : b = '\r'
        · subst hb; simp
        · simp only [hb, and_false, if_false]
          split <;> simp_all
    · simp only [ha, and_false, if_false]
      split
      · rename_i heq; simp at heq; exact absurd heq.1 ha
      · rename_i heq; simp at heq; exact absurd heq.1 ha
      · rfl

theorem dropChecksum_eq (s2 : List Char) :
    (if s2.length ≥ 3 ∧ s2.getD (s2.length - 3) NUL = '*' then s2.take (s2.length - 3)
     else s2) = dropChecksum s2 := by
  rcases List.eq_nil_or_concat s2 with rfl | ⟨r, a, rfl⟩
  · simp [dropChecksum]
  rcases List.eq_nil_or_concat r with rfl | ⟨r, b, rfl⟩
  · simp [dropChecksum]
  rcases List.eq_nil_or_concat r with rfl | ⟨r, c, rfl⟩
  · simp [dropChecksum]
  simp only [List.concat_eq_append]
  have hlen : (r ++ [c] ++ [b] ++ [a]).length - 3 = r.length := by simp
  have hget : (r ++ [c] ++ [b] ++ [a]).getD r.length NUL = c := by
    rw [List.append_assoc, List.append_assoc, List.getD_eq_getElem?_getD,
      List.getElem?_append_right (le_refl _)]
    simp
  have htake : (r ++ [c] ++ [b] ++ [a]).take r.length = r := by
    simp [List.append_assoc, List.take_left']
  rw [hlen, hget, htake]
  unfold dropChecksum
  simp only [List.reverse_append, List.reverse_singleton, List.singleton_append]
  by_cases hc : c = '*'
  · subst hc; simp
  · have : ¬ ((r ++ [c] ++ [b] ++ [a]).length ≥ 3 ∧ c = '*') := fun h => hc h.2
    simp only [this, if_false]
    split
    · rename_i heq; simp at heq; exact absurd heq.2.2.1 hc
    · rfl

theorem tokenizer_init_eq (line : List Char) :
    nmea_tokenizer_init line =
      nmea_tokenizer_loop (trimLine line).length (trimLine line) { count := 0, tokens := [] } := by
  unfold nmea_tokenizer_init trimLine
  simp only [dropDollar_eq, dropNewline_eq, dropChecksum_eq]

theorem tokenizer_init_pieces_of_bound (line : List Char)
    (h : ∀ f ∈ (pieces (trimLine line)).take 16, f.length ≤ 127 ∧ NUL ∉ f) :
    (nmea_tokenizer_init line).tokens.map Token.bytes = (pieces (trimLine line)).take 16 ∧
    (nmea_tokenizer_init line).count = min 16 (pieces (trimLine line)).length ∧
    (nmea_tokenizer_init line).tokens.length = (nmea_tokenizer_init line).count ∧
    ∀ tok ∈ (nmea_tokenizer_init line).tokens, tok.init = true := by
  rw [tokenizer_init_eq]
  obtain ⟨h1, h2, h3⟩ := loop_spec (trimLine line).length (trimLine line)
    { count := 0, tokens := [] } (le_refl _) rfl (Nat.zero_le _) (by simpa using h)
  simp only [List.map_nil, List.nil_append] at h1
  refine ⟨h1, ?_, h2.symm, ?_⟩
  · rw [h2]
    have := congrArg List.length h1
    simpa [List.length_take] using this
  · intro tok htok
    rcases h3 tok htok with h | h
    · simp at h
    · exact h.1

theorem pieces_sublist (n : Nat) : ∀ (s : List Char), s.length ≤ n →
    ∀ f ∈ pieces s, f.Sublist s := by
  induction n with
  | zero =>
    intro s hs f hf
    have : s = [] := List.length_eq_zero.mp (Nat.le_zero.mp hs)
    subst this
    rw [pieces_memchr] at hf
    simp [memchr] at hf
  | succ k ih =>
    intro s hs f hf
    rw [pieces_memchr] at hf
    cases hm : memchr s ',' with
    | none =>
      rw [hm] at hf
      dsimp only at hf
      split at hf
      · simp at hf
      · simp only [List.mem_singleton] at hf
        rw [hf]
    | some q =>
      rw [hm] at hf
      dsimp only at hf
      have hq := memchr_lt s ',' q hm
      rcases List.mem_append.mp hf with h1 | h1
      · split at h1
        · simp at h1
        · simp only [List.mem_singleton] at h1
          rw [h1]
          exact List.take_sublist q s
      · have hlen : (s.drop (q + 1)).length ≤ k := by
          rw [List.length_drop]; omega
        exact (ih _ hlen f h1).trans (List.drop_sublist _ s)

theorem dropDollar_sublist (s : List Char) : (dropDollar s).Sublist s := by
  unfold dropDollar
  split
  · exact List.sublist_cons_self _ _
  · exact List.Sublist.refl _

theorem reverse_cons_sublist (s r pre : List Char) (h : s.reverse = pre ++ r) :
    r.reverse.Sublist s := by
  have : s = r.reverse ++ pre.reverse := by
    have := congrArg List.reverse h
    rwa [List.reverse_reverse, List.reverse_append] at this
  rw [this]
  exact List.sublist_append_left _ _

theorem dropNewline_sublist (s : List Char) : (dropNewline s).Sublist s := by
  unfold dropNewline
  split
  · rename_i r h
    exact reverse_cons_sublist s r ['\n', '\r'] h
  · rename_i r _ h
    exact reverse_cons_sublist s r ['\n'] h
  · exact List.Sublist.refl _

theorem dropChecksum_sublist (s : List Char) : (dropChecksum s).Sublist s := by
  unfold dropChecksum
  split
  · rename_i a b r h
    exact reverse_cons_sublist s r [a, b, '*'] h
  · exact List.Sublist.refl _

theorem trimLine_sublist (line : List Char) : (trimLine line).Sublist line := by
  unfold trimLine
  exact ((dropChecksum_sublist _).trans (dropNewline_sublist _)).trans (dropDollar_sublist _)

theorem pieces_of_short_line (line : List Char) (hn : NUL ∉ line) (hl : line.length ≤ 127) :
    ∀ f ∈ (pieces (trimLine line)).take 16, f.length ≤ 127 ∧ NUL ∉ f := by
  intro f hf
  have h1 := pieces_sublist _ (trimLine line) (le_refl _) f (List.mem_of_mem_take hf)
  have h2 := h1.trans (trimLine_sublist line)
  exact ⟨le_trans h2.length_le hl, fun hm => hn (h2.subset hm)⟩

/-- C1 (as amended): for every input line whose first 16 non-empty pieces, after
trimming (one optional leading `$`, then one trailing `\n` with an optional
`\r` before it, then a 3-byte suffix whose first byte is `*`), are each at most
127 bytes long and free of NUL bytes, `nmea_tokenizer_init` produces, in order,
exactly those pieces, truncated to the first 16; the returned count is
`min 16 (number of non-empty pieces)`, and every token has its `init` flag set.
Every line of at most 127 bytes that is free of NUL bytes is such a line, so
every NUL-free line that `nmea_reader_parse` passes, of at most 83 bytes. -/
theorem nmea_tokenizer_init_pieces (line : List Char) :
    ((∀ f ∈ (pieces (trimLine line)).take 16, f.length ≤ 127 ∧ NUL ∉ f) →
      (nmea_tokenizer_init line).tokens.map Token.bytes = (pieces (trimLine line)).take 16 ∧
      (nmea_tokenizer_init line).count = min 16 (pieces (trimLine line)).length ∧
      (nmea_tokenizer_init line).tokens.length = (nmea_tokenizer_init line).count ∧
      ∀ tok ∈ (nmea_tokenizer_init line).tokens, tok.init = true) ∧
    (NUL ∉ line → line.length ≤ 127 →
      (∀ f ∈ (pieces (trimLine line)).take 16, f.length ≤ 127 ∧ NUL ∉ f) ∧
      (nmea_tokenizer_init line).tokens.map Token.bytes = (pieces (trimLine line)).take 16 ∧
      (nmea_tokenizer_init line).count = min 16 (pieces (trimLine line)).length ∧
      (nmea_tokenizer_init line).tokens.length = (nmea_tokenizer_init line).count ∧
      ∀ tok ∈ (nmea_tokenizer_init line).tokens, tok.init = true) :=
  ⟨tokenizer_init_pieces_of_bound line,
   fun hn hl => ⟨pieces_of_short_line line hn hl,
     tokenizer_init_pieces_of_bound line (pieces_of_short_line line hn hl)⟩⟩

/-- C1, witness: the theorem applies to the sentence `$GP,,A,*47\n`, whose
pieces are `GP` and `A`, by the bound on its pieces and as a NUL-free line of
11 bytes. -/
theorem nmea_tokenizer_init_pieces_witness :
    (∀ f ∈ (pieces (trimLine "$GP,,A,*47\n".toList)).take 16, f.length ≤ 127 ∧ NUL ∉ f) ∧
    (nmea_tokenizer_init "$GP,,A,*47\n".toList).tokens.map Token.bytes
      = (pieces (trimLine "$GP,,A,*47\n".toList)).take 16 ∧
    (nmea_tokenizer_init "$GP,,A,*47\n".toList).count = 2 ∧
    (nmea_tokenizer_init "$GP,,A,*47\n".toList).tokens.length
      = (nmea_tokenizer_init "$GP,,A,*47\n".toList).count :=
  ⟨by decide,
   ((nmea_tokenizer_init_pieces "$GP,,A,*47\n".toList).1 (by decide)).1,
   ((nmea_tokenizer_init_pieces "$GP,,A,*47\n".toList).1 (by decide)).2.1.trans (by decide),
   ((nmea_tokenizer_init_pieces "$GP,,A,*47\n".toList).2 (by decide) (by decide)).2.2.2.1⟩

set_option maxRecDepth 100000 in
/-- C1, counterexample: on a line of 128 bytes `A` the only piece is the line
itself, and the token that `nmea_tokenizer_init` produces is not that piece:
its buffer holds 127 bytes `A` and the terminator.  Likewise on the 3-byte line
`A`, NUL, `B` the only piece is the line itself, while the copy into the token
stops at the NUL: the token has length 3 and its buffer holds the single byte
`A` before the terminator. -/
theorem nmea_tokenizer_init_long_piece :
    pieces (trimLine (List.replicate 128 'A')) = [List.replicate 128 'A'] ∧
    (nmea_tokenizer_init (List.replicate 128 'A')).tokens.map Token.bytes
      = [List.replicate 127 'A' ++ [NUL]] ∧
    (nmea_tokenizer_init (List.replicate 128 'A')).tokens.map Token.bytes
      ≠ (pieces (trimLine (List.replicate 128 'A'))).take 16 ∧
    pieces (trimLine ['A', NUL, 'B']) = [['A', NUL, 'B']] ∧
    (nmea_tokenizer_init ['A', NUL, 'B']).tokens.map (fun t => (t.buff, t.len))
      = [(['A'], 3)] ∧
    (nmea_tokenizer_init ['A', NUL, 'B']).tokens.map Token.bytes
      ≠ (pieces (trimLine ['A', NUL, 'B'])).take 16 := by
  decide

/-! ## Bitmask and scalar parsers -/

theorem lor_eq_zero (x y : Nat) : x ||| y = 0 ↔ x = 0 ∧ y = 0 := by
  constructor
  · intro h
    have hb : ∀ i, (x ||| y).testBit i = false := by intro i; rw [h]; simp
    constructor
    · apply Nat.zero_of_testBit_eq_false
      intro i
      have := hb i
      rw [Nat.testBit_or, Bool.or_eq_false_iff] at this
      exact this.1
    · apply Nat.zero_of_testBit_eq_false
      intro i
      have := hb i
      rw [Nat.testBit_or, Bool.or_eq_false_iff] at this
      exact this.2
  · rintro ⟨rfl, rfl⟩; rfl

theorem has_flag_or (a b k : Nat) : has_flag (a ||| b) k = (has_flag a k || has_flag b k) := by
  unfold has_flag
  rw [Nat.and_comm, Nat.and_or_distrib_left, Nat.and_comm k a, Nat.and_comm k b]
  rw [Bool.eq_iff_iff]
  simp only [bne_iff_ne, ne_eq, Bool.or_eq_true, lor_eq_zero]
  tauto

theorem has_flag_zero (k : Nat) : has_flag 0 k = false := by
  simp [has_flag]

theorem flags_or_ne_zero (a b : Nat) (hb : b ≠ 0) : a ||| b ≠ 0 := by
  intro h; exact hb ((lor_eq_zero a b).mp h).2

theorem decimal_foldl_ge (s : List Char) (acc : Nat) :
    acc ≤ s.foldl (fun a c => a * 10 + (c.toNat - 48)) acc := by
  induction s generalizing acc with
  | nil => simp
  | cons c cs ih =>
    simp only [List.foldl_cons]
    exact le_trans (by omega) (ih _)

theorem wrap32_id (x : Int) (h0 : 0 ≤ x) (h1 : x < 2147483648) : wrap32 x = x := by
  unfold wrap32; omega

theorem isdigit_iff (c : Char) :
    isdigit c = true ↔ ¬ ((c.toNat : Int) - 48 < 0 ∨ (c.toNat : Int) - 48 ≥ 10) := by
  unfold isdigit
  simp only [Bool.and_eq_true, decide_eq_true_eq]
  omega

theorem str2int_loop_digits (s : List Char) (acc : Nat) (hd : allDigits s = true)
    (hv : s.foldl (fun a c => a * 10 + (c.toNat - 48)) acc < 2147483648) :
    str2int_loop s (acc : Int) = (s.foldl (fun a c => a * 10 + (c.toNat - 48)) acc : Nat) := by
  induction s generalizing acc with
  | nil => simp [str2int_loop]
  | cons c cs ih =>
    simp only [allDigits, List.all_cons, Bool.and_eq_true] at hd
    have hc := (isdigit_iff c).mp hd.1
    simp only [List.foldl_cons] at hv ⊢
    have hge := decimal_foldl_ge cs (acc * 10 + (c.toNat - 48))
    have hcast : ((acc : Int) * 10 + ((c.toNat : Int) - 48)) = ((acc * 10 + (c.toNat - 48) : Nat) : Int) := by
      omega
    simp only [str2int_loop, hc, if_false]
    rw [hcast, wrap32_id _ (by omega) (by omega)]
    exact ih _ hd.2 hv

theorem str2int_digits (s : List Char) (hd : allDigits s = true)
    (hv : decimalValue s < 2147483648) : str2int s = (decimalValue s : Int) := by
  have := str2int_loop_digits s 0 hd hv
  simpa [str2int, decimalValue] using this

theorem str2int_loop_nondigit (s : List Char) (acc : Int) (hd : allDigits s = false) :
    str2int_loop s acc = -1 := by
  induction s generalizing acc with
  | nil => simp [allDigits] at hd
  | cons c cs ih =>
    by_cases hc : isdigit c = true
    · have hc' := (isdigit_iff c).mp hc
      simp only [str2int_loop, hc', if_false]
      apply ih
      simpa [allDigits, hc] using hd
    · have hc' : ((c.toNat : Int) - 48 < 0 ∨ (c.toNat : Int) - 48 ≥ 10) := by
        by_contra h; exact hc ((isdigit_iff c).mpr h)
      simp only [str2int_loop, hc', if_true]

theorem str2int_nondigit (s : List Char) (hd : allDigits s = false) : str2int s = -1 :=
  str2int_loop_nondigit s 0 hd

theorem has_flag_self_or (a k : Nat) (hk : k ≠ 0) : has_flag (a ||| k) k = true := by
  unfold has_flag
  rw [Nat.and_comm, Nat.and_or_distrib_left, Nat.and_self]
  simp only [bne_iff_ne, ne_eq]
  intro h
  have : k = 0 := by
    apply Nat.zero_of_testBit_eq_false
    intro i
    have := congrArg (fun n => Nat.testBit n i) h
    simp only [Nat.testBit_or, Nat.zero_testBit, Bool.or_eq_false_iff] at this
    exact this.2
  exact hk this

/-- C5 (as amended): for every valid accuracy field passed to
`nmea_reader_update_accuracy`: if the field is a string of decimal digits that
denotes a value `n` below 2^31, the stored accuracy is `n` when `n <= 200` and
the fallback 1 when `n > 200`; if the field has a byte that is not a decimal
digit, the stored accuracy is the fallback 1; the accuracy bit is set and the
function returns 0 in all cases. -/
theorem nmea_reader_update_accuracy_spec (r : NmeaReader) (tok : Token)
    (h : tok.init = true) :
    (allDigits tok.bytes = true → decimalValue tok.bytes < 2 ^ 31 →
      (nmea_reader_update_accuracy r tok).1.fix.accuracy =
        if decimalValue tok.bytes ≤ 200 then (decimalValue tok.bytes : ℚ) else 1) ∧
    (allDigits tok.bytes = false →
      (nmea_reader_update_accuracy r tok).1.fix.accuracy = 1) ∧
    has_flag (nmea_reader_update_accuracy r tok).1.fix.flags GPS_LOCATION_HAS_ACCURACY = true ∧
    (nmea_reader_update_accuracy r tok).2 = 0 := by
  refine ⟨?_, ?_, ?_, ?_⟩
  · intro hd hv
    have hs := str2int_digits tok.bytes hd (by simpa using hv)
    simp only [nmea_reader_update_accuracy, h, Bool.not_true, Bool.false_eq_true, if_false, hs]
    by_cases h200 : decimalValue tok.bytes ≤ 200
    · have : ¬ (((decimalValue tok.bytes : Nat) : Int) < 0 ∨ ((decimalValue tok.bytes : Nat) : Int) > 200) := by
        omega
      simp [this, h200]
    · have : (((decimalValue tok.bytes : Nat) : Int) < 0 ∨ ((decimalValue tok.bytes : Nat) : Int) > 200) := by
        omega
      simp [this, h200]
  · intro hd
    have hs := str2int_nondigit tok.bytes hd
    simp [nmea_reader_update_accuracy, h, hs]
  · simp only [nmea_reader_update_accuracy, h, Bool.not_true, Bool.false_eq_true, if_false]
    exact has_flag_self_or _ _ (by decide)
  · simp [nmea_reader_update_accuracy, h]

/-- C5, witness: the fields `15`, `250` and `-1` store 15, 1 and 1, each
with the accuracy bit set. -/
theorem nmea_reader_update_accuracy_spec_witness :
    (nmea_reader_update_accuracy sampleReader (Token.ofBytes "15".toList)).1.fix.accuracy = 15 ∧
    (nmea_reader_update_accuracy sampleReader (Token.ofBytes "250".toList)).1.fix.accuracy = 1 ∧
    (nmea_reader_update_accuracy sampleReader (Token.ofBytes "-1".toList)).1.fix.accuracy = 1 ∧
    has_flag (nmea_reader_update_accuracy sampleReader (Token.ofBytes "15".toList)).1.fix.flags
      GPS_LOCATION_HAS_ACCURACY = true ∧
    has_flag (nmea_reader_update_accuracy sampleReader (Token.ofBytes "250".toList)).1.fix.flags
      GPS_LOCATION_HAS_ACCURACY = true ∧
    has_flag (nmea_reader_update_accuracy sampleReader (Token.ofBytes "-1".toList)).1.fix.flags
      GPS_LOCATION_HAS_ACCURACY = true :=
  ⟨((nmea_reader_update_accuracy_spec sampleReader (Token.ofBytes "15".toList) rfl).1
      (by decide) (by decide)).trans (by decide!),
   ((nmea_reader_update_accuracy_spec sampleReader (Token.ofBytes "250".toList) rfl).1
      (by decide) (by decide)).trans (by decide!),
   (nmea_reader_update_accuracy_spec sampleReader (Token.ofBytes "-1".toList) rfl).2.1
      (by decide),
   (nmea_reader_update_accuracy_spec sampleReader (Token.ofBytes "15".toList) rfl).2.2.1,
   (nmea_reader_update_accuracy_spec sampleReader (Token.ofBytes "250".toList) rfl).2.2.1,
   (nmea_reader_update_accuracy_spec sampleReader (Token.ofBytes "-1".toList) rfl).2.2.1⟩

/-- C5, counterexample: the field `4294967311` is a string of decimal digits
that denotes a value greater than 200, and the stored accuracy is 15, not the
fallback 1: the 32-bit accumulator of `str2int` wraps around. -/
theorem nmea_reader_update_accuracy_wraps :
    allDigits (Token.ofBytes "4294967311".toList).bytes = true ∧
    decimalValue (Token.ofBytes "4294967311".toList).bytes = 4294967311 ∧
    (nmea_reader_update_accuracy sampleReader
      (Token.ofBytes "4294967311".toList)).1.fix.accuracy = 15 ∧
    (nmea_reader_update_accuracy sampleReader
      (Token.ofBytes "4294967311".toList)).1.fix.accuracy ≠ 1 := by
  decide!

/-! ## Dispatcher -/

/-- C3 (as amended): for every completed line whose raw length `r->pos` (the
leading `$`, the `*HH` suffix and the line terminator included) is shorter than
9 bytes, `nmea_reader_parse` leaves the reader (fix record, bitmask, date cache)
and the field set unchanged and calls no callback, whatever the reader and the
field set were before. -/
theorem nmea_reader_parse_short (env : Env) (r : NmeaReader) (tokens : t_all_tokens)
    (h : r.pos < 9) :
    nmea_reader_parse env r tokens = some (r, tokens, []) := by
  simp [nmea_reader_parse, h]

/-- C3, witness: the 7-byte line `$GPGGA\n` is discarded. -/
theorem nmea_reader_parse_short_witness :
    (sampleReader.withLine "$GPGGA\n".toList).pos < 9 ∧
    nmea_reader_parse sampleEnv (sampleReader.withLine "$GPGGA\n".toList) t_all_tokens.zero
      = some (sampleReader.withLine "$GPGGA\n".toList, t_all_tokens.zero, []) :=
  ⟨by decide, nmea_reader_parse_short sampleEnv _ _ (by decide)⟩

/-- C3, counterexample: the trimmed content of the line `$GPGGA,1\n` has 7
bytes, yet dispatching it sets the accuracy bit (value 16) in the bitmask of a
fresh reader, and with a callback registered the callback is called with that
record. -/
theorem nmea_reader_parse_short_trimmed :
    (trimLine "$GPGGA,1\n".toList).length < 9 ∧
    (nmea_reader_parse sampleEnv (sampleReader.withLine "$GPGGA,1\n".toList)
        t_all_tokens.zero).map (fun x => (x.1.fix.flags, x.2.2.length))
      = some (16, 0) ∧
    (nmea_reader_parse sampleEnv
        ((nmea_reader_set_callback sampleReader (some 1)).1.withLine "$GPGGA,1\n".toList)
        t_all_tokens.zero).map
          (fun x => (x.1.fix.flags, x.2.2.map (fun c => (c.1, c.2.flags))))
      = some (0, [(1, 16)]) := by
  decide!

theorem Grows.refl (r : NmeaReader) : Grows r r := ⟨rfl, rfl, rfl, rfl, fun _ h => h⟩

theorem Grows.trans {a b c : NmeaReader} (h1 : Grows a b) (h2 : Grows b c) : Grows a c :=
  ⟨h2.1.trans h1.1, h2.2.1.trans h1.2.1, h2.2.2.1.trans h1.2.2.1,
   h2.2.2.2.1.trans h1.2.2.2.1, fun k h => h2.2.2.2.2 k (h1.2.2.2.2 k h)⟩

theorem has_flag_or_left (a b k : Nat) (h : has_flag a k = true) :
    has_flag (a ||| b) k = true := by
  rw [has_flag_or, h]; rfl

theorem update_time_grows (env : Env) (r : NmeaReader) (tok : Token) :
    Grows r (nmea_reader_update_time env r tok).1 := by
  unfold nmea_reader_update_time
  split
  · exact Grows.refl r
  · split <;> exact ⟨rfl, rfl, rfl, rfl, fun _ h => h⟩

theorem update_date_grows (env : Env) (r : NmeaReader) (date time : Token) :
    Grows r (nmea_reader_update_date env r date time).1 := by
  unfold nmea_reader_update_date
  by_cases h1 : (!date.init || decide (date.len ≠ 6)) = true
  · rw [if_pos h1]; exact Grows.refl r
  · rw [if_neg h1]
    dsimp only
    split
    · exact Grows.refl r
    · refine Grows.trans ?_ (update_time_grows env _ time)
      exact ⟨rfl, rfl, rfl, rfl, fun _ h => h⟩

theorem update_latlong_grows (r : NmeaReader) (la : Token) (lah : Char) (lo : Token)
    (loh : Char) : Grows r (nmea_reader_update_latlong r la lah lo loh).1 := by
  unfold nmea_reader_update_latlong
  by_cases h1 : (!la.init || decide (la.len < 6)) = true
  · rw [if_pos h1]; exact Grows.refl r
  · rw [if_neg h1]
    dsimp only
    by_cases h2 : (!lo.init || decide (lo.len < 6)) = true
    · rw [if_pos h2]; exact Grows.refl r
    · rw [if_neg h2]
      exact ⟨rfl, rfl, rfl, rfl, fun k h => has_flag_or_left _ _ k h⟩

theorem update_altitude_grows (r : NmeaReader) (a u : Token) :
    Grows r (nmea_reader_update_altitude r a u).1 := by
  unfold nmea_reader_update_altitude
  split
  · exact Grows.refl r
  · exact ⟨rfl, rfl, rfl, rfl, fun k h => has_flag_or_left _ _ k h⟩

theorem update_bearing_grows (r : NmeaReader) (a : Token) :
    Grows r (nmea_reader_update_bearing r a).1 := by
  unfold nmea_reader_update_bearing
  split
  · exact Grows.refl r
  · exact ⟨rfl, rfl, rfl, rfl, fun k h => has_flag_or_left _ _ k h⟩

theorem update_speed_grows (r : NmeaReader) (a : Token) :
    Grows r (nmea_reader_update_speed r a).1 := by
  unfold nmea_reader_update_speed
  split
  · exact Grows.refl r
  · exact ⟨rfl, rfl, rfl, rfl, fun k h => has_flag_or_left _ _ k h⟩

theorem update_accuracy_grows (r : NmeaReader) (a : Token) :
    Grows r (nmea_reader_update_accuracy r a).1 := by
  unfold nmea_reader_update_accuracy
  split
  · exact Grows.refl r
  · exact ⟨rfl, rfl, rfl, rfl, fun k h => has_flag_or_left _ _ k h⟩

theorem parse_always_grows (env : Env) (r : NmeaReader) (tokens : t_all_tokens)
    (la lo : Char) : Grows r (nmea_reader_parse_always env r tokens la lo) := by
  unfold nmea_reader_parse_always
  exact Grows.trans (Grows.trans (Grows.trans (update_time_grows env r tokens.time)
    (update_latlong_grows _ tokens.latitude la tokens.longitude lo))
    (update_altitude_grows _ tokens.altitude tokens.altitudeUnits))
    (update_accuracy_grows _ tokens.accuracy)

theorem parse_gated_grows (env : Env) (r : NmeaReader) (tokens : t_all_tokens) :
    Grows r (nmea_reader_parse_gated env r tokens) := by
  unfold nmea_reader_parse_gated
  exact Grows.trans (Grows.trans (update_date_grows env r tokens.date tokens.time)
    (update_bearing_grows _ tokens.bearing)) (update_speed_grows _ tokens.speed)

theorem parse_updates_grows (env : Env) (r r1 : NmeaReader) (tokens : t_all_tokens)
    (h : nmea_reader_parse_updates env r tokens = some r1) : Grows r r1 := by
  unfold nmea_reader_parse_updates at h
  split at h
  · rename_i la lo _ _
    have g4 := parse_always_grows env r tokens la lo
    dsimp only at h
    split at h
    · split at h
      · split at h
        · simp only [Option.some.injEq] at h
          rw [← h]; exact Grows.trans g4 (parse_gated_grows env _ tokens)
        · simp only [Option.some.injEq] at h
          rw [← h]; exact g4
      · simp at h
    · simp only [Option.some.injEq] at h
      rw [← h]; exact g4
  · simp at h

/-- The three ways in which `nmea_reader_parse` returns. -/
theorem parse_cases (env : Env) (r r2 : NmeaReader) (tokens tokens2 : t_all_tokens)
    (calls : List FixCall) (h : nmea_reader_parse env r tokens = some (r2, tokens2, calls)) :
    ((r.pos < 9 ∨ (nmea_tokenizer_get (nmea_tokenizer_init r.in_) 0).len < 5) ∧
      r2 = r ∧ tokens2 = tokens ∧ calls = []) ∨
    (∃ r1, nmea_reader_parse_updates env r tokens2 = some r1 ∧
      r2 = (nmea_reader_parse_deliver r1).1 ∧ calls = (nmea_reader_parse_deliver r1).2) := by
  unfold nmea_reader_parse at h
  split at h
  · rename_i hpos
    simp only [Option.some.injEq, Prod.mk.injEq] at h
    exact Or.inl ⟨Or.inl hpos, h.1.symm, h.2.1.symm, h.2.2.symm⟩
  · simp only at h
    split at h
    · rename_i hlen
      simp only [Option.some.injEq, Prod.mk.injEq] at h
      exact Or.inl ⟨Or.inr hlen, h.1.symm, h.2.1.symm, h.2.2.symm⟩
    · split at h
      · rename_i r1 hr1
        simp only [Option.some.injEq, Prod.mk.injEq] at h
        right
        refine ⟨r1, ?_, h.1.symm, h.2.2.symm⟩
        rw [← h.2.1]; exact hr1
      · simp at h
theorem get_span (tz : NmeaTokenizer) (i : Int) : (nmea_tokenizer_get tz i).span ≠ none := by
  unfold nmea_tokenizer_get
  split
  · simp
  · split <;> simp

theorem parse_fields_nonNull (tz : NmeaTokenizer) (id : List Char) (tokens : t_all_tokens)
    (h : tokens.nonNull) : (nmea_reader_parse_fields tz id tokens).nonNull := by
  unfold nmea_reader_parse_fields
  split
  · exact ⟨get_span _ _, get_span _ _, get_span _ _⟩
  · split
    · exact h
    · split
      · exact ⟨get_span _ _, get_span _ _, get_span _ _⟩
      · exact h

theorem parse_updates_returns (env : Env) (r : NmeaReader) (tokens : t_all_tokens)
    (h : tokens.nonNull) : ∃ r1, nmea_reader_parse_updates env r tokens = some r1 := by
  obtain ⟨h1, h2, h3⟩ := h
  obtain ⟨a, ha⟩ := Option.ne_none_iff_exists'.mp h1
  obtain ⟨b, hb⟩ := Option.ne_none_iff_exists'.mp h2
  obtain ⟨c, hc⟩ := Option.ne_none_iff_exists'.mp h3
  unfold nmea_reader_parse_updates
  simp only [Token.first, ha, hb, hc, Option.map_some']
  split
  · split <;> exact ⟨_, rfl⟩
  · exact ⟨_, rfl⟩

theorem parse_returns (env : Env) (r : NmeaReader) (tokens : t_all_tokens)
    (h : tokens.nonNull) :
    ∃ r2 tokens2 calls, nmea_reader_parse env r tokens = some (r2, tokens2, calls) ∧
      tokens2.nonNull := by
  unfold nmea_reader_parse
  split
  · exact ⟨_, _, _, rfl, h⟩
  · dsimp only
    split
    · exact ⟨_, _, _, rfl, h⟩
    · have hn := parse_fields_nonNull (nmea_tokenizer_init r.in_)
        [(nmea_tokenizer_get (nmea_tokenizer_init r.in_) 0).byte 2,
         (nmea_tokenizer_get (nmea_tokenizer_init r.in_) 0).byte 3,
         (nmea_tokenizer_get (nmea_tokenizer_init r.in_) 0).byte 4] tokens h
      obtain ⟨r1, hr1⟩ := parse_updates_returns env r _ hn
      rw [hr1]
      exact ⟨_, _, _, rfl, hn⟩

theorem deliver_no_callback (r : NmeaReader) (h : r.callback = none) :
    nmea_reader_parse_deliver r = (r, []) := by
  unfold nmea_reader_parse_deliver
  split
  · rw [h]
  · rfl

theorem deliver_callback (r : NmeaReader) (cb : Nat) (h : r.callback = some cb)
    (hz : r.fix.flags ≠ 0) :
    nmea_reader_parse_deliver r =
      ({ r with fix := { r.fix with flags := 0 } }, [(cb, r.fix)]) := by
  unfold nmea_reader_parse_deliver
  rw [if_pos hz]
  split
  · rename_i cb1 h1
    rw [h] at h1
    simp only [Option.some.injEq] at h1
    rw [h1]
  · rename_i h1
    rw [h] at h1
    simp at h1

/-- C7: for every reader and every non-null callback,
`nmea_reader_set_callback` on a reader with a non-zero bitmask calls that
callback exactly once, with the buffered fix record (values and bitmask as
accumulated), and the bitmask is zero afterwards; on a reader with a zero
bitmask it calls nothing. -/
theorem nmea_reader_set_callback_buffered (r : NmeaReader) (cb : Nat) :
    (r.fix.flags ≠ 0 →
      nmea_reader_set_callback r (some cb) =
        ({ r with callback := some cb, fix := { r.fix with flags := 0 } }, [(cb, r.fix)])) ∧
    (r.fix.flags = 0 →
      nmea_reader_set_callback r (some cb) = ({ r with callback := some cb }, [])) := by
  constructor
  · intro h; simp [nmea_reader_set_callback, h]
  · intro h; simp [nmea_reader_set_callback, h]

/-- C8: for every reader with no callback registered and every line,
`nmea_reader_parse` calls no callback and clears no bit: every bit of the
bitmask that was set before the dispatch is still set after it.  The dispatch
does return whenever the slots of the field set that it reads hold non-null
pointers. -/
theorem nmea_reader_parse_no_callback (env : Env) (r : NmeaReader) (tokens : t_all_tokens)
    (h : r.callback = none) :
    (∀ r2 tokens2 calls, nmea_reader_parse env r tokens = some (r2, tokens2, calls) →
      calls = [] ∧ r2.callback = none ∧
      ∀ bit, has_flag r.fix.flags bit = true → has_flag r2.fix.flags bit = true) ∧
    (tokens.nonNull → ∃ res, nmea_reader_parse env r tokens = some res) := by
  constructor
  · intro r2 tokens2 calls hp
    rcases parse_cases env r r2 tokens tokens2 calls hp with ⟨_, h2, _, h4⟩ | ⟨r1, hr1, h2, h3⟩
    · subst h2; exact ⟨h4, h, fun _ hb => hb⟩
    · have g := parse_updates_grows env r r1 tokens2 hr1
      have hcb : r1.callback = none := g.1.trans h
      rw [deliver_no_callback r1 hcb] at h2 h3
      subst h2
      exact ⟨h3, hcb, g.2.2.2.2⟩
  · intro hn
    obtain ⟨r2, tokens2, calls, hp, _⟩ := parse_returns env r tokens hn
    exact ⟨_, hp⟩

/-- C7, witness: a reader that has buffered the accuracy bit delivers once on
registration; a fresh reader delivers nothing. -/
theorem nmea_reader_set_callback_buffered_witness :
    (nmea_reader_update_accuracy sampleReader (Token.ofBytes "15".toList)).1.fix.flags ≠ 0 ∧
    (nmea_reader_set_callback
      (nmea_reader_update_accuracy sampleReader (Token.ofBytes "15".toList)).1 (some 1)).2
      = [(1, (nmea_reader_update_accuracy sampleReader (Token.ofBytes "15".toList)).1.fix)] ∧
    (nmea_reader_set_callback sampleReader (some 1)).2 = [] :=
  ⟨by decide,
   congrArg Prod.snd ((nmea_reader_set_callback_buffered
      (nmea_reader_update_accuracy sampleReader (Token.ofBytes "15".toList)).1 1).1
      (by decide)),
   congrArg Prod.snd ((nmea_reader_set_callback_buffered sampleReader 1).2 rfl)⟩

/-- C8, witness: a fresh reader without callback keeps the fix of the sample
RMC sentence (bits 1, 4 and 8) and calls nothing. -/
theorem nmea_reader_parse_no_callback_witness :
    (sampleReader.withLine sampleRMC).callback = none ∧
    (nmea_reader_parse sampleEnv (sampleReader.withLine sampleRMC) t_all_tokens.zero).map
      (fun x => (x.1.fix.flags, x.2.2.length)) = some (13, 0) ∧
    (∀ r2 tokens2 calls,
      nmea_reader_parse sampleEnv (sampleReader.withLine sampleRMC) t_all_tokens.zero
        = some (r2, tokens2, calls) → calls = []) :=
  ⟨rfl, by decide!,
   fun r2 tokens2 calls hp =>
     ((nmea_reader_parse_no_callback sampleEnv (sampleReader.withLine sampleRMC)
        t_all_tokens.zero rfl).1 r2 tokens2 calls hp).1⟩

theorem statusSignals_append (a b : List Call) :
    statusSignals (a ++ b) = statusSignals a ++ statusSignals b := by
  simp [statusSignals, List.filterMap_append]

theorem statusSignals_location (l : List FixCall) :
    statusSignals (l.map (fun c => Call.location c.1 c.2)) = [] := by
  induction l with
  | nil => rfl
  | cons x xs ih =>
    simp only [statusSignals, List.map_cons, List.filterMap_cons] at ih ⊢
    exact ih

theorem statusSignals_update (state : GpsState) (cb : Nat) (val : GpsStatusValue)
    (h : state.callbacks.status_cb = some cb) :
    statusSignals (gps_update_status state val) = [val] := by
  simp [gps_update_status, h, statusSignals]

/-- C9, the code at the failing input: after `CMD_START` and `CMD_QUIT` the loop
is still running and handles what follows: a `CMD_STOP` is answered with
`GPS_STATUS_SESSION_END`, a second `CMD_QUIT` with a second
`GPS_STATUS_ENGINE_OFF`, and, in place of these, the bytes of an RMC sentence
produce a fix delivery. -/
theorem gps_state_thread_quit_continues :
    statusSignals (gps_state_thread sampleState sampleTm sampleTm t_all_tokens.zero
      [Event.control CMD_START, Event.control CMD_QUIT, Event.control CMD_STOP,
       Event.control CMD_QUIT]).2
      = [GpsStatusValue.GPS_STATUS_ENGINE_ON, GpsStatusValue.GPS_STATUS_SESSION_BEGIN,
         GpsStatusValue.GPS_STATUS_ENGINE_OFF, GpsStatusValue.GPS_STATUS_SESSION_END,
         GpsStatusValue.GPS_STATUS_ENGINE_OFF] ∧
    (gps_state_thread sampleState sampleTm sampleTm t_all_tokens.zero
      [Event.control CMD_START, Event.control CMD_QUIT, Event.control CMD_STOP,
       Event.control CMD_QUIT]).1.isRunning = true ∧
    (fixDeliveries (gps_state_thread sampleState sampleTm sampleTm t_all_tokens.zero
      [Event.control CMD_START, Event.control CMD_QUIT,
       Event.data sampleEnv sampleRMC]).2).map (fun f => f.flags) = [13] := by
  decide!

/-- C10: for every command byte applied to the session state by the control
branch of `gps_state_thread`: `CMD_START` while stopped sets the started flag,
signals `GPS_STATUS_SESSION_BEGIN` through `gps_update_status` (the status
callback, when one is registered, receives exactly that value) and registers
the location callback on the reader with `nmea_reader_set_callback`; `CMD_STOP`
while started clears the flag, signals `GPS_STATUS_SESSION_END` and
deregisters the callback; `CMD_START` while started, `CMD_STOP` while stopped
and every byte other than 0, 1, 2 change nothing and make no call. -/
theorem gps_state_thread_control_transitions (state : GpsState) (s : ThreadState)
    (cmd : Nat) :
    (cmd = CMD_START → s.started = false →
      (gps_state_thread_control state s cmd).1.started = true ∧
      (gps_state_thread_control state s cmd).1.reader
        = (nmea_reader_set_callback s.reader state.callbacks.location_cb).1 ∧
      (gps_state_thread_control state s cmd).1.reader.callback
        = state.callbacks.location_cb ∧
      (gps_state_thread_control state s cmd).2
        = gps_update_status state GpsStatusValue.GPS_STATUS_SESSION_BEGIN ++
          (nmea_reader_set_callback s.reader state.callbacks.location_cb).2.map
            (fun c => Call.location c.1 c.2) ∧
      (∀ cb, state.callbacks.status_cb = some cb →
        statusSignals (gps_state_thread_control state s cmd).2
          = [GpsStatusValue.GPS_STATUS_SESSION_BEGIN])) ∧
    (cmd = CMD_STOP → s.started = true →
      (gps_state_thread_control state s cmd).1.started = false ∧
      (gps_state_thread_control state s cmd).1.reader.callback = none ∧
      (gps_state_thread_control state s cmd).2
        = gps_update_status state GpsStatusValue.GPS_STATUS_SESSION_END ∧
      (∀ cb, state.callbacks.status_cb = some cb →
        statusSignals (gps_state_thread_control state s cmd).2
          = [GpsStatusValue.GPS_STATUS_SESSION_END])) ∧
    ((cmd = CMD_START ∧ s.started = true) ∨ (cmd = CMD_STOP ∧ s.started = false) ∨
        (cmd ≠ 0 ∧ cmd ≠ 1 ∧ cmd ≠ 2) →
      gps_state_thread_control state s cmd = (s, [])) := by
  refine ⟨?_, ?_, ?_⟩
  · intro hc hs
    subst hc
    have hcb : (nmea_reader_set_callback s.reader state.callbacks.location_cb).1.callback
        = state.callbacks.location_cb := by
      unfold nmea_reader_set_callback
      cases state.callbacks.location_cb with
      | none => rfl
      | some f => dsimp only; split <;> rfl
    have hcalls : (gps_state_thread_control state s CMD_START).2
        = gps_update_status state GpsStatusValue.GPS_STATUS_SESSION_BEGIN ++
          (nmea_reader_set_callback s.reader state.callbacks.location_cb).2.map
            (fun c => Call.location c.1 c.2) := by
      simp [gps_state_thread_control, CMD_START, CMD_QUIT, hs]
    refine ⟨?_, ?_, ?_, hcalls, ?_⟩
    · simp [gps_state_thread_control, CMD_START, CMD_QUIT, hs]
    · simp [gps_state_thread_control, CMD_START, CMD_QUIT, hs]
    · simpa [gps_state_thread_control, CMD_START, CMD_QUIT, hs] using hcb
    · intro cb hcb'
      rw [hcalls, statusSignals_append, statusSignals_location,
        statusSignals_update state cb _ hcb']
      rfl
  · intro hc hs
    subst hc
    have hcalls : (gps_state_thread_control state s CMD_STOP).2
        = gps_update_status state GpsStatusValue.GPS_STATUS_SESSION_END := by
      simp [gps_state_thread_control, CMD_START, CMD_QUIT, CMD_STOP, hs,
        nmea_reader_set_callback]
    refine ⟨?_, ?_, hcalls, ?_⟩
    · simp [gps_state_thread_control, CMD_START, CMD_QUIT, CMD_STOP, hs]
    · simp [gps_state_thread_control, CMD_START, CMD_QUIT, CMD_STOP, hs,
        nmea_reader_set_callback]
    · intro cb hcb'
      rw [hcalls, statusSignals_update state cb _ hcb']
  · rintro (⟨hc, hs⟩ | ⟨hc, hs⟩ | ⟨h0, h1, h2⟩)
    · subst hc; simp [gps_state_thread_control, CMD_START, CMD_QUIT, hs]
    · subst hc; simp [gps_state_thread_control, CMD_START, CMD_QUIT, CMD_STOP, hs]
    · simp [gps_state_thread_control, CMD_START, CMD_QUIT, CMD_STOP, h0, h1, h2]

/-- C10, witness: in a fresh, stopped session with both callbacks registered,
`CMD_START` starts the session, registers callback 1 and signals
`GPS_STATUS_SESSION_BEGIN`; the byte 7 changes nothing. -/
theorem gps_state_thread_control_transitions_witness :
    (gps_state_thread_control sampleState
      { reader := sampleReader, started := false, tokens := t_all_tokens.zero }
      CMD_START).1.started = true ∧
    (gps_state_thread_control sampleState
      { reader := sampleReader, started := false, tokens := t_all_tokens.zero }
      CMD_START).1.reader.callback = some 1 ∧
    statusSignals (gps_state_thread_control sampleState
      { reader := sampleReader, started := false, tokens := t_all_tokens.zero }
      CMD_START).2 = [GpsStatusValue.GPS_STATUS_SESSION_BEGIN] ∧
    (gps_state_thread_control sampleState
      { reader := sampleReader, started := false, tokens := t_all_tokens.zero } 7).2 = [] :=
  ⟨((gps_state_thread_control_transitions sampleState
      { reader := sampleReader, started := false, tokens := t_all_tokens.zero }
      CMD_START).1 rfl rfl).1,
   ((gps_state_thread_control_transitions sampleState
      { reader := sampleReader, started := false, tokens := t_all_tokens.zero }
      CMD_START).1 rfl rfl).2.2.1,
   ((gps_state_thread_control_transitions sampleState
      { reader := sampleReader, started := false, tokens := t_all_tokens.zero }
      CMD_START).1 rfl rfl).2.2.2.2 2 rfl,
   congrArg Prod.snd ((gps_state_thread_control_transitions sampleState
      { reader := sampleReader, started := false, tokens := t_all_tokens.zero }
      7).2.2 (Or.inr (Or.inr ⟨by decide, by decide, by decide⟩)))⟩

/-! ## RMC and GGA sentences -/

theorem snprintf_s_idem (s : List Char) : snprintf_s (snprintf_s s) = snprintf_s s := by
  unfold snprintf_s
  have h : ∀ c ∈ List.take 127 (List.takeWhile (fun c => c != NUL) s), (c != NUL) = true := by
    intro c hc
    exact List.mem_takeWhile_imp (p := fun c => c != NUL) (List.mem_of_mem_take hc)
  rw [List.takeWhile_eq_self_iff.mpr h, List.take_take]
  simp

theorem Token.bytes_length (t : Token) : t.bytes.length = t.len := by
  unfold Token.bytes
  simp only [List.length_append, List.length_take, List.length_replicate]
  omega

/-- What holds of every token that the tokenizer stores. -/
theorem loop_inv : ∀ (fuel : Nat) (rest : List Char) (t : NmeaTokenizer),
    t.count = t.tokens.length →
    (∀ tok ∈ t.tokens, tok.init = true ∧ (∃ q, tok.span = some q) ∧
      snprintf_s tok.buff = tok.buff) →
    (nmea_tokenizer_loop fuel rest t).count = (nmea_tokenizer_loop fuel rest t).tokens.length ∧
    (∀ tok ∈ (nmea_tokenizer_loop fuel rest t).tokens,
      tok.init = true ∧ (∃ q, tok.span = some q) ∧ snprintf_s tok.buff = tok.buff) ∧
    ((nmea_tokenizer_loop fuel rest t).tokens.map Token.len).sum
      ≤ (t.tokens.map Token.len).sum + rest.length := by
  intro fuel
  induction fuel with
  | zero => intro rest t hc hw; exact ⟨hc, hw, Nat.le_add_right _ _⟩
  | succ fuel ih =>
    intro rest t hc hw
    by_cases hne : rest = []
    · subst hne; rw [loop_nil]; exact ⟨hc, hw, Nat.le_add_right _ _⟩
    · rw [loop_step fuel rest t hne]
      have hpush : ∀ q, q ≤ rest.length →
          let t1 : NmeaTokenizer :=
            { count := t.count + 1,
              tokens := t.tokens ++
                [{ buff := snprintf_s rest, init := true, span := some q }] }
          t1.count = t1.tokens.length ∧
          (∀ tok ∈ t1.tokens, tok.init = true ∧ (∃ q, tok.span = some q) ∧
            snprintf_s tok.buff = tok.buff) ∧
          (t1.tokens.map Token.len).sum = (t.tokens.map Token.len).sum + q := by
        intro q _
        refine ⟨by simp [hc], ?_, by simp [Token.len]⟩
        intro tok htok
        rcases List.mem_append.mp htok with h | h
        · exact hw tok h
        · simp only [List.mem_singleton] at h
          subst h
          exact ⟨rfl, ⟨q, rfl⟩, snprintf_s_idem rest⟩
      cases hm : memchr rest ',' with
      | none =>
        simp only
        rw [loop_nil]
        split
        · obtain ⟨h1, h2, h3⟩ := hpush rest.length (le_refl _)
          exact ⟨h1, h2, le_of_eq h3⟩
        · exact ⟨hc, hw, Nat.le_add_right _ _⟩
      | some q =>
        have hq := memchr_lt rest ',' q hm
        have hlen : (rest.drop (q + 1)).length + q + 1 = rest.length := by
          simp only [List.length_drop]; omega
        simp only
        split
        · obtain ⟨h1, h2, h3⟩ := ih (rest.drop (q + 1)) t hc hw
          exact ⟨h1, h2, by omega⟩
        · split
          · obtain ⟨p1, p2, p3⟩ := hpush q (le_of_lt hq)
            obtain ⟨h1, h2, h3⟩ := ih (rest.drop (q + 1)) _ p1 p2
            exact ⟨h1, h2, by omega⟩
          · obtain ⟨h1, h2, h3⟩ := ih (rest.drop (q + 1)) t hc hw
            exact ⟨h1, h2, by omega⟩

theorem trimLine_length_le (line : List Char) : (trimLine line).length ≤ line.length := by
  have h1 : (dropDollar line).length ≤ line.length := by
    rw [← dropDollar_eq]; split <;> simp
  have h2 : ∀ s : List Char, (dropNewline s).length ≤ s.length := by
    intro s; rw [← dropNewline_eq]; split
    · split
      · simp; omega
      · simp
    · exact le_refl _
  have h3 : ∀ s : List Char, (dropChecksum s).length ≤ s.length := by
    intro s; rw [← dropChecksum_eq]; split <;> simp
  exact le_trans (h3 _) (le_trans (h2 _) h1)

theorem tokenizer_inv (line : List Char) :
    (nmea_tokenizer_init line).count = (nmea_tokenizer_init line).tokens.length ∧
    (∀ tok ∈ (nmea_tokenizer_init line).tokens,
      tok.init = true ∧ (∃ q, tok.span = some q) ∧ snprintf_s tok.buff = tok.buff) ∧
    ((nmea_tokenizer_init line).tokens.map Token.len).sum ≤ line.length := by
  rw [tokenizer_init_eq]
  obtain ⟨h1, h2, h3⟩ := loop_inv (trimLine line).length (trimLine line)
    { count := 0, tokens := [] } rfl (by simp)
  refine ⟨h1, h2, le_trans h3 ?_⟩
  simpa using trimLine_length_le line

/-- The token that `nmea_tokenizer_get` returns for a field that the tokenizer
has stored. -/
theorem get_of_field (line : List Char) (i : Nat) (f : List Char)
    (h : ((nmea_tokenizer_init line).tokens.map Token.bytes).get? i = some f) :
    (nmea_tokenizer_get (nmea_tokenizer_init line) (i : Int)).init = true ∧
    (nmea_tokenizer_get (nmea_tokenizer_init line) (i : Int)).span = some f.length ∧
    (nmea_tokenizer_get (nmea_tokenizer_init line) (i : Int)).bytes = f := by
  obtain ⟨hc, hw, _⟩ := tokenizer_inv line
  rw [List.get?_eq_getElem?, List.getElem?_map, ← List.get?_eq_getElem?] at h
  cases hs : (nmea_tokenizer_init line).tokens.get? i with
  | none => rw [hs] at h; simp at h
  | some src =>
    rw [hs] at h
    simp only [Option.map_some', Option.some.injEq] at h
    have hi : i < (nmea_tokenizer_init line).tokens.length := by
      rw [List.get?_eq_some] at hs; exact hs.1
    have hmem : src ∈ (nmea_tokenizer_init line).tokens := List.get?_mem hs
    obtain ⟨_, ⟨q, hq⟩, hfix⟩ := hw src hmem
    have hrange : ¬ ((i : Int) < 0 ∨ (i : Int) ≥ ((nmea_tokenizer_init line).count : Int)) := by
      rw [hc]; omega
    have hget : nmea_tokenizer_get (nmea_tokenizer_init line) (i : Int)
        = { buff := snprintf_s src.buff, init := true, span := some src.len } := by
      unfold nmea_tokenizer_get
      rw [if_neg hrange]
      simp only [Int.toNat_ofNat, hs]
    have hlen : src.len = f.length := by rw [← h, Token.bytes_length]
    rw [hget]
    refine ⟨rfl, by rw [hlen], ?_⟩
    rw [← h]
    simp only [Token.bytes, Token.len, hfix, Option.getD_some]

theorem Token.byte_of_bytes (t : Token) (k : Nat) (h : k < t.len) :
    t.byte k = t.bytes.getD k NUL := by
  unfold Token.byte Token.bytes
  simp only [List.getD_eq_getElem?_getD]
  by_cases hk : k < t.buff.length
  · rw [List.getElem?_append_left (by simp [List.length_take]; omega)]
    rw [List.getElem?_take_of_lt h]
  · have hk' : t.buff.length ≤ k := Nat.le_of_not_lt hk
    have hlen : (List.take t.len t.buff).length = t.buff.length := by
      rw [List.length_take]; omega
    rw [List.getElem?_append_right (by omega), hlen]
    rw [List.getElem?_eq_none hk']
    rw [List.getElem?_replicate]
    split <;> rfl

theorem sum_len_eq (l : List Token) :
    (l.map Token.len).sum = ((l.map Token.bytes).map List.length).sum := by
  induction l with
  | nil => rfl
  | cons t ts ih => simp only [List.map_cons, List.sum_cons, ih, Token.bytes_length]

theorem Token.first_of_span (t : Token) (n : Nat) (h : t.span = some n) :
    t.first = some (t.byte 0) := by
  simp [Token.first, h]

theorem Token.len_of_span (t : Token) (n : Nat) (h : t.span = some n) : t.len = n := by
  simp [Token.len, h]

theorem parse_fields_rmc (tz : NmeaTokenizer) (tokens : t_all_tokens) :
    nmea_reader_parse_fields tz ['R', 'M', 'C'] tokens =
      { tokens with
          time := nmea_tokenizer_get tz 1,
          fixStatus := nmea_tokenizer_get tz 2,
          latitude := nmea_tokenizer_get tz 3,
          latitudeHemi := nmea_tokenizer_get tz 4,
          longitude := nmea_tokenizer_get tz 5,
          longitudeHemi := nmea_tokenizer_get tz 6,
          speed := nmea_tokenizer_get tz 7,
          bearing := nmea_tokenizer_get tz 8,
          date := nmea_tokenizer_get tz 9 } := by
  unfold nmea_reader_parse_fields
  rw [if_neg (by decide), if_neg (by decide), if_pos rfl]

/-! ### What each update routine changes -/

theorem update_time_frame (env : Env) (r : NmeaReader) (tok : Token) :
    (nmea_reader_update_time env r tok).1.fix.flags = r.fix.flags ∧
    (nmea_reader_update_time env r tok).1.fix.latitude = r.fix.latitude ∧
    (nmea_reader_update_time env r tok).1.fix.longitude = r.fix.longitude ∧
    (nmea_reader_update_time env r tok).1.fix.altitude = r.fix.altitude ∧
    (nmea_reader_update_time env r tok).1.fix.speed = r.fix.speed ∧
    (nmea_reader_update_time env r tok).1.fix.bearing = r.fix.bearing ∧
    (nmea_reader_update_time env r tok).1.fix.accuracy = r.fix.accuracy ∧
    (0 ≤ r.utc_year →
      (nmea_reader_update_time env r tok).1.utc_year = r.utc_year ∧
      (nmea_reader_update_time env r tok).1.utc_mon = r.utc_mon ∧
      (nmea_reader_update_time env r tok).1.utc_day = r.utc_day) := by
  unfold nmea_reader_update_time
  by_cases h1 : (!tok.init || decide (tok.len < 6)) = true
  · rw [if_pos h1]; simp
  · rw [if_neg h1]
    by_cases h2 : r.utc_year < 0
    · dsimp only
      rw [if_pos h2]
      exact ⟨rfl, rfl, rfl, rfl, rfl, rfl, rfl, fun h => absurd h2 (not_lt.mpr h)⟩
    · dsimp only
      rw [if_neg h2]
      exact ⟨rfl, rfl, rfl, rfl, rfl, rfl, rfl, fun _ => ⟨rfl, rfl, rfl⟩⟩

theorem update_time_fresh (env : Env) (r : NmeaReader) (tok : Token)
    (hi : tok.init = true) (hl : 6 ≤ tok.len) (hy : r.utc_year < 0) :
    (nmea_reader_update_time env r tok).1.utc_year = env.year ∧
    (nmea_reader_update_time env r tok).1.utc_mon = env.mon ∧
    (nmea_reader_update_time env r tok).1.utc_day = env.mday := by
  have h1 : ¬ (!tok.init || decide (tok.len < 6)) = true := by simp [hi]; omega
  unfold nmea_reader_update_time
  rw [if_neg h1]
  dsimp only
  rw [if_pos hy]
  exact ⟨rfl, rfl, rfl⟩

theorem update_latlong_valid (r : NmeaReader) (la : Token) (lah : Char) (lo : Token)
    (loh : Char) (h1 : la.init = true) (h2 : 6 ≤ la.len) (h3 : lo.init = true)
    (h4 : 6 ≤ lo.len) :
    nmea_reader_update_latlong r la lah lo loh =
      ({ r with fix := { r.fix with
            flags := r.fix.flags ||| GPS_LOCATION_HAS_LAT_LONG,
            latitude := if lah = 'S' then - convert_from_hhmm la else convert_from_hhmm la,
            longitude := if loh = 'W' then - convert_from_hhmm lo
                         else convert_from_hhmm lo } }, 0) := by
  have g1 : ¬ (!la.init || decide (la.len < 6)) = true := by simp [h1]; omega
  have g2 : ¬ (!lo.init || decide (lo.len < 6)) = true := by simp [h3]; omega
  unfold nmea_reader_update_latlong
  rw [if_neg g1]
  dsimp only
  rw [if_neg g2]

theorem update_altitude_frame (r : NmeaReader) (a u : Token) :
    ((nmea_reader_update_altitude r a u).1.fix.flags = r.fix.flags ∨
      (nmea_reader_update_altitude r a u).1.fix.flags
        = r.fix.flags ||| GPS_LOCATION_HAS_ALTITUDE) ∧
    (nmea_reader_update_altitude r a u).1.fix.latitude = r.fix.latitude ∧
    (nmea_reader_update_altitude r a u).1.fix.longitude = r.fix.longitude ∧
    (nmea_reader_update_altitude r a u).1.fix.speed = r.fix.speed ∧
    (nmea_reader_update_altitude r a u).1.fix.bearing = r.fix.bearing ∧
    (nmea_reader_update_altitude r a u).1.fix.accuracy = r.fix.accuracy ∧
    (nmea_reader_update_altitude r a u).1.fix.timestamp = r.fix.timestamp ∧
    (nmea_reader_update_altitude r a u).1.utc_year = r.utc_year ∧
    (nmea_reader_update_altitude r a u).1.utc_mon = r.utc_mon ∧
    (nmea_reader_update_altitude r a u).1.utc_day = r.utc_day := by
  unfold nmea_reader_update_altitude
  split
  · exact ⟨Or.inl rfl, rfl, rfl, rfl, rfl, rfl, rfl, rfl, rfl, rfl⟩
  · exact ⟨Or.inr rfl, rfl, rfl, rfl, rfl, rfl, rfl, rfl, rfl, rfl⟩

theorem update_accuracy_frame (r : NmeaReader) (a : Token) :
    ((nmea_reader_update_accuracy r a).1.fix.flags = r.fix.flags ∨
      (nmea_reader_update_accuracy r a).1.fix.flags
        = r.fix.flags ||| GPS_LOCATION_HAS_ACCURACY) ∧
    (nmea_reader_update_accuracy r a).1.fix.latitude = r.fix.latitude ∧
    (nmea_reader_update_accuracy r a).1.fix.longitude = r.fix.longitude ∧
    (nmea_reader_update_accuracy r a).1.fix.altitude = r.fix.altitude ∧
    (nmea_reader_update_accuracy r a).1.fix.speed = r.fix.speed ∧
    (nmea_reader_update_accuracy r a).1.fix.bearing = r.fix.bearing ∧
    (nmea_reader_update_accuracy r a).1.fix.timestamp = r.fix.timestamp ∧
    (nmea_reader_update_accuracy r a).1.utc_year = r.utc_year ∧
    (nmea_reader_update_accuracy r a).1.utc_mon = r.utc_mon ∧
    (nmea_reader_update_accuracy r a).1.utc_day = r.utc_day := by
  unfold nmea_reader_update_accuracy
  split
  · exact ⟨Or.inl rfl, rfl, rfl, rfl, rfl, rfl, rfl, rfl, rfl, rfl⟩
  · exact ⟨Or.inr rfl, rfl, rfl, rfl, rfl, rfl, rfl, rfl, rfl, rfl⟩

theorem update_bearing_valid (r : NmeaReader) (t : Token) (h1 : t.init = true)
    (h2 : 0 < t.len) :
    nmea_reader_update_bearing r t =
      ({ r with fix := { r.fix with flags := r.fix.flags ||| GPS_LOCATION_HAS_BEARING,
                                    bearing := str2float t.bytes } }, 0) := by
  have g : ¬ (!t.init || decide (t.len = 0)) = true := by simp [h1]; omega
  unfold nmea_reader_update_bearing
  rw [if_neg g]

theorem update_speed_valid (r : NmeaReader) (t : Token) (h1 : t.init = true)
    (h2 : 0 < t.len) :
    nmea_reader_update_speed r t =
      ({ r with fix := { r.fix with flags := r.fix.flags ||| GPS_LOCATION_HAS_SPEED,
                                    speed := str2float t.bytes } }, 0) := by
  have g : ¬ (!t.init || decide (t.len = 0)) = true := by simp [h1]; omega
  unfold nmea_reader_update_speed
  rw [if_neg g]

theorem decimalValue_lt (s : List Char) (acc : Nat) (h : allDigits s = true) :
    s.foldl (fun a c => a * 10 + (c.toNat - 48)) acc < (acc + 1) * 10 ^ s.length := by
  induction s generalizing acc with
  | nil => simp
  | cons c cs ih =>
    simp only [allDigits, List.all_cons, Bool.and_eq_true] at h
    have hc : c.toNat - 48 ≤ 9 := by
      have := h.1
      simp only [isdigit, Bool.and_eq_true, decide_eq_true_eq] at this
      omega
    simp only [List.foldl_cons, List.length_cons]
    refine lt_of_lt_of_le (ih _ h.2) ?_
    rw [pow_succ, mul_comm (10 ^ cs.length) 10, ← mul_assoc]
    exact Nat.mul_le_mul_right _ (by omega)

theorem allDigits_take (s : List Char) (n : Nat) (h : allDigits s = true) :
    allDigits (s.take n) = true := by
  simp only [allDigits, List.all_eq_true] at h ⊢
  intro c hc; exact h c (List.mem_of_mem_take hc)

theorem allDigits_drop (s : List Char) (n : Nat) (h : allDigits s = true) :
    allDigits (s.drop n) = true := by
  simp only [allDigits, List.all_eq_true] at h ⊢
  intro c hc; exact h c (List.mem_of_mem_drop hc)

theorem str2int_pair (s : List Char) (h : allDigits s = true) (hl : s.length ≤ 2) :
    str2int s = (decimalValue s : Int) := by
  apply str2int_digits s h
  have := decimalValue_lt s 0 h
  have h2 : 10 ^ s.length ≤ 100 := by
    calc 10 ^ s.length ≤ 10 ^ 2 := Nat.pow_le_pow_right (by omega) hl
      _ = 100 := by norm_num
  unfold decimalValue
  omega

theorem update_date_valid (env : Env) (r : NmeaReader) (date time : Token)
    (h1 : date.init = true) (h2 : date.len = 6) (h3 : allDigits date.bytes = true) :
    (nmea_reader_update_date env r date time).1.utc_year
      = 2000 + (decimalValue ((date.bytes.drop 4).take 2) : Int) ∧
    (nmea_reader_update_date env r date time).1.utc_mon
      = (decimalValue ((date.bytes.drop 2).take 2) : Int) ∧
    (nmea_reader_update_date env r date time).1.utc_day
      = (decimalValue (date.bytes.take 2) : Int) ∧
    (nmea_reader_update_date env r date time).1.fix.flags = r.fix.flags ∧
    (nmea_reader_update_date env r date time).1.fix.latitude = r.fix.latitude ∧
    (nmea_reader_update_date env r date time).1.fix.longitude = r.fix.longitude ∧
    (nmea_reader_update_date env r date time).1.fix.speed = r.fix.speed ∧
    (nmea_reader_update_date env r date time).1.fix.bearing = r.fix.bearing := by
  have g : ¬ (!date.init || decide (date.len ≠ 6)) = true := by simp [h1, h2]
  have d1 := str2int_pair (date.bytes.take 2) (allDigits_take _ _ h3) (by simp)
  have d2 := str2int_pair ((date.bytes.drop 2).take 2)
    (allDigits_take _ _ (allDigits_drop _ _ h3)) (by simp)
  have d3 := str2int_pair ((date.bytes.drop 4).take 2)
    (allDigits_take _ _ (allDigits_drop _ _ h3)) (by simp)
  unfold nmea_reader_update_date
  rw [if_neg g]
  simp only [d1, d2, d3]
  have g2 : ¬ ((decimalValue (List.take 2 date.bytes) : Int) < 0 ∨
      (decimalValue (List.take 2 (List.drop 2 date.bytes)) : Int) < 0 ∨
      (decimalValue (List.take 2 (List.drop 4 date.bytes)) : Int) + 2000 < 0) := by omega
  rw [if_neg g2]
  have f := update_time_frame env
    { r with utc_year := (decimalValue (List.take 2 (List.drop 4 date.bytes)) : Int) + 2000,
             utc_mon := (decimalValue (List.take 2 (List.drop 2 date.bytes)) : Int),
             utc_day := (decimalValue (List.take 2 date.bytes) : Int) } time
  obtain ⟨f1, f2, f3, _, f5, f6, _, f8⟩ := f
  obtain ⟨u1, u2, u3⟩ := f8 (by simp only; omega)
  refine ⟨?_, u2, u3, f1, f2, f3, f5, f6⟩
  rw [u1]; simp only; omega
theorem parse_always_valid (env : Env) (r : NmeaReader) (T : t_all_tokens) (la lo : Char)
    (ht : T.time.init = true) (htl : 6 ≤ T.time.len)
    (hla : T.latitude.init = true) (hlal : 6 ≤ T.latitude.len)
    (hlo : T.longitude.init = true) (hlol : 6 ≤ T.longitude.len) :
    (nmea_reader_parse_always env r T la lo).fix.latitude
      = (if la = 'S' then - convert_from_hhmm T.latitude else convert_from_hhmm T.latitude) ∧
    (nmea_reader_parse_always env r T la lo).fix.longitude
      = (if lo = 'W' then - convert_from_hhmm T.longitude
         else convert_from_hhmm T.longitude) ∧
    has_flag (nmea_reader_parse_always env r T la lo).fix.flags GPS_LOCATION_HAS_LAT_LONG
      = true ∧
    has_flag (nmea_reader_parse_always env r T la lo).fix.flags GPS_LOCATION_HAS_BEARING
      = has_flag r.fix.flags GPS_LOCATION_HAS_BEARING ∧
    has_flag (nmea_reader_parse_always env r T la lo).fix.flags GPS_LOCATION_HAS_SPEED
      = has_flag r.fix.flags GPS_LOCATION_HAS_SPEED ∧
    (nmea_reader_parse_always env r T la lo).fix.bearing = r.fix.bearing ∧
    (nmea_reader_parse_always env r T la lo).fix.speed = r.fix.speed ∧
    (0 ≤ r.utc_year →
      (nmea_reader_parse_always env r T la lo).utc_year = r.utc_year ∧
      (nmea_reader_parse_always env r T la lo).utc_mon = r.utc_mon ∧
      (nmea_reader_parse_always env r T la lo).utc_day = r.utc_day) ∧
    (r.utc_year < 0 →
      (nmea_reader_parse_always env r T la lo).utc_year = env.year ∧
      (nmea_reader_parse_always env r T la lo).utc_mon = env.mon ∧
      (nmea_reader_parse_always env r T la lo).utc_day = env.mday) := by
  obtain ⟨t1, _, _, _, t5, t6, _, t8⟩ := update_time_frame env r T.time
  have tf := update_time_fresh env r T.time ht htl
  unfold nmea_reader_parse_always
  dsimp only
  generalize (nmea_reader_update_time env r T.time).1 = r1 at t1 t5 t6 t8 tf ⊢
  rw [update_latlong_valid r1 T.latitude la T.longitude lo hla hlal hlo hlol]
  dsimp only
  generalize hr2 : ({ r1 with fix := { r1.fix with
      flags := r1.fix.flags ||| GPS_LOCATION_HAS_LAT_LONG,
      latitude := if la = 'S' then - convert_from_hhmm T.latitude
                  else convert_from_hhmm T.latitude,
      longitude := if lo = 'W' then - convert_from_hhmm T.longitude
                   else convert_from_hhmm T.longitude } } : NmeaReader) = r2
  have q1 : r2.fix.flags = r.fix.flags ||| GPS_LOCATION_HAS_LAT_LONG := by rw [← hr2, ← t1]
  have q2 : r2.fix.latitude = if la = 'S' then - convert_from_hhmm T.latitude
      else convert_from_hhmm T.latitude := by rw [← hr2]
  have q3 : r2.fix.longitude = if lo = 'W' then - convert_from_hhmm T.longitude
      else convert_from_hhmm T.longitude := by rw [← hr2]
  have q4 : r2.fix.bearing = r.fix.bearing := by rw [← hr2, ← t6]
  have q5 : r2.fix.speed = r.fix.speed := by rw [← hr2, ← t5]
  have q6 : r2.utc_year = r1.utc_year ∧ r2.utc_mon = r1.utc_mon ∧ r2.utc_day = r1.utc_day := by
    rw [← hr2]; exact ⟨rfl, rfl, rfl⟩
  obtain ⟨a1, a2, a3, a4, a5, _, _, a8, a9, a10⟩ :=
    update_altitude_frame r2 T.altitude T.altitudeUnits
  generalize (nmea_reader_update_altitude r2 T.altitude T.altitudeUnits).1 = r3
    at a1 a2 a3 a4 a5 a8 a9 a10 ⊢
  obtain ⟨b1, b2, b3, _, b5, b6, _, b8, b9, b10⟩ := update_accuracy_frame r3 T.accuracy
  generalize (nmea_reader_update_accuracy r3 T.accuracy).1 = r4
    at b1 b2 b3 b5 b6 b8 b9 b10 ⊢
  have e18 : has_flag GPS_LOCATION_HAS_LAT_LONG GPS_LOCATION_HAS_BEARING = false := by decide
  have e14 : has_flag GPS_LOCATION_HAS_LAT_LONG GPS_LOCATION_HAS_SPEED = false := by decide
  have e11 : has_flag GPS_LOCATION_HAS_LAT_LONG GPS_LOCATION_HAS_LAT_LONG = true := by decide
  have e28 : has_flag GPS_LOCATION_HAS_ALTITUDE GPS_LOCATION_HAS_BEARING = false := by decide
  have e24 : has_flag GPS_LOCATION_HAS_ALTITUDE GPS_LOCATION_HAS_SPEED = false := by decide
  have e68 : has_flag GPS_LOCATION_HAS_ACCURACY GPS_LOCATION_HAS_BEARING = false := by decide
  have e64 : has_flag GPS_LOCATION_HAS_ACCURACY GPS_LOCATION_HAS_SPEED = false := by decide
  refine ⟨by rw [b2, a2, q2], by rw [b3, a3, q3], ?_, ?_, ?_, by rw [b6, a5, q4],
    by rw [b5, a4, q5], ?_, ?_⟩
  · rcases b1 with h | h <;> rcases a1 with g | g <;>
      simp [h, g, q1, has_flag_or, e11]
  · rcases b1 with h | h <;> rcases a1 with g | g <;>
      simp [h, g, q1, has_flag_or, e18, e28, e68]
  · rcases b1 with h | h <;> rcases a1 with g | g <;>
      simp [h, g, q1, has_flag_or, e14, e24, e64]
  · intro hy
    obtain ⟨u1, u2, u3⟩ := t8 hy
    exact ⟨by rw [b8, a8, q6.1, u1], by rw [b9, a9, q6.2.1, u2], by rw [b10, a10, q6.2.2, u3]⟩
  · intro hy
    obtain ⟨u1, u2, u3⟩ := tf hy
    exact ⟨by rw [b8, a8, q6.1, u1], by rw [b9, a9, q6.2.1, u2], by rw [b10, a10, q6.2.2, u3]⟩

theorem parse_gated_valid (env : Env) (r : NmeaReader) (T : t_all_tokens)
    (hd : T.date.init = true) (hdl : T.date.len = 6) (hdd : allDigits T.date.bytes = true)
    (hb : T.bearing.init = true) (hbl : 0 < T.bearing.len)
    (hs : T.speed.init = true) (hsl : 0 < T.speed.len) :
    (nmea_reader_parse_gated env r T).utc_year
      = 2000 + (decimalValue ((T.date.bytes.drop 4).take 2) : Int) ∧
    (nmea_reader_parse_gated env r T).utc_mon
      = (decimalValue ((T.date.bytes.drop 2).take 2) : Int) ∧
    (nmea_reader_parse_gated env r T).utc_day = (decimalValue (T.date.bytes.take 2) : Int) ∧
    (nmea_reader_parse_gated env r T).fix.bearing = str2float T.bearing.bytes ∧
    (nmea_reader_parse_gated env r T).fix.speed = str2float T.speed.bytes ∧
    has_flag (nmea_reader_parse_gated env r T).fix.flags GPS_LOCATION_HAS_BEARING = true ∧
    has_flag (nmea_reader_parse_gated env r T).fix.flags GPS_LOCATION_HAS_SPEED = true ∧
    (nmea_reader_parse_gated env r T).fix.latitude = r.fix.latitude ∧
    (nmea_reader_parse_gated env r T).fix.longitude = r.fix.longitude := by
  obtain ⟨d1, d2, d3, d4, d5, d6, _, _⟩ := update_date_valid env r T.date T.time hd hdl hdd
  unfold nmea_reader_parse_gated
  dsimp only
  generalize (nmea_reader_update_date env r T.date T.time).1 = r5 at d1 d2 d3 d4 d5 d6 ⊢
  rw [update_bearing_valid r5 T.bearing hb hbl]
  dsimp only
  rw [update_speed_valid _ T.speed hs hsl]
  dsimp only
  have e88 : has_flag GPS_LOCATION_HAS_BEARING GPS_LOCATION_HAS_BEARING = true := by decide
  have e44 : has_flag GPS_LOCATION_HAS_SPEED GPS_LOCATION_HAS_SPEED = true := by decide
  refine ⟨d1, d2, d3, rfl, rfl, ?_, ?_, d5, d6⟩
  · simp [has_flag_or, e88]
  · simp [has_flag_or, e44]
theorem get_of_field_at (line : List Char) (i : Nat) (j : Int) (hj : j = (i : Int))
    (f : List Char)
    (h : ((nmea_tokenizer_init line).tokens.map Token.bytes).get? i = some f) :
    (nmea_tokenizer_get (nmea_tokenizer_init line) j).init = true ∧
    (nmea_tokenizer_get (nmea_tokenizer_init line) j).span = some f.length ∧
    (nmea_tokenizer_get (nmea_tokenizer_init line) j).bytes = f := by
  subst hj; exact get_of_field line i f h

theorem first_of_field (t : Token) (c : Char) (rest : List Char)
    (hs : t.span = some (c :: rest).length) (hb : t.bytes = c :: rest) :
    t.first = some c := by
  rw [Token.first_of_span t _ hs,
    Token.byte_of_bytes t 0 (by rw [Token.len_of_span t _ hs]; simp), hb]
  rfl

set_option maxHeartbeats 2000000 in
/-- C4: for every RMC sentence (sentence id with `RMC` after the two-byte talker
prefix) whose non-empty fields after the sentence id are a time of at least 6
bytes, a status with first byte `c`, a latitude of at least 6 bytes, a
hemisphere, a longitude of at least 6 bytes, a hemisphere, a speed, a bearing
and a 6-digit date (possibly followed by more fields), dispatched on a reader
whose bitmask is zero and that has no callback: the dispatch returns without a
call; the latitude/longitude bit is set and the coordinates are
`convert_from_hhmm` of fields 3 and 5, negated for the hemispheres `S` and `W`,
whatever `c` is; if `c` is `A` the bearing and speed bits are set, bearing and
speed are `str2float` of fields 8 and 7, and the date cache is
`(2000 + YY, MM, DD)` of field 9; if `c` is not `A` (as `V`) the bearing and
speed bits stay clear, bearing and speed keep their values, an already cached
date is unchanged, and an unset date cache takes the date of the clock, not
that of field 9. -/
theorem nmea_reader_parse_rmc (env : Env) (r : NmeaReader) (tokens : t_all_tokens)
    (a b c la lo : Char)
    (f0rest time srest lat larest lon lorest speed bearing date : List Char)
    (more : List (List Char))
    (hfields : (nmea_tokenizer_init r.in_).tokens.map Token.bytes =
      (a :: b :: 'R' :: 'M' :: 'C' :: f0rest) :: time :: (c :: srest) :: lat ::
        (la :: larest) :: lon :: (lo :: lorest) :: speed :: bearing :: date :: more)
    (htime : 6 ≤ time.length) (hlat : 6 ≤ lat.length) (hlon : 6 ≤ lon.length)
    (hspeed : speed ≠ []) (hbearing : bearing ≠ [])
    (hdate : date.length = 6 ∧ allDigits date = true)
    (hflags : r.fix.flags = 0) (hcb : r.callback = none) :
    ∃ r2 tokens2, nmea_reader_parse env r tokens = some (r2, tokens2, []) ∧
      tokens2.latitude.bytes = lat ∧ tokens2.longitude.bytes = lon ∧
      has_flag r2.fix.flags GPS_LOCATION_HAS_LAT_LONG = true ∧
      r2.fix.latitude = (if la = 'S' then - convert_from_hhmm tokens2.latitude
                         else convert_from_hhmm tokens2.latitude) ∧
      r2.fix.longitude = (if lo = 'W' then - convert_from_hhmm tokens2.longitude
                          else convert_from_hhmm tokens2.longitude) ∧
      (c = 'A' →
        has_flag r2.fix.flags GPS_LOCATION_HAS_BEARING = true ∧
        has_flag r2.fix.flags GPS_LOCATION_HAS_SPEED = true ∧
        r2.fix.bearing = str2float bearing ∧ r2.fix.speed = str2float speed ∧
        r2.utc_year = 2000 + (decimalValue ((date.drop 4).take 2) : Int) ∧
        r2.utc_mon = (decimalValue ((date.drop 2).take 2) : Int) ∧
        r2.utc_day = (decimalValue (date.take 2) : Int)) ∧
      (c ≠ 'A' →
        has_flag r2.fix.flags GPS_LOCATION_HAS_BEARING = false ∧
        has_flag r2.fix.flags GPS_LOCATION_HAS_SPEED = false ∧
        r2.fix.bearing = r.fix.bearing ∧ r2.fix.speed = r.fix.speed ∧
        (0 ≤ r.utc_year →
          r2.utc_year = r.utc_year ∧ r2.utc_mon = r.utc_mon ∧ r2.utc_day = r.utc_day) ∧
        (r.utc_year < 0 →
          r2.utc_year = env.year ∧ r2.utc_mon = env.mon ∧ r2.utc_day = env.mday)) := by
  obtain ⟨_, s0, b0⟩ := get_of_field_at r.in_ 0 0 rfl _ (by rw [hfields]; rfl)
  obtain ⟨i1, s1, _⟩ := get_of_field_at r.in_ 1 1 rfl _ (by rw [hfields]; rfl)
  obtain ⟨i2, s2, b2⟩ := get_of_field_at r.in_ 2 2 rfl _ (by rw [hfields]; rfl)
  obtain ⟨i3, s3, b3⟩ := get_of_field_at r.in_ 3 3 rfl _ (by rw [hfields]; rfl)
  obtain ⟨_, s4, b4⟩ := get_of_field_at r.in_ 4 4 rfl _ (by rw [hfields]; rfl)
  obtain ⟨i5, s5, b5⟩ := get_of_field_at r.in_ 5 5 rfl _ (by rw [hfields]; rfl)
  obtain ⟨_, s6, b6⟩ := get_of_field_at r.in_ 6 6 rfl _ (by rw [hfields]; rfl)
  obtain ⟨i7, s7, b7⟩ := get_of_field_at r.in_ 7 7 rfl _ (by rw [hfields]; rfl)
  obtain ⟨i8, s8, b8⟩ := get_of_field_at r.in_ 8 8 rfl _ (by rw [hfields]; rfl)
  obtain ⟨i9, s9, b9⟩ := get_of_field_at r.in_ 9 9 rfl _ (by rw [hfields]; rfl)
  have hpos : ¬ r.pos < 9 := by
    have := (tokenizer_inv r.in_).2.2
    rw [sum_len_eq, hfields] at this
    simp only [List.map_cons, List.sum_cons, List.length_cons] at this
    unfold NmeaReader.pos; omega
  have hl0 := Token.len_of_span _ _ s0
  have hid : [(nmea_tokenizer_get (nmea_tokenizer_init r.in_) 0).byte 2,
      (nmea_tokenizer_get (nmea_tokenizer_init r.in_) 0).byte 3,
      (nmea_tokenizer_get (nmea_tokenizer_init r.in_) 0).byte 4] = ['R', 'M', 'C'] := by
    rw [Token.byte_of_bytes _ 2 (by rw [hl0]; simp), Token.byte_of_bytes _ 3 (by rw [hl0]; simp),
      Token.byte_of_bytes _ 4 (by rw [hl0]; simp), b0]
    rfl
  have hlen0 : ¬ (nmea_tokenizer_get (nmea_tokenizer_init r.in_) 0).len < 5 := by
    rw [hl0]; simp
  have hfla := first_of_field _ la larest s4 b4
  have hflo := first_of_field _ lo lorest s6 b6
  have hfst := first_of_field _ c srest s2 b2
  have hl1 : 6 ≤ (nmea_tokenizer_get (nmea_tokenizer_init r.in_) 1).len := by
    rw [Token.len_of_span _ _ s1]; exact htime
  have hl3 : 6 ≤ (nmea_tokenizer_get (nmea_tokenizer_init r.in_) 3).len := by
    rw [Token.len_of_span _ _ s3]; exact hlat
  have hl5 : 6 ≤ (nmea_tokenizer_get (nmea_tokenizer_init r.in_) 5).len := by
    rw [Token.len_of_span _ _ s5]; exact hlon
  have hl7 : 0 < (nmea_tokenizer_get (nmea_tokenizer_init r.in_) 7).len := by
    rw [Token.len_of_span _ _ s7]; exact List.length_pos.mpr hspeed
  have hl8 : 0 < (nmea_tokenizer_get (nmea_tokenizer_init r.in_) 8).len := by
    rw [Token.len_of_span _ _ s8]; exact List.length_pos.mpr hbearing
  have hl9 : (nmea_tokenizer_get (nmea_tokenizer_init r.in_) 9).len = 6 := by
    rw [Token.len_of_span _ _ s9]; exact hdate.1
  have hd9 : allDigits (nmea_tokenizer_get (nmea_tokenizer_init r.in_) 9).bytes = true := by
    rw [b9]; exact hdate.2
  -- the field set of the RMC branch
  generalize hT : nmea_reader_parse_fields (nmea_tokenizer_init r.in_) ['R', 'M', 'C'] tokens
    = T
  have hTeq := parse_fields_rmc (nmea_tokenizer_init r.in_) tokens
  rw [hT] at hTeq
  have A := parse_always_valid env r T la lo (by rw [hTeq]; exact i1) (by rw [hTeq]; exact hl1)
    (by rw [hTeq]; exact i3) (by rw [hTeq]; exact hl3)
    (by rw [hTeq]; exact i5) (by rw [hTeq]; exact hl5)
  have G := parse_always_grows env r T la lo
  have hupd : nmea_reader_parse_updates env r T
      = some (if c = 'A' then nmea_reader_parse_gated env
                (nmea_reader_parse_always env r T la lo) T
              else nmea_reader_parse_always env r T la lo) := by
    have e1 : T.latitudeHemi.first = some la := by rw [hTeq]; exact hfla
    have e2 : T.longitudeHemi.first = some lo := by rw [hTeq]; exact hflo
    have e3 : T.fixStatus.first = some c := by rw [hTeq]; exact hfst
    have e4 : T.fixStatus.init = true := by rw [hTeq]; exact i2
    unfold nmea_reader_parse_updates
    simp only [e1, e2, e3, e4, if_true]
    split <;> rfl
  have hparse : nmea_reader_parse env r tokens
      = some ((nmea_reader_parse_deliver
          (if c = 'A' then nmea_reader_parse_gated env
              (nmea_reader_parse_always env r T la lo) T
           else nmea_reader_parse_always env r T la lo)).1, T,
          (nmea_reader_parse_deliver
          (if c = 'A' then nmea_reader_parse_gated env
              (nmea_reader_parse_always env r T la lo) T
           else nmea_reader_parse_always env r T la lo)).2) := by
    unfold nmea_reader_parse
    rw [if_neg hpos]
    dsimp only
    rw [if_neg hlen0, hid, hT, hupd]
  have hTlat : T.latitude.bytes = lat := by
    have : T.latitude = nmea_tokenizer_get (nmea_tokenizer_init r.in_) 3 := by rw [hTeq]
    rw [this]; exact b3
  have hTlon : T.longitude.bytes = lon := by
    have : T.longitude = nmea_tokenizer_get (nmea_tokenizer_init r.in_) 5 := by rw [hTeq]
    rw [this]; exact b5
  obtain ⟨A1, A2, A3, A4, A5, A6, A7, A8, A9⟩ := A
  by_cases hc : c = 'A'
  · have B := parse_gated_valid env (nmea_reader_parse_always env r T la lo) T
      (by rw [hTeq]; exact i9) (by rw [hTeq]; exact hl9) (by rw [hTeq]; exact hd9)
      (by rw [hTeq]; exact i8) (by rw [hTeq]; exact hl8)
      (by rw [hTeq]; exact i7) (by rw [hTeq]; exact hl7)
    have G2 := Grows.trans G (parse_gated_grows env (nmea_reader_parse_always env r T la lo) T)
    rw [if_pos hc] at hparse
    rw [deliver_no_callback _ (G2.1.trans hcb)] at hparse
    obtain ⟨B1, B2, B3, B4, B5, B6, B7, B8, B9⟩ := B
    have hT9 : T.date.bytes = date := by
      have : T.date = nmea_tokenizer_get (nmea_tokenizer_init r.in_) 9 := by rw [hTeq]
      rw [this]; exact b9
    have hT8 : T.bearing.bytes = bearing := by
      have : T.bearing = nmea_tokenizer_get (nmea_tokenizer_init r.in_) 8 := by rw [hTeq]
      rw [this]; exact b8
    have hT7 : T.speed.bytes = speed := by
      have : T.speed = nmea_tokenizer_get (nmea_tokenizer_init r.in_) 7 := by rw [hTeq]
      rw [this]; exact b7
    refine ⟨_, _, hparse, hTlat, hTlon, ?_, by rw [B8, A1], by rw [B9, A2], ?_, ?_⟩
    · exact (parse_gated_grows env _ T).2.2.2.2 _ A3
    · intro _
      exact ⟨B6, B7, by rw [B4, hT8], by rw [B5, hT7], by rw [B1, hT9], by rw [B2, hT9],
        by rw [B3, hT9]⟩
    · intro h; exact absurd hc h
  · rw [if_neg hc] at hparse
    rw [deliver_no_callback _ (G.1.trans hcb)] at hparse
    refine ⟨_, _, hparse, hTlat, hTlon, A3, A1, A2, fun h => absurd h hc, ?_⟩
    intro _
    refine ⟨?_, ?_, A6, A7, A8, A9⟩
    · rw [A4, hflags]; rfl
    · rw [A5, hflags]; rfl

/-- C4, witness: the sample RMC sentence, which has status `A` and the date
`230394`, sets the bearing and speed bits and the date cache 23 March 2094 on
a fresh reader. -/
theorem nmea_reader_parse_rmc_witness :
    ∃ r2 tokens2,
      nmea_reader_parse sampleEnv (sampleReader.withLine sampleRMC) t_all_tokens.zero
        = some (r2, tokens2, []) ∧
      has_flag r2.fix.flags GPS_LOCATION_HAS_LAT_LONG = true ∧
      has_flag r2.fix.flags GPS_LOCATION_HAS_BEARING = true ∧
      has_flag r2.fix.flags GPS_LOCATION_HAS_SPEED = true ∧
      r2.fix.speed = str2float "022.4".toList ∧
      r2.utc_year = 2000 + (decimalValue "94".toList : Int) := by
  obtain ⟨r2, tokens2, h1, _, _, h4, _, _, hA, _⟩ :=
    nmea_reader_parse_rmc sampleEnv (sampleReader.withLine sampleRMC) t_all_tokens.zero
      'G' 'P' 'A' 'N' 'E' [] "123519".toList [] "4807.038".toList [] "01131.000".toList []
      "022.4".toList "084.4".toList "230394".toList ["003.1".toList, "W".toList]
      (by decide) (by decide) (by decide) (by decide) (by decide) (by decide) (by decide)
      rfl rfl
  exact ⟨r2, tokens2, h1, h4, (hA rfl).1, (hA rfl).2.1, (hA rfl).2.2.2.1, (hA rfl).2.2.2.2.1⟩

theorem parse_fields_gga (tz : NmeaTokenizer) (tokens : t_all_tokens) :
    nmea_reader_parse_fields tz ['G', 'G', 'A'] tokens =
      { tokens with
          time := nmea_tokenizer_get tz 1,
          fixStatus := nmea_tokenizer_get tz 2,
          latitude := nmea_tokenizer_get tz 3,
          latitudeHemi := nmea_tokenizer_get tz 4,
          longitude := nmea_tokenizer_get tz 5,
          longitudeHemi := nmea_tokenizer_get tz 6,
          accuracy := nmea_tokenizer_get tz 8,
          altitude := nmea_tokenizer_get tz 9,
          altitudeUnits := nmea_tokenizer_get tz 10 } := by
  unfold nmea_reader_parse_fields
  rw [if_pos rfl]

theorem update_latlong_short (r : NmeaReader) (la : Token) (lah : Char) (lo : Token)
    (loh : Char) (h : la.len < 6) :
    nmea_reader_update_latlong r la lah lo loh = (r, -1) := by
  unfold nmea_reader_update_latlong
  rw [if_pos (by simp [h])]

theorem update_altitude_valid (r : NmeaReader) (t u : Token) (h1 : t.init = true)
    (h2 : 0 < t.len) :
    nmea_reader_update_altitude r t u =
      ({ r with fix := { r.fix with flags := r.fix.flags ||| GPS_LOCATION_HAS_ALTITUDE,
                                    altitude := str2float t.bytes } }, 0) := by
  have g : ¬ (!t.init || decide (t.len = 0)) = true := by simp [h1]; omega
  unfold nmea_reader_update_altitude
  rw [if_neg g]

/-- C2, the code at the failing input: under every clock, dispatching the
standard GGA sentence on a freshly initialised reader and field set returns
without a call and with the altitude and accuracy bits only (bitmask 18).  The
latitude and longitude slots of the field set hold the hemispheres `N` and `E`;
the latitude/longitude bit is clear and latitude and longitude keep their
initial value 0, which is not within 1e-4 of 48.1173; the altitude is 545.4 and
the accuracy the fallback 1. -/
theorem nmea_reader_parse_gga_sample (env : Env) (tm_utc tm_local : Tm) :
    ∃ r2 tokens2,
      nmea_reader_parse env ((nmea_reader_init tm_utc tm_local).withLine sampleGGA)
        t_all_tokens.zero = some (r2, tokens2, []) ∧
      tokens2.latitude.bytes = ['N'] ∧ tokens2.longitude.bytes = ['E'] ∧
      r2.fix.flags = 18 ∧
      has_flag r2.fix.flags GPS_LOCATION_HAS_LAT_LONG = false ∧
      has_flag r2.fix.flags GPS_LOCATION_HAS_ALTITUDE = true ∧
      r2.fix.latitude = 0 ∧ r2.fix.longitude = 0 ∧
      ¬ (|r2.fix.latitude - 481173 / 10000| ≤ 1 / 10000) ∧
      r2.fix.altitude = 5454 / 10 ∧ r2.fix.accuracy = 1 := by
  have hpos : ¬ ((nmea_reader_init tm_utc tm_local).withLine sampleGGA).pos < 9 := by
    show ¬ (sampleGGA.length < 9); decide
  have hlen0 : ¬ (nmea_tokenizer_get (nmea_tokenizer_init
      ((nmea_reader_init tm_utc tm_local).withLine sampleGGA).in_) 0).len < 5 := by
    show ¬ (nmea_tokenizer_get (nmea_tokenizer_init sampleGGA) 0).len < 5; decide
  have hid : [(nmea_tokenizer_get (nmea_tokenizer_init
        ((nmea_reader_init tm_utc tm_local).withLine sampleGGA).in_) 0).byte 2,
      (nmea_tokenizer_get (nmea_tokenizer_init
        ((nmea_reader_init tm_utc tm_local).withLine sampleGGA).in_) 0).byte 3,
      (nmea_tokenizer_get (nmea_tokenizer_init
        ((nmea_reader_init tm_utc tm_local).withLine sampleGGA).in_) 0).byte 4]
      = ['G', 'G', 'A'] := by
    show [(nmea_tokenizer_get (nmea_tokenizer_init sampleGGA) 0).byte 2,
      (nmea_tokenizer_get (nmea_tokenizer_init sampleGGA) 0).byte 3,
      (nmea_tokenizer_get (nmea_tokenizer_init sampleGGA) 0).byte 4] = ['G', 'G', 'A']
    decide
  have hin : ((nmea_reader_init tm_utc tm_local).withLine sampleGGA).in_ = sampleGGA := rfl
  -- the field set of the GGA branch, a closed term
  have f1 : (nmea_reader_parse_fields (nmea_tokenizer_init sampleGGA) ['G', 'G', 'A']
      t_all_tokens.zero).latitudeHemi.first = some '0' := by decide
  have f2 : (nmea_reader_parse_fields (nmea_tokenizer_init sampleGGA) ['G', 'G', 'A']
      t_all_tokens.zero).longitudeHemi.first = some '1' := by decide
  have f3 : (nmea_reader_parse_fields (nmea_tokenizer_init sampleGGA) ['G', 'G', 'A']
      t_all_tokens.zero).fixStatus.first = some '4' := by decide
  have f4 : (nmea_reader_parse_fields (nmea_tokenizer_init sampleGGA) ['G', 'G', 'A']
      t_all_tokens.zero).fixStatus.init = true := by decide
  have f5 : (nmea_reader_parse_fields (nmea_tokenizer_init sampleGGA) ['G', 'G', 'A']
      t_all_tokens.zero).latitude.len < 6 := by decide
  have f6 : (nmea_reader_parse_fields (nmea_tokenizer_init sampleGGA) ['G', 'G', 'A']
      t_all_tokens.zero).altitude.init = true := by decide
  have f7 : 0 < (nmea_reader_parse_fields (nmea_tokenizer_init sampleGGA) ['G', 'G', 'A']
      t_all_tokens.zero).altitude.len := by decide
  have f8 : str2float (nmea_reader_parse_fields (nmea_tokenizer_init sampleGGA)
      ['G', 'G', 'A'] t_all_tokens.zero).altitude.bytes = 5454 / 10 := by decide!
  have f9 : (nmea_reader_parse_fields (nmea_tokenizer_init sampleGGA) ['G', 'G', 'A']
      t_all_tokens.zero).accuracy.init = true := by decide
  have f10 : str2int (nmea_reader_parse_fields (nmea_tokenizer_init sampleGGA)
      ['G', 'G', 'A'] t_all_tokens.zero).accuracy.bytes = -1 := by decide
  have f11 : (nmea_reader_parse_fields (nmea_tokenizer_init sampleGGA) ['G', 'G', 'A']
      t_all_tokens.zero).latitude.bytes = ['N'] := by decide
  have f12 : (nmea_reader_parse_fields (nmea_tokenizer_init sampleGGA) ['G', 'G', 'A']
      t_all_tokens.zero).longitude.bytes = ['E'] := by decide
  generalize hr : ((nmea_reader_init tm_utc tm_local).withLine sampleGGA) = r
    at hpos hlen0 hid hin
  have hr0 : r.fix.flags = 0 ∧ r.fix.latitude = 0 ∧ r.fix.longitude = 0 ∧ r.callback = none := by
    rw [← hr]; exact ⟨rfl, rfl, rfl, rfl⟩
  generalize hT : nmea_reader_parse_fields (nmea_tokenizer_init sampleGGA) ['G', 'G', 'A']
      t_all_tokens.zero = T at f1 f2 f3 f4 f5 f6 f7 f8 f9 f10 f11 f12
  have hupd : nmea_reader_parse_updates env r T
      = some (nmea_reader_parse_always env r T '0' '1') := by
    unfold nmea_reader_parse_updates
    simp only [f1, f2, f3, f4, if_true]
    rw [if_neg (by decide)]
  obtain ⟨t1, t2, t3, _, _, _, _, _⟩ := update_time_frame env r T.time
  have G := parse_always_grows env r T '0' '1'
  have hparse : nmea_reader_parse env r t_all_tokens.zero
      = some (nmea_reader_parse_always env r T '0' '1', T, []) := by
    unfold nmea_reader_parse
    rw [if_neg hpos]
    dsimp only
    rw [if_neg hlen0, hid, hin, hT, hupd]
    dsimp only
    rw [deliver_no_callback _ (G.1.trans hr0.2.2.2)]
  have hval : nmea_reader_parse_always env r T '0' '1' =
      { (nmea_reader_update_time env r T.time).1 with
        fix := { (nmea_reader_update_time env r T.time).1.fix with
          flags := ((nmea_reader_update_time env r T.time).1.fix.flags |||
            GPS_LOCATION_HAS_ALTITUDE) ||| GPS_LOCATION_HAS_ACCURACY,
          altitude := 5454 / 10,
          accuracy := 1 } } := by
    unfold nmea_reader_parse_always
    dsimp only
    rw [update_latlong_short _ _ _ _ _ f5]
    dsimp only
    rw [update_altitude_valid _ _ _ f6 f7, f8]
    dsimp only
    unfold nmea_reader_update_accuracy
    rw [if_neg (by simp [f9])]
    simp only [f10]
    rw [if_pos (by decide)]
  refine ⟨_, _, hparse, f11, f12, ?_⟩
  rw [hval]
  dsimp only
  rw [t1, t2, t3, hr0.1, hr0.2.1, hr0.2.2.1]
  refine ⟨by decide, by decide, by decide, rfl, rfl, by decide!, rfl, rfl⟩

/-! ## Out-of-range retrieval, frame length, time field, line-buffer bound -/

/-- C13 (as amended): for every tokenizer and every index that is negative or
not below the token count, `nmea_tokenizer_get` does not fail and writes a
slice that is empty (`p = end`, over a zeroed buffer) and whose `init` flag is
set. -/
theorem nmea_tokenizer_get_out_of_range (t : NmeaTokenizer) (index : Int)
    (h : index < 0 ∨ index ≥ (t.count : Int)) :
    nmea_tokenizer_get t index = { buff := [], init := true, span := some 0 } ∧
    (nmea_tokenizer_get t index).len = 0 ∧
    (nmea_tokenizer_get t index).bytes = [] ∧
    (nmea_tokenizer_get t index).init = true := by
  have e : nmea_tokenizer_get t index = { buff := [], init := true, span := some 0 } := by
    unfold nmea_tokenizer_get
    rw [if_pos h]
  rw [e]
  exact ⟨rfl, rfl, rfl, rfl⟩

/-- C13, witness: index 13 of the 13 tokens of the sample GGA sentence, and
index -1. -/
theorem nmea_tokenizer_get_out_of_range_witness :
    nmea_tokenizer_get (nmea_tokenizer_init sampleGGA) 13
      = { buff := [], init := true, span := some 0 } ∧
    (nmea_tokenizer_get (nmea_tokenizer_init sampleGGA) (-1)).bytes = [] :=
  ⟨(nmea_tokenizer_get_out_of_range (nmea_tokenizer_init sampleGGA) 13
      (Or.inr (by decide))).1,
   (nmea_tokenizer_get_out_of_range (nmea_tokenizer_init sampleGGA) (-1)
      (Or.inl (by decide))).2.2.1⟩

/-- C13, counterexample: index 13 is out of range for the 13 tokens of the
sample GGA sentence, and the slice it yields is empty but has its validity flag
`init` set, not clear. -/
theorem nmea_tokenizer_get_out_of_range_init :
    (nmea_tokenizer_init sampleGGA).count = 13 ∧
    (nmea_tokenizer_get (nmea_tokenizer_init sampleGGA) 13).len = 0 ∧
    (nmea_tokenizer_get (nmea_tokenizer_init sampleGGA) 13).init = true ∧
    (nmea_tokenizer_get (nmea_tokenizer_init sampleGGA) 13).init ≠ false := by
  decide

/-- C14, the code at the failing input: a frame whose declared length is
exactly 4 MiB is not passed on to `readBody`: the shared state store is
unchanged and `bytecount` is reset to 0.  In general, once the peek has
returned bytes, a frame is passed on to `readBody` exactly when its declared
length is below 4 MiB, and a frame of 4 MiB or more leaves the store
unchanged. -/
theorem ingest_frame_four_mib (props : Properties) (peek : Int) (body : BodyInput)
    (framing_size : Nat) (hpeek : 0 < peek) :
    (ingest_frame props peek (4 * 1024 * 1024) body).body_read = false ∧
    (ingest_frame props peek (4 * 1024 * 1024) body).props = props ∧
    (ingest_frame props peek (4 * 1024 * 1024) body).bytecount = 0 ∧
    ((ingest_frame props peek framing_size body).body_read = true
      ↔ framing_size < 4 * 1024 * 1024) ∧
    (4 * 1024 * 1024 ≤ framing_size →
      (ingest_frame props peek framing_size body).props = props) := by
  have h1 : ¬ peek = -1 := by omega
  have h2 : ¬ peek = 0 := by omega
  refine ⟨?_, ?_, ?_, ?_, ?_⟩
  · simp [ingest_frame, h1, h2]
  · simp [ingest_frame, h1, h2]
  · simp [ingest_frame, h1, h2]
  · unfold ingest_frame
    rw [if_neg h1, if_neg h2]
    by_cases h : framing_size < 4 * 1024 * 1024
    · rw [if_pos h]; simp [h]
    · rw [if_neg h]; simp [h]
  · intro h
    unfold ingest_frame
    rw [if_neg h1, if_neg h2, if_neg (by omega)]

/-- C14, witness: a peek of 4 bytes. -/
theorem ingest_frame_four_mib_witness :
    (ingest_frame
      { status := GpsStatusProperty.GPS_DISABLED, latitude := 0, longitude := 0,
        altitude := 0, bearing := 0 } 4 (4 * 1024 * 1024)
      { bytecount := 4194308,
        payload := { gps := some { enabled := true, latitude := 48, longitude := 11,
                                   altitude := 0, bearing := 0 } } }).body_read = false :=
  (ingest_frame_four_mib _ 4 _ 0 (by decide)).1

/-- C19: for every time field that is invalid (`init` clear) or shorter than 6
characters, `nmea_reader_update_time` returns -1 and leaves the reader, with
its timestamp, date cache and bitmask, unchanged; and for every time field,
successful or not, the bitmask after the call is the bitmask before it. -/
theorem nmea_reader_update_time_failure (env : Env) (r : NmeaReader) (tok : Token) :
    (tok.init = false ∨ tok.len < 6 → nmea_reader_update_time env r tok = (r, -1)) ∧
    (nmea_reader_update_time env r tok).1.fix.flags = r.fix.flags := by
  refine ⟨?_, (update_time_frame env r tok).1⟩
  intro h
  unfold nmea_reader_update_time
  rw [if_pos]
  rcases h with h | h
  · simp [h]
  · simp [h]

/-- C19, witness: the 4-character time field `1235` on a fresh reader. -/
theorem nmea_reader_update_time_failure_witness :
    (Token.ofBytes "1235".toList).len < 6 ∧
    (nmea_reader_update_time sampleEnv sampleReader (Token.ofBytes "1235".toList)).2 = -1 ∧
    (nmea_reader_update_time sampleEnv sampleReader (Token.ofBytes "1235".toList)).1.utc_year
      = sampleReader.utc_year :=
  ⟨by decide,
   congrArg Prod.snd ((nmea_reader_update_time_failure sampleEnv sampleReader
      (Token.ofBytes "1235".toList)).1 (Or.inr (by decide))),
   congrArg (fun x => x.1.utc_year) ((nmea_reader_update_time_failure sampleEnv sampleReader
      (Token.ofBytes "1235".toList)).1 (Or.inr (by decide)))⟩

theorem addc_pos_le (env : Env) (r r1 : NmeaReader) (tokens tokens1 : t_all_tokens)
    (c : Char) (calls : List FixCall) (h : r.pos ≤ NMEA_MAX_SIZE)
    (hp : nmea_reader_addc env r tokens c = some (r1, tokens1, calls)) :
    r1.pos ≤ NMEA_MAX_SIZE := by
  unfold nmea_reader_addc at hp
  split at hp
  · simp only [Option.some.injEq, Prod.mk.injEq] at hp
    rw [← hp.1]; exact h
  · split at hp
    · simp only [Option.some.injEq, Prod.mk.injEq] at hp
      rw [← hp.1]; exact Nat.zero_le _
    · rename_i hlt
      dsimp only at hp
      split at hp
      · split at hp
        · simp only [Option.some.injEq, Prod.mk.injEq] at hp
          rw [← hp.1]; exact Nat.zero_le _
        · simp at hp
      · simp only [Option.some.injEq, Prod.mk.injEq] at hp
        rw [← hp.1]
        have h83 : NMEA_MAX_SIZE = 83 := rfl
        simp only [NmeaReader.pos, List.length_append, List.length_singleton] at hlt ⊢
        omega

/-- C20: in every reader state reachable from `nmea_reader_init` by any sequence
of `nmea_reader_addc` calls, `pos` is at most 83 (`NMEA_MAX_SIZE`) and so below
the size 84 of the line buffer; and `nmea_reader_addc` lengthens the line only
from a `pos` of at most 82, the index of its write `r->in[pos]`. -/
theorem nmea_reader_addc_pos_bound :
    (∀ (r : NmeaReader) (tokens : t_all_tokens), AddcReachable r tokens →
      r.pos ≤ 83 ∧ r.pos < in_size) ∧
    (∀ (env : Env) (r r1 : NmeaReader) (tokens tokens1 : t_all_tokens) (c : Char)
        (calls : List FixCall),
      nmea_reader_addc env r tokens c = some (r1, tokens1, calls) →
      r.pos < r1.pos → r.pos ≤ 82 ∧ r1.pos = r.pos + 1) := by
  constructor
  · intro r tokens h
    have hb : r.pos ≤ NMEA_MAX_SIZE := by
      induction h with
      | init tm_utc tm_local tokens => exact Nat.zero_le _
      | addc r tokens env c r1 tokens1 calls _ hp ih =>
        exact addc_pos_le env r r1 tokens tokens1 c calls ih hp
    have h83 : NMEA_MAX_SIZE = 83 := rfl
    have h84 : in_size = 84 := rfl
    omega
  · intro env r r1 tokens tokens1 c calls hp hlt
    unfold nmea_reader_addc at hp
    split at hp
    · simp only [Option.some.injEq, Prod.mk.injEq] at hp
      rw [← hp.1] at hlt; exact absurd hlt (lt_irrefl _)
    · split at hp
      · simp only [Option.some.injEq, Prod.mk.injEq] at hp
        rw [← hp.1] at hlt; exact absurd hlt (Nat.not_lt_zero _)
      · rename_i hge
        dsimp only at hp
        split at hp
        · split at hp
          · simp only [Option.some.injEq, Prod.mk.injEq] at hp
            rw [← hp.1] at hlt; exact absurd hlt (Nat.not_lt_zero _)
          · simp at hp
        · simp only [Option.some.injEq, Prod.mk.injEq] at hp
          have h83 : NMEA_MAX_SIZE = 83 := rfl
          obtain ⟨e1, _, _⟩ := hp
          subst e1
          refine ⟨?_, ?_⟩
          · simp only [NmeaReader.pos] at hge ⊢
            omega
          · simp only [NmeaReader.pos, List.length_append, List.length_singleton]

/-- C20, witness: the state after `nmea_reader_addc` of the byte `$` on a fresh
reader is reachable, and its `pos` is 1. -/
theorem nmea_reader_addc_pos_bound_witness :
    AddcReachable { sampleReader with in_ := ['$'] } t_all_tokens.zero ∧
    ({ sampleReader with in_ := ['$'] } : NmeaReader).pos ≤ 83 ∧
    ({ sampleReader with in_ := ['$'] } : NmeaReader).pos < in_size :=
  ⟨AddcReachable.addc sampleReader t_all_tokens.zero sampleEnv '$' _ _ []
      (AddcReachable.init sampleTm sampleTm t_all_tokens.zero) rfl,
   nmea_reader_addc_pos_bound.1 _ _
    (AddcReachable.addc sampleReader t_all_tokens.zero sampleEnv '$' _ _ []
      (AddcReachable.init sampleTm sampleTm t_all_tokens.zero) rfl)⟩

/-! ## Line buffer -/

theorem data_append (env : Env) (a b : List Char) (r : NmeaReader) (tokens : t_all_tokens) :
    gps_state_thread_data env (a ++ b) r tokens =
      match gps_state_thread_data env a r tokens with
      | some (r1, tokens1, calls1) =>
        match gps_state_thread_data env b r1 tokens1 with
        | some (r2, tokens2, calls2) => some (r2, tokens2, calls1 ++ calls2)
        | none => none
      | none => none := by
  induction a generalizing r tokens with
  | nil =>
    simp only [List.nil_append, gps_state_thread_data, List.nil_append]
    cases gps_state_thread_data env b r tokens with
    | none => rfl
    | some x => rfl
  | cons c cs ih =>
    simp only [List.cons_append, gps_state_thread_data]
    cases nmea_reader_addc env r tokens c with
    | none => rfl
    | some x =>
      obtain ⟨r1, tokens1, calls1⟩ := x
      simp only [List.append_eq]
      rw [ih]
      cases gps_state_thread_data env cs r1 tokens1 with
      | none => rfl
      | some y =>
        obtain ⟨r2, tokens2, calls2⟩ := y
        dsimp only
        cases gps_state_thread_data env b r2 tokens2 with
        | none => rfl
        | some z =>
          obtain ⟨r3, tokens3, calls3⟩ := z
          dsimp only
          rw [List.append_assoc]

theorem data_single (env : Env) (c : Char) (r : NmeaReader) (tokens : t_all_tokens) :
    gps_state_thread_data env [c] r tokens = nmea_reader_addc env r tokens c := by
  simp only [gps_state_thread_data]
  cases nmea_reader_addc env r tokens c with
  | none => rfl
  | some x =>
    obtain ⟨r1, tokens1, calls1⟩ := x
    simp

theorem data_fill (env : Env) (payload : List Char) (r : NmeaReader) (tokens : t_all_tokens)
    (ho : r.overflow = false) (hl : r.pos + payload.length ≤ 83)
    (hn : '\n' ∉ payload) :
    gps_state_thread_data env payload r tokens
      = some ({ r with in_ := r.in_ ++ payload }, tokens, []) := by
  induction payload generalizing r with
  | nil => simp [gps_state_thread_data]
  | cons c cs ih =>
    have hc : c ≠ '\n' := fun h => hn (by simp [h])
    have hcs : '\n' ∉ cs := fun h => hn (List.mem_cons_of_mem _ h)
    have h83 : NMEA_MAX_SIZE = 83 := rfl
    simp only [List.length_cons] at hl
    have hpos : ¬ r.pos ≥ NMEA_MAX_SIZE + 1 - 1 := by omega
    have hstep : nmea_reader_addc env r tokens c
        = some ({ r with in_ := r.in_ ++ [c] }, tokens, []) := by
      unfold nmea_reader_addc
      rw [ho]
      simp only [Bool.false_eq_true, if_false]
      rw [if_neg hpos]
      rw [if_neg hc]
    simp only [gps_state_thread_data, hstep]
    rw [ih { r with in_ := r.in_ ++ [c] } ho
      (by simp only [NmeaReader.pos, List.length_append, List.length_singleton] at hl ⊢; omega)
      hcs]
    simp

theorem data_skip (env : Env) (line : List Char) (r : NmeaReader) (tokens : t_all_tokens)
    (ho : r.overflow = true) (hn : '\n' ∉ line) :
    gps_state_thread_data env line r tokens = some (r, tokens, []) := by
  induction line with
  | nil => simp [gps_state_thread_data]
  | cons c cs ih =>
    have hc : c ≠ '\n' := fun h => hn (by simp [h])
    have hcs : '\n' ∉ cs := fun h => hn (List.mem_cons_of_mem _ h)
    have hstep : nmea_reader_addc env r tokens c = some (r, tokens, []) := by
      unfold nmea_reader_addc
      rw [if_pos ho]
      have : (c != '\n') = true := by simp [hc]
      rw [this, ← ho]
    simp only [gps_state_thread_data, hstep]
    rw [ih hcs]
    simp

theorem parse_frame (env : Env) (r r2 : NmeaReader) (tokens tokens2 : t_all_tokens)
    (calls : List FixCall)
    (hp : nmea_reader_parse env r tokens = some (r2, tokens2, calls)) :
    r2.in_ = r.in_ ∧ r2.overflow = r.overflow := by
  rcases parse_cases env r r2 tokens tokens2 calls hp with ⟨_, h2, _, _⟩ | ⟨r1, hr1, h2, _⟩
  · subst h2; exact ⟨rfl, rfl⟩
  · have g := parse_updates_grows env r r1 tokens2 hr1
    subst h2
    unfold nmea_reader_parse_deliver
    split
    · split
      · exact ⟨g.2.1, g.2.2.1⟩
      · exact ⟨g.2.1, g.2.2.1⟩
    · exact ⟨g.2.1, g.2.2.1⟩

theorem addc_newline (env : Env) (r : NmeaReader) (tokens : t_all_tokens)
    (ho : r.overflow = false) (hl : r.pos ≤ 82) :
    nmea_reader_addc env r tokens '\n' =
      (nmea_reader_parse env (r.withLine (r.in_ ++ ['\n'])) tokens).map
        (fun x => ({ x.1 with in_ := [] }, x.2.1, x.2.2)) := by
  have h83 : NMEA_MAX_SIZE = 83 := rfl
  have hpos : ¬ r.pos ≥ NMEA_MAX_SIZE + 1 - 1 := by omega
  have hov : ¬ r.overflow = true := by rw [ho]; simp
  unfold nmea_reader_addc
  rw [if_neg hov, if_neg hpos, if_pos rfl]
  unfold NmeaReader.withLine
  cases nmea_reader_parse env { r with in_ := r.in_ ++ ['\n'] } tokens with
  | none => rfl
  | some x =>
    obtain ⟨r2, tokens2, calls⟩ := x
    rfl

/-- C15 (as amended): for every line of at most 82 payload bytes, none of them
a line feed, fed byte by byte through `nmea_reader_addc` to a reader with an
empty buffer and a clear overflow flag: the payload bytes are accumulated
without a dispatch; the line feed makes the one call of `nmea_reader_parse`, on
the whole line with its line feed; and whenever that call returns, the length
is 0 and the overflow flag clear afterwards. -/
theorem nmea_reader_addc_line (env : Env) (r : NmeaReader) (tokens : t_all_tokens)
    (payload : List Char) (hin : r.in_ = []) (ho : r.overflow = false)
    (hl : payload.length ≤ 82) (hn : '\n' ∉ payload) :
    gps_state_thread_data env payload r tokens = some (r.withLine payload, tokens, []) ∧
    gps_state_thread_data env (payload ++ ['\n']) r tokens =
      (nmea_reader_parse env (r.withLine (payload ++ ['\n'])) tokens).map
        (fun x => ({ x.1 with in_ := [] }, x.2.1, x.2.2)) ∧
    ∀ r2 tokens2 calls,
      gps_state_thread_data env (payload ++ ['\n']) r tokens = some (r2, tokens2, calls) →
      r2.pos = 0 ∧ r2.overflow = false := by
  have hfill : gps_state_thread_data env payload r tokens
      = some (r.withLine payload, tokens, []) := by
    rw [data_fill env payload r tokens ho
      (by simp only [NmeaReader.pos, hin, List.length_nil]; omega) hn]
    rw [hin]; rfl
  have hline : gps_state_thread_data env (payload ++ ['\n']) r tokens =
      (nmea_reader_parse env (r.withLine (payload ++ ['\n'])) tokens).map
        (fun x => ({ x.1 with in_ := [] }, x.2.1, x.2.2)) := by
    rw [data_append, hfill]
    dsimp only
    rw [data_single, addc_newline env (r.withLine payload) tokens ho hl]
    have e : (r.withLine payload).withLine ((r.withLine payload).in_ ++ ['\n'])
        = r.withLine (payload ++ ['\n']) := rfl
    rw [e]
    cases nmea_reader_parse env (r.withLine (payload ++ ['\n'])) tokens with
    | none => rfl
    | some x =>
      obtain ⟨r2, tokens2, calls⟩ := x
      simp
  refine ⟨hfill, hline, ?_⟩
  intro r2 tokens2 calls h
  rw [hline] at h
  cases hp : nmea_reader_parse env (r.withLine (payload ++ ['\n'])) tokens with
  | none => rw [hp] at h; simp at h
  | some x =>
    obtain ⟨r3, tokens3, calls3⟩ := x
    rw [hp] at h
    simp only [Option.map_some', Option.some.injEq, Prod.mk.injEq] at h
    have g := parse_frame env _ r3 tokens tokens3 calls3 hp
    rw [← h.1]
    exact ⟨rfl, g.2.trans ho⟩

set_option maxRecDepth 100000 in
/-- C15, witness: the 82 payload bytes of an RMC sentence on a fresh reader
with a callback; the line feed delivers the fix. -/
theorem nmea_reader_addc_line_witness :
    sampleRMC82.length = 82 ∧
    gps_state_thread_data sampleEnv sampleRMC82 { sampleReader with callback := some 1 }
        t_all_tokens.zero
      = some (({ sampleReader with callback := some 1 } : NmeaReader).withLine sampleRMC82,
          t_all_tokens.zero, []) ∧
    (gps_state_thread_data sampleEnv (sampleRMC82 ++ ['\n'])
        { sampleReader with callback := some 1 } t_all_tokens.zero).map
      (fun x => (x.1.pos, x.1.overflow, x.2.2.map (fun c => c.2.flags)))
      = some (0, false, [13]) :=
  ⟨by decide,
   (nmea_reader_addc_line sampleEnv { sampleReader with callback := some 1 }
      t_all_tokens.zero sampleRMC82 rfl rfl (by decide) (by decide)).1,
   by decide!⟩

set_option maxRecDepth 100000 in
/-- C15, counterexample: the 83 payload bytes of an RMC sentence followed by a
line feed, fed to a fresh reader with a callback: nothing is dispatched (no fix
is delivered, where the same sentence one byte shorter delivers one) and the
overflow flag is left set. -/
theorem nmea_reader_addc_line_83 :
    sampleRMC83.length = 83 ∧ '\n' ∉ sampleRMC83 ∧
    (gps_state_thread_data sampleEnv (sampleRMC83 ++ ['\n'])
        { sampleReader with callback := some 1 } t_all_tokens.zero).map
      (fun x => (x.1.pos, x.1.overflow, x.2.1, x.2.2.map (fun c => c.2.flags)))
      = some (0, true, t_all_tokens.zero, []) := by
  decide!

/-- C16, the code at the failing input: when 83 bytes without a line feed have
filled the buffer of a reader and the next byte is a line feed, that byte sets
the overflow flag and is dropped without being tested, so the flag is still set
after it; the whole line that follows is then discarded without a dispatch, its
own line feed clearing the flag. -/
theorem nmea_reader_addc_overflow_newline (env : Env) (r : NmeaReader)
    (tokens : t_all_tokens) (filler line : List Char) (hin : r.in_ = [])
    (ho : r.overflow = false) (hf : filler.length = 83) (hnf : '\n' ∉ filler)
    (hn : '\n' ∉ line) :
    gps_state_thread_data env (filler ++ ['\n']) r tokens
      = some ({ r with overflow := true, in_ := [] }, tokens, []) ∧
    gps_state_thread_data env (filler ++ '\n' :: (line ++ ['\n'])) r tokens
      = some (r, tokens, []) := by
  have h83 : NMEA_MAX_SIZE = 83 := rfl
  have hfill := data_fill env filler r tokens ho
    (by simp only [NmeaReader.pos, hin, List.length_nil]; omega) hnf
  have hov : ¬ ({ r with in_ := r.in_ ++ filler } : NmeaReader).overflow = true := by
    show ¬ r.overflow = true
    rw [ho]; simp
  have hpos : ({ r with in_ := r.in_ ++ filler } : NmeaReader).pos ≥ NMEA_MAX_SIZE + 1 - 1 := by
    simp only [NmeaReader.pos, hin, List.nil_append]; omega
  have hstep : nmea_reader_addc env { r with in_ := r.in_ ++ filler } tokens '\n'
      = some ({ r with overflow := true, in_ := [] }, tokens, []) := by
    unfold nmea_reader_addc
    rw [if_neg hov, if_pos hpos]
  have hlast : nmea_reader_addc env { r with overflow := true, in_ := [] } tokens '\n'
      = some (r, tokens, []) := by
    unfold nmea_reader_addc
    rw [if_pos rfl]
    have e : ({ r with overflow := ('\n' != '\n'), in_ := [] } : NmeaReader) = r := by
      cases r
      simp only [NmeaReader.mk.injEq, and_true, true_and] at hin ho ⊢
      exact ⟨hin.symm, by rw [ho]; rfl⟩
    exact congrArg (fun x => some (x, tokens, [])) e
  constructor
  · rw [data_append, hfill]
    dsimp only
    rw [data_single, hstep]
    rfl
  · rw [data_append, hfill]
    dsimp only
    have e2 : '\n' :: (line ++ ['\n']) = ['\n'] ++ (line ++ ['\n']) := rfl
    rw [e2, data_append, data_single, hstep]
    dsimp only
    rw [data_append, data_skip env line _ tokens rfl hn]
    dsimp only
    rw [data_single, hlast]
    rfl

set_option maxRecDepth 100000 in
/-- C16, witness: 83 bytes `A` and a line feed, then an RMC sentence, on a
fresh reader with a callback: the sentence is discarded, where the same
sentence fed to the same reader alone delivers a fix. -/
theorem nmea_reader_addc_overflow_newline_witness :
    gps_state_thread_data sampleEnv
        (List.replicate 83 'A' ++ '\n' :: (sampleRMC82 ++ ['\n']))
        { sampleReader with callback := some 1 } t_all_tokens.zero
      = some ({ sampleReader with callback := some 1 }, t_all_tokens.zero, []) ∧
    (gps_state_thread_data sampleEnv (sampleRMC82 ++ ['\n'])
        { sampleReader with callback := some 1 } t_all_tokens.zero).map
      (fun x => x.2.2.map (fun c => c.2.flags)) = some [13] :=
  ⟨(nmea_reader_addc_overflow_newline sampleEnv { sampleReader with callback := some 1 }
      t_all_tokens.zero (List.replicate 83 'A') sampleRMC82 rfl rfl (by decide) (by decide)
      (by decide)).2,
   by decide!⟩

/-! ## Sentences other than GGA and RMC -/

set_option maxRecDepth 100000 in
/-- C12, the code at the failing input: a GSA sentence is not a no-op.  On the
field set that `open_gps` has zeroed, `nmea_reader_parse` of the GSA sentence
reads `tokens.latitudeHemi.p[0]` through a NULL pointer, for every reader and
clock.  After an RMC sentence, on a reader with a callback, the GSA sentence
runs the updates again on the fields that the RMC sentence left in the
process-wide field set: the callback is invoked a second time, with the
bitmask 13 and the latitude of the RMC sentence. -/
theorem nmea_reader_parse_gsa_sample :
    (∀ (env : Env) (r : NmeaReader),
      nmea_reader_parse env (r.withLine sampleGSA) t_all_tokens.zero = none) ∧
    (gps_state_thread_data sampleEnv sampleRMC
        { sampleReader with callback := some 1 } t_all_tokens.zero).map
      (fun x => x.2.2.map (fun c => (c.1, c.2.flags, c.2.latitude)))
      = some [(1, 13, 481173 / 10000)] ∧
    (gps_state_thread_data sampleEnv (sampleRMC ++ sampleGSA)
        { sampleReader with callback := some 1 } t_all_tokens.zero).map
      (fun x => x.2.2.map (fun c => (c.1, c.2.flags, c.2.latitude)))
      = some [(1, 13, 481173 / 10000), (1, 13, 481173 / 10000)] := by
  refine ⟨?_, by decide!, by decide!⟩
  intro env r
  have hpos : ¬ (r.withLine sampleGSA).pos < 9 := by
    show ¬ (sampleGSA.length < 9); decide
  have hlen0 : ¬ (nmea_tokenizer_get (nmea_tokenizer_init (r.withLine sampleGSA).in_) 0).len
      < 5 := by
    show ¬ (nmea_tokenizer_get (nmea_tokenizer_init sampleGSA) 0).len < 5; decide
  have hid : [(nmea_tokenizer_get (nmea_tokenizer_init (r.withLine sampleGSA).in_) 0).byte 2,
      (nmea_tokenizer_get (nmea_tokenizer_init (r.withLine sampleGSA).in_) 0).byte 3,
      (nmea_tokenizer_get (nmea_tokenizer_init (r.withLine sampleGSA).in_) 0).byte 4]
      = ['G', 'S', 'A'] := by
    show [(nmea_tokenizer_get (nmea_tokenizer_init sampleGSA) 0).byte 2,
      (nmea_tokenizer_get (nmea_tokenizer_init sampleGSA) 0).byte 3,
      (nmea_tokenizer_get (nmea_tokenizer_init sampleGSA) 0).byte 4] = ['G', 'S', 'A']
    decide
  have hf : nmea_reader_parse_fields (nmea_tokenizer_init (r.withLine sampleGSA).in_)
      ['G', 'S', 'A'] t_all_tokens.zero = t_all_tokens.zero := by
    unfold nmea_reader_parse_fields
    rw [if_neg (by decide), if_pos rfl]
  unfold nmea_reader_parse
  rw [if_neg hpos]
  dsimp only
  rw [if_neg hlen0, hid, hf]
  rfl

/-! ## Date field -/

/-- C18, the code at the failing input: for every 6-character date field whose
day and month pairs are decimal digits and whose year pair is not, the year is
-1 + 2000 = 1999, which passes the test for a negative component: the date
cache becomes (1999, MM, DD) and `nmea_reader_update_time` runs on it. -/
theorem nmea_reader_update_date_year_pair (env : Env) (r : NmeaReader) (date time : Token)
    (h1 : date.init = true) (h2 : date.len = 6)
    (hd : allDigits (date.bytes.take 2) = true)
    (hm : allDigits ((date.bytes.drop 2).take 2) = true)
    (hy : allDigits ((date.bytes.drop 4).take 2) = false) :
    nmea_reader_update_date env r date time =
      nmea_reader_update_time env
        { r with utc_year := 1999,
                 utc_mon := (decimalValue ((date.bytes.drop 2).take 2) : Int),
                 utc_day := (decimalValue (date.bytes.take 2) : Int) } time := by
  have g : ¬ (!date.init || decide (date.len ≠ 6)) = true := by simp [h1, h2]
  have ed := str2int_pair (date.bytes.take 2) hd (by simp)
  have em := str2int_pair ((date.bytes.drop 2).take 2) hm (by simp)
  have ey := str2int_nondigit ((date.bytes.drop 4).take 2) hy
  unfold nmea_reader_update_date
  rw [if_neg g]
  dsimp only
  rw [ed, em, ey]
  rw [if_neg (by omega)]
  rfl

set_option maxRecDepth 100000 in
/-- C18, witness: the date field `0101AB` with the time field `123519` on a
fresh reader: the call returns 0, the cache is (1999, 1, 1) and the timestamp
has changed. -/
theorem nmea_reader_update_date_year_pair_witness :
    nmea_reader_update_date sampleEnv sampleReader (Token.ofBytes "0101AB".toList)
        (Token.ofBytes "123519".toList)
      = nmea_reader_update_time sampleEnv
          { sampleReader with utc_year := 1999, utc_mon := 1, utc_day := 1 }
          (Token.ofBytes "123519".toList) ∧
    (nmea_reader_update_date sampleEnv sampleReader (Token.ofBytes "0101AB".toList)
        (Token.ofBytes "123519".toList)).2 = 0 ∧
    ((nmea_reader_update_date sampleEnv sampleReader (Token.ofBytes "0101AB".toList)
        (Token.ofBytes "123519".toList)).1.utc_year,
     (nmea_reader_update_date sampleEnv sampleReader (Token.ofBytes "0101AB".toList)
        (Token.ofBytes "123519".toList)).1.utc_mon,
     (nmea_reader_update_date sampleEnv sampleReader (Token.ofBytes "0101AB".toList)
        (Token.ofBytes "123519".toList)).1.utc_day) = (1999, 1, 1) ∧
    (nmea_reader_update_date sampleEnv sampleReader (Token.ofBytes "0101AB".toList)
        (Token.ofBytes "123519".toList)).1.fix.timestamp ≠ sampleReader.fix.timestamp :=
  ⟨nmea_reader_update_date_year_pair sampleEnv sampleReader (Token.ofBytes "0101AB".toList)
      (Token.ofBytes "123519".toList) rfl rfl (by decide) (by decide) (by decide),
   by decide!, by decide!, by decide!⟩

/-! ## Coordinates -/

theorem int_part_nonneg (q : ℚ) (h : 0 ≤ q) : int_part q = ⌊q⌋ := by
  unfold int_part
  rw [Int.tdiv_eq_ediv (Rat.num_nonneg.mpr h) (by exact_mod_cast Nat.zero_le _)]
  exact (Rat.floor_def' q).symm

theorem double_to_int_in_range (x : ℚ) (h1 : -2147483648 ≤ int_part x)
    (h2 : int_part x ≤ 2147483647) : double_to_int x = int_part x := by
  unfold double_to_int
  rw [if_pos ⟨h1, h2⟩]

theorem double_to_int_nonneg (q : ℚ) (h : 0 ≤ q) (hb : q < 2147483648) :
    double_to_int q = ⌊q⌋ := by
  have e := int_part_nonneg q h
  have h0 : (0 : Int) ≤ ⌊q⌋ := Int.floor_nonneg.mpr h
  have h1 : ⌊q⌋ < 2147483648 := Int.floor_lt.mpr (by exact_mod_cast hb)
  rw [double_to_int_in_range q (by rw [e]; omega) (by rw [e]; omega), e]

theorem floor_floor_div (v : ℚ) : ⌊((⌊v⌋ : Int) : ℚ) / 100⌋ = ⌊v / 100⌋ := by
  symm
  rw [Int.floor_eq_iff]
  have h1 := Int.floor_le (((⌊v⌋ : Int) : ℚ) / 100)
  have h2 := Int.lt_floor_add_one (((⌊v⌋ : Int) : ℚ) / 100)
  have h3 := Int.floor_le v
  have h4 := Int.lt_floor_add_one v
  constructor
  · linarith
  · -- ⌊v⌋ < 100 * (k + 1) as integers, so ⌊v⌋ + 1 ≤ 100 * (k + 1)
    have h5 : (⌊v⌋ : Int) < 100 * (⌊((⌊v⌋ : Int) : ℚ) / 100⌋ + 1) := by
      have : ((⌊v⌋ : Int) : ℚ) < 100 * ((⌊((⌊v⌋ : Int) : ℚ) / 100⌋ : ℚ) + 1) := by linarith
      exact_mod_cast this
    have h6 : ((⌊v⌋ : Int) : ℚ) + 1 ≤ 100 * ((⌊((⌊v⌋ : Int) : ℚ) / 100⌋ : ℚ) + 1) := by
      exact_mod_cast h5
    linarith

/-! ## Synthesizer round trip -/

theorem digitChar_spec (d : Nat) (h : d < 10) :
    isdigit (digitChar d) = true ∧ (digitChar d).toNat - 48 = d ∧ digitChar d ≠ NUL := by
  interval_cases d <;> decide

theorem natDigits_allDigits (fuel n : Nat) : allDigits (natDigits fuel n) = true := by
  induction fuel generalizing n with
  | zero => rfl
  | succ k ih =>
    unfold natDigits
    split
    · rename_i h
      simp [allDigits, (digitChar_spec n h).1]
    · have := ih (n / 10)
      simp only [allDigits, List.all_append, Bool.and_eq_true] at this ⊢
      exact ⟨this, by simp [(digitChar_spec (n % 10) (Nat.mod_lt _ (by decide))).1]⟩

theorem foldl_digits_append (a b : List Char) (acc : Nat) :
    (a ++ b).foldl (fun x c => x * 10 + (c.toNat - 48)) acc
      = b.foldl (fun x c => x * 10 + (c.toNat - 48))
          (a.foldl (fun x c => x * 10 + (c.toNat - 48)) acc) :=
  List.foldl_append _ _ _ _

theorem natDigits_foldl (fuel n acc : Nat) (h : n < fuel) :
    (natDigits fuel n).foldl (fun x c => x * 10 + (c.toNat - 48)) acc
      = acc * 10 ^ (natDigits fuel n).length + n := by
  induction fuel generalizing n acc with
  | zero => omega
  | succ k ih =>
    unfold natDigits
    split
    · rename_i h10
      simp [(digitChar_spec n h10).2.1]
    · rename_i h10
      have hk : n / 10 < k := by omega
      rw [foldl_digits_append, ih (n / 10) acc hk]
      simp only [List.foldl_cons, List.foldl_nil, List.length_append, List.length_singleton,
        (digitChar_spec (n % 10) (Nat.mod_lt _ (by decide))).2.1]
      rw [pow_succ]
      have := Nat.div_add_mod n 10
      nlinarith [Nat.div_add_mod n 10]

theorem natDigits_length (fuel n k : Nat) (h : n < fuel) (hk : 1 ≤ k) (hn : n < 10 ^ k) :
    1 ≤ (natDigits fuel n).length ∧ (natDigits fuel n).length ≤ k := by
  induction fuel generalizing n k with
  | zero => omega
  | succ f ih =>
    unfold natDigits
    split
    · simp; omega
    · rename_i h10
      have hk2 : 2 ≤ k := by
        by_contra hc
        have : k = 1 := by omega
        subst this
        omega
      have hdiv : n / 10 < 10 ^ (k - 1) := by
        have e : 10 ^ k = 10 ^ (k - 1) * 10 := by
          rw [← pow_succ]; congr 1; omega
        rw [e] at hn
        exact Nat.div_lt_of_lt_mul (by rw [Nat.mul_comm]; exact hn)
      have := ih (n / 10) (k - 1) (by omega) (by omega) hdiv
      simp only [List.length_append, List.length_singleton]
      omega

theorem foldl_zeros (k acc : Nat) :
    (List.replicate k '0').foldl (fun x c => x * 10 + (c.toNat - 48)) acc = acc * 10 ^ k := by
  induction k generalizing acc with
  | zero => simp
  | succ j ih =>
    rw [List.replicate_succ, List.foldl_cons, ih]
    have : ('0' : Char).toNat - 48 = 0 := by decide
    rw [this, pow_succ]
    ring

theorem printf_0d_nat (w m : Nat) :
    printf_0d w (m : Int)
      = List.replicate (w - (natDigits (m + 1) m).length) '0' ++ natDigits (m + 1) m := by
  unfold printf_0d
  rw [if_neg (by omega)]
  simp

theorem printf_0d_allDigits (w m : Nat) : allDigits (printf_0d w (m : Int)) = true := by
  rw [printf_0d_nat]
  have := natDigits_allDigits (m + 1) m
  simp only [allDigits, List.all_append, Bool.and_eq_true] at this ⊢
  refine ⟨?_, this⟩
  simp only [List.all_eq_true]
  intro c hc
  rw [List.eq_of_mem_replicate hc]
  decide

theorem printf_0d_foldl (w m acc : Nat) :
    (printf_0d w (m : Int)).foldl (fun x c => x * 10 + (c.toNat - 48)) acc
      = acc * 10 ^ (printf_0d w (m : Int)).length + m := by
  rw [printf_0d_nat, foldl_digits_append, foldl_zeros, natDigits_foldl _ _ _ (Nat.lt_succ_self m)]
  simp only [List.length_append, List.length_replicate]
  rw [pow_add]
  ring

theorem printf_0d_length (w m : Nat) (hw : 1 ≤ w) (hm : m < 10 ^ w) :
    (printf_0d w (m : Int)).length = w := by
  rw [printf_0d_nat]
  have := natDigits_length (m + 1) m w (Nat.lt_succ_self m) hw hm
  simp only [List.length_append, List.length_replicate]
  omega

theorem printf_0d_length_le (w k m : Nat) (hw : 1 ≤ w) (hk : w ≤ k) (hm : m < 10 ^ k) :
    w ≤ (printf_0d w (m : Int)).length ∧ (printf_0d w (m : Int)).length ≤ k := by
  rw [printf_0d_nat]
  have := natDigits_length (m + 1) m k (Nat.lt_succ_self m) (by omega) hm
  simp only [List.length_append, List.length_replicate]
  omega

theorem readDigits_append (ds rest : List Char) (acc k : Nat) (h : allDigits ds = true) :
    readDigits (ds ++ rest) acc k
      = readDigits rest (ds.foldl (fun x c => x * 10 + (c.toNat - 48)) acc) (k + ds.length) := by
  induction ds generalizing acc k with
  | nil => rfl
  | cons c cs ih =>
    simp only [allDigits, List.all_cons, Bool.and_eq_true] at h
    simp only [List.cons_append, readDigits, h.1, if_true, List.foldl_cons, List.length_cons,
      List.append_eq]
    rw [ih _ _ (by simpa [allDigits] using h.2)]
    congr 1
    omega

theorem isdigit_not_special (c : Char) (h : isdigit c = true) :
    isspace c = false ∧ c ≠ '-' ∧ c ≠ '+' ∧ c ≠ NUL := by
  simp only [isdigit, Bool.and_eq_true, decide_eq_true_eq] at h
  refine ⟨?_, ?_, ?_, ?_⟩
  · simp only [isspace, Bool.or_eq_false_iff, decide_eq_false_iff_not]
    refine ⟨⟨⟨⟨⟨?_, ?_⟩, ?_⟩, ?_⟩, ?_⟩, ?_⟩ <;>
    · intro hc
      rw [hc] at h
      revert h
      decide
  · intro hc; rw [hc] at h; revert h; decide
  · intro hc; rw [hc] at h; revert h; decide
  · intro hc; rw [hc] at h; revert h; decide

theorem isHexPrefix_cons (c x : Char) (rest : List Char) (hx : x ≠ 'x' ∧ x ≠ 'X') :
    isHexPrefix (c :: x :: rest) = false := by
  unfold isHexPrefix
  split
  · rename_i heq
    simp only [List.cons.injEq] at heq
    obtain ⟨_, h2, _⟩ := heq
    subst h2
    simp [hx.1, hx.2]
  · rfl

theorem isdigit_not_hex (c : Char) (h : isdigit c = true) : c ≠ 'x' ∧ c ≠ 'X' := by
  simp only [isdigit, Bool.and_eq_true, decide_eq_true_eq] at h
  constructor
  · intro hc; rw [hc] at h; revert h; decide
  · intro hc; rw [hc] at h; revert h; decide

theorem strtod_decimal (ds fs : List Char) (hds : allDigits ds = true) (hne : ds ≠ [])
    (hfs : allDigits fs = true) (hfne : fs ≠ []) :
    strtod (ds ++ '.' :: fs)
      = mkRat ((fs.foldl (fun x c => x * 10 + (c.toNat - 48))
                (ds.foldl (fun x c => x * 10 + (c.toNat - 48)) 0) : Nat) : Int)
          (10 ^ fs.length) := by
  obtain ⟨c, cs, rfl⟩ := List.exists_cons_of_ne_nil hne
  have hc : isdigit c = true := by
    simp only [allDigits, List.all_cons, Bool.and_eq_true] at hds
    exact hds.1
  obtain ⟨hsp, hminus, hplus, _⟩ := isdigit_not_special c hc
  have hdw : (c :: cs ++ '.' :: fs).dropWhile isspace = c :: cs ++ '.' :: fs := by
    simp [List.dropWhile, hsp]
  have hhead : (c :: cs ++ '.' :: fs).head? = some c := rfl
  have hip : readDigits (c :: cs ++ '.' :: fs) 0 0
      = ((c :: cs).foldl (fun x c => x * 10 + (c.toNat - 48)) 0, (c :: cs).length,
          '.' :: fs) := by
    rw [readDigits_append _ _ _ _ hds]
    have : isdigit '.' = false := by decide
    simp only [readDigits, this, Nat.zero_add]
    rfl
  have hfp : ∀ acc, readDigits fs acc 0
      = (fs.foldl (fun x c => x * 10 + (c.toNat - 48)) acc, fs.length, []) := by
    intro acc
    have := readDigits_append fs [] acc 0 hfs
    rw [List.append_nil] at this
    rw [this]
    simp [readDigits]
  have hlen : 0 < fs.length := List.length_pos.mpr hfne
  have hhex : isHexPrefix (c :: cs ++ '.' :: fs) = false := by
    cases cs with
    | nil => exact isHexPrefix_cons c '.' fs (by decide)
    | cons d ds =>
      have hd : isdigit d = true := by
        simp only [allDigits, List.all_cons, Bool.and_eq_true] at hds
        exact hds.2.1
      exact isHexPrefix_cons c d _ (isdigit_not_hex d hd)
  unfold strtod strtod_number
  simp only [hdw, hhead, Option.some.injEq, hminus, hplus, or_self, if_false, hhex,
    Bool.false_eq_true, hip,
    List.head?_cons, if_true, List.drop_succ_cons, List.drop_zero, hfp, decide_False]
  rw [if_neg (by simp only [List.length_cons]; omega)]
  have he : ¬ (0 : Int) ≤ readExponent [] - (fs.length : Int) := by
    simp only [readExponent]; omega
  rw [if_neg he]
  have hn : (-(readExponent [] - (fs.length : Int))).toNat = fs.length := by
    simp only [readExponent]; omega
  rw [hn]

theorem allDigits_no_nul (s : List Char) (h : allDigits s = true) : NUL ∉ s := by
  intro hm
  simp only [allDigits, List.all_eq_true] at h
  exact (isdigit_not_special NUL (h NUL hm)).2.2.2 rfl

theorem hhmm_degrees (D M F : Nat) (hD : D < 1000) (hM : M < 100) (hF : F < 10000) :
    double_to_int (floor (((D : ℚ) * 100 + (M : ℚ)) + (F : ℚ) / 10000) / 100) = (D : Int) := by
  have hfl : ⌊((D : ℚ) * 100 + (M : ℚ)) + (F : ℚ) / 10000⌋ = (D : Int) * 100 + (M : Int) := by
    rw [Int.floor_eq_iff]
    have h0 : (0 : ℚ) ≤ (F : ℚ) := Nat.cast_nonneg F
    have h1 : (F : ℚ) < 10000 := by exact_mod_cast hF
    push_cast
    constructor
    · have : (0 : ℚ) ≤ (F : ℚ) / 10000 := by positivity
      linarith
    · have : (F : ℚ) / 10000 < 1 := by
        rw [div_lt_one (by norm_num)]; exact h1
      linarith
  have e : floor (((D : ℚ) * 100 + (M : ℚ)) + (F : ℚ) / 10000)
      = (D : ℚ) * 100 + (M : ℚ) := by
    have e1 : floor (((D : ℚ) * 100 + (M : ℚ)) + (F : ℚ) / 10000)
        = ((⌊((D : ℚ) * 100 + (M : ℚ)) + (F : ℚ) / 10000⌋ : Int) : ℚ) := rfl
    rw [e1, hfl]
    norm_cast
  rw [e]
  have h0 : (0 : ℚ) ≤ (M : ℚ) := Nat.cast_nonneg M
  have h1 : (M : ℚ) < 100 := by exact_mod_cast hM
  have h2 : (0 : ℚ) ≤ (D : ℚ) := Nat.cast_nonneg D
  have h3 : (0 : ℚ) ≤ ((D : ℚ) * 100 + (M : ℚ)) / 100 := by positivity
  have h4 : ((D : ℚ) * 100 + (M : ℚ)) / 100 < 2147483648 := by
    have : (D : ℚ) < 1000 := by exact_mod_cast hD
    rw [div_lt_iff₀ (by norm_num)]
    linarith
  rw [double_to_int_nonneg _ h3 h4, Int.floor_eq_iff]
  constructor
  · rw [le_div_iff₀ (by norm_num)]; push_cast; linarith
  · rw [div_lt_iff₀ (by norm_num)]; push_cast; linarith

theorem format_coordinate_bytes (D M F : Nat) (hD : D < 1000) (hM : M < 100)
    (hF : F < 10000) :
    6 ≤ ((printf_0d 2 (D : Int) ++ printf_0d 2 (M : Int)) ++
      '.' :: printf_0d 4 (F : Int)).length ∧
    (Token.ofBytes ((printf_0d 2 (D : Int) ++ printf_0d 2 (M : Int)) ++
      '.' :: printf_0d 4 (F : Int))).bytes
      = (printf_0d 2 (D : Int) ++ printf_0d 2 (M : Int)) ++ '.' :: printf_0d 4 (F : Int) ∧
    str2float ((printf_0d 2 (D : Int) ++ printf_0d 2 (M : Int)) ++
      '.' :: printf_0d 4 (F : Int)) = ((D : ℚ) * 100 + (M : ℚ)) + (F : ℚ) / 10000 := by
  have lD := printf_0d_length_le 2 3 D (by omega) (by omega) (by norm_num; omega)
  have lM := printf_0d_length 2 M (by omega) (by norm_num; omega)
  have lF := printf_0d_length 4 F (by omega) (by norm_num; omega)
  have aD := printf_0d_allDigits 2 D
  have aM := printf_0d_allDigits 2 M
  have aF := printf_0d_allDigits 4 F
  have aDM : allDigits (printf_0d 2 (D : Int) ++ printf_0d 2 (M : Int)) = true := by
    simp only [allDigits, List.all_append, Bool.and_eq_true] at aD aM ⊢
    exact ⟨aD, aM⟩
  have hlen : ((printf_0d 2 (D : Int) ++ printf_0d 2 (M : Int)) ++
      '.' :: printf_0d 4 (F : Int)).length = (printf_0d 2 (D : Int)).length + 7 := by
    simp only [List.length_append, List.length_cons, lM, lF]
  have hnul : NUL ∉ (printf_0d 2 (D : Int) ++ printf_0d 2 (M : Int)) ++
      '.' :: printf_0d 4 (F : Int) := by
    intro hm
    rcases List.mem_append.mp hm with h1 | h1
    · exact allDigits_no_nul _ aDM h1
    · rcases List.mem_cons.mp h1 with h2 | h2
      · revert h2; decide
      · exact allDigits_no_nul _ aF h2
  have hne : printf_0d 2 (D : Int) ++ printf_0d 2 (M : Int) ≠ [] := by
    intro h
    have := congrArg List.length h
    simp only [List.length_append, List.length_nil] at this
    omega
  have hfne : printf_0d 4 (F : Int) ≠ [] := by
    intro h
    have := congrArg List.length h
    simp only [List.length_nil] at this
    omega
  refine ⟨by rw [hlen]; omega, ?_, ?_⟩
  · unfold Token.ofBytes
    rw [bytes_snprintf _ _ le_rfl (by rw [hlen]; omega) (by rw [List.take_length]; exact hnul)]
    exact List.take_length _
  · unfold str2float
    rw [if_neg (by rw [hlen]; omega), strtod_decimal _ _ aDM hne aF hfne,
      foldl_digits_append, printf_0d_foldl, printf_0d_foldl, printf_0d_foldl, lM, lF,
      Rat.mkRat_eq_div]
    push_cast
    field_simp

theorem format_coordinate_value (hemi : Char) (D M F : Nat) (frac : ℚ) (hD : D < 1000)
    (hM : M < 100) (hF : F < 10000) (hfrac : double_to_int frac = (F : Int)) :
    (Token.ofBytes (format_coordinate
        { hemi := hemi, deg := (D : Int), min := (M : Int), frac := frac })).init = true ∧
    6 ≤ (Token.ofBytes (format_coordinate
        { hemi := hemi, deg := (D : Int), min := (M : Int), frac := frac })).len ∧
    convert_from_hhmm (Token.ofBytes (format_coordinate
        { hemi := hemi, deg := (D : Int), min := (M : Int), frac := frac }))
      = (D : ℚ) + ((M : ℚ) + (F : ℚ) / 10000) / 60 := by
  have hs : format_coordinate { hemi := hemi, deg := (D : Int), min := (M : Int), frac := frac }
      = (printf_0d 2 (D : Int) ++ printf_0d 2 (M : Int)) ++ '.' :: printf_0d 4 (F : Int) := by
    unfold format_coordinate
    dsimp only
    rw [hfrac]
    simp
  obtain ⟨h6, hbytes, hval⟩ := format_coordinate_bytes D M F hD hM hF
  rw [hs]
  refine ⟨rfl, h6, ?_⟩
  unfold convert_from_hhmm
  dsimp only
  rw [hbytes, hval, hhmm_degrees D M F hD hM hF]
  push_cast
  ring

theorem floor_toNat_cast (q : ℚ) (h : 0 ≤ q) : ((⌊q⌋.toNat : Nat) : Int) = ⌊q⌋ :=
  Int.toNat_of_nonneg (Int.floor_nonneg.mpr h)

theorem floor_toNat_lt (q : ℚ) (n : Nat) (h : 0 ≤ q) (hn : q < (n : ℚ)) : ⌊q⌋.toNat < n := by
  have h1 : ⌊q⌋ < (n : Int) := Int.floor_lt.mpr (by exact_mod_cast hn)
  have h2 := floor_toNat_cast q h
  omega

theorem degrees_minutes_round_trip (x : ℚ) (neg pos : Char) (hne : pos ≠ neg)
    (hx : |x| ≤ 180) :
    (Token.ofBytes (format_coordinate (degrees_minutes x neg pos))).init = true ∧
    6 ≤ (Token.ofBytes (format_coordinate (degrees_minutes x neg pos))).len ∧
    |(if (degrees_minutes x neg pos).hemi = neg
        then - convert_from_hhmm (Token.ofBytes (format_coordinate (degrees_minutes x neg pos)))
        else convert_from_hhmm (Token.ofBytes (format_coordinate (degrees_minutes x neg pos))))
      - x| ≤ 1 / 10000 := by
  -- the magnitude and its split
  have ha0 : (0 : ℚ) ≤ (if x < 0 then -x else x) := by
    split <;> linarith
  have ha180 : (if x < 0 then -x else x) ≤ 180 := by
    have := abs_le.mp hx
    split <;> linarith
  generalize hA : (if x < 0 then -x else x) = a at ha0 ha180
  have hD : double_to_int a = ((⌊a⌋.toNat : Nat) : Int) := by
    rw [double_to_int_nonneg a ha0 (by linarith), floor_toNat_cast a ha0]
  have hDq : ((⌊a⌋.toNat : Nat) : ℚ) = ((⌊a⌋ : Int) : ℚ) := by
    have := floor_toNat_cast a ha0
    exact_mod_cast this
  have hD1 := Int.floor_le a
  have hD2 := Int.lt_floor_add_one a
  have hDlt : ⌊a⌋.toNat < 1000 := floor_toNat_lt a 1000 ha0 (by norm_num; linarith)
  have hb0 : (0 : ℚ) ≤ 60 * (a - ((⌊a⌋.toNat : Nat) : ℚ)) := by rw [hDq]; linarith
  have hb60 : 60 * (a - ((⌊a⌋.toNat : Nat) : ℚ)) < ((60 : Nat) : ℚ) := by
    rw [hDq]; push_cast; linarith
  generalize hB : 60 * (a - ((⌊a⌋.toNat : Nat) : ℚ)) = b at hb0 hb60
  have hM : double_to_int b = ((⌊b⌋.toNat : Nat) : Int) := by
    rw [double_to_int_nonneg b hb0 (by push_cast at hb60; linarith), floor_toNat_cast b hb0]
  have hMq : ((⌊b⌋.toNat : Nat) : ℚ) = ((⌊b⌋ : Int) : ℚ) := by
    have := floor_toNat_cast b hb0
    exact_mod_cast this
  have hM1 := Int.floor_le b
  have hM2 := Int.lt_floor_add_one b
  have hMlt : ⌊b⌋.toNat < 100 := by
    have := floor_toNat_lt b 60 hb0 hb60
    omega
  have hc0 : (0 : ℚ) ≤ 10000 * (b - ((⌊b⌋.toNat : Nat) : ℚ)) := by rw [hMq]; linarith
  have hc1 : 10000 * (b - ((⌊b⌋.toNat : Nat) : ℚ)) < ((10000 : Nat) : ℚ) := by
    rw [hMq]; push_cast; linarith
  generalize hC : 10000 * (b - ((⌊b⌋.toNat : Nat) : ℚ)) = c at hc0 hc1
  have hF : double_to_int c = ((⌊c⌋.toNat : Nat) : Int) := by
    rw [double_to_int_nonneg c hc0 (by push_cast at hc1; linarith), floor_toNat_cast c hc0]
  have hFq : ((⌊c⌋.toNat : Nat) : ℚ) = ((⌊c⌋ : Int) : ℚ) := by
    have := floor_toNat_cast c hc0
    exact_mod_cast this
  have hF1 := Int.floor_le c
  have hF2 := Int.lt_floor_add_one c
  have hFlt : ⌊c⌋.toNat < 10000 := floor_toNat_lt c 10000 hc0 hc1
  have hdm : degrees_minutes x neg pos
      = { hemi := if x < 0 then neg else pos, deg := ((⌊a⌋.toNat : Nat) : Int),
          min := ((⌊b⌋.toNat : Nat) : Int), frac := c } := by
    unfold degrees_minutes
    dsimp only
    rw [hA, hD]
    have e1 : (((⌊a⌋.toNat : Nat) : Int) : ℚ) = ((⌊a⌋.toNat : Nat) : ℚ) := by norm_cast
    rw [e1, hB, hM]
    have e2 : (((⌊b⌋.toNat : Nat) : Int) : ℚ) = ((⌊b⌋.toNat : Nat) : ℚ) := by norm_cast
    rw [e2, hC]
  obtain ⟨g1, g2, g3⟩ := format_coordinate_value (if x < 0 then neg else pos)
    ⌊a⌋.toNat ⌊b⌋.toNat ⌊c⌋.toNat c hDlt hMlt hFlt hF
  rw [hdm]
  refine ⟨g1, g2, ?_⟩
  rw [g3]
  dsimp only
  have hclose : |((⌊a⌋.toNat : Nat) : ℚ)
      + (((⌊b⌋.toNat : Nat) : ℚ) + ((⌊c⌋.toNat : Nat) : ℚ) / 10000) / 60 - a| ≤ 1 / 10000 := by
    rw [abs_le]
    rw [hFq]
    have hb : ((⌊b⌋.toNat : Nat) : ℚ) = b - c / 10000 := by rw [← hC]; ring
    have hd : ((⌊a⌋.toNat : Nat) : ℚ) = a - b / 60 := by rw [← hB]; ring
    rw [hb, hd]
    constructor <;> linarith
  by_cases hneg : x < 0
  · rw [if_pos hneg] at hA ⊢
    rw [if_pos rfl]
    have : -(((⌊a⌋.toNat : Nat) : ℚ)
        + (((⌊b⌋.toNat : Nat) : ℚ) + ((⌊c⌋.toNat : Nat) : ℚ) / 10000) / 60) - x
        = -((((⌊a⌋.toNat : Nat) : ℚ)
        + (((⌊b⌋.toNat : Nat) : ℚ) + ((⌊c⌋.toNat : Nat) : ℚ) / 10000) / 60) - a) := by
      rw [← hA]; ring
    rw [this, abs_neg]
    exact hclose
  · rw [if_neg hneg] at hA ⊢
    rw [if_neg hne, ← hA] at *
    exact hclose

/-- C11: for all decimal-degree coordinates `lat` and `lng` of magnitude at
most 180, the fields and hemisphere letters that the synthesizer prints for
them (hemisphere from the sign, degrees = integer part, minutes = fractional
part times 60, printed as `%02d%02d.%04d`) are decoded by
`nmea_reader_update_latlong`, that is by `convert_from_hhmm` and the `S`/`W`
negation, to a latitude and a longitude within 1e-4 of `lat` and `lng`, over
exact rational arithmetic; the call returns 0 and sets the
latitude/longitude bit. -/
theorem synthesizer_round_trip (r : NmeaReader) (lat lng : ℚ) (hlat : |lat| ≤ 180)
    (hlng : |lng| ≤ 180) :
    (nmea_reader_update_latlong r
        (Token.ofBytes (format_coordinate (o_lat lat))) (o_lat lat).hemi
        (Token.ofBytes (format_coordinate (o_lng lng))) (o_lng lng).hemi).2 = 0 ∧
    |(nmea_reader_update_latlong r
        (Token.ofBytes (format_coordinate (o_lat lat))) (o_lat lat).hemi
        (Token.ofBytes (format_coordinate (o_lng lng))) (o_lng lng).hemi).1.fix.latitude
      - lat| ≤ 1 / 10000 ∧
    |(nmea_reader_update_latlong r
        (Token.ofBytes (format_coordinate (o_lat lat))) (o_lat lat).hemi
        (Token.ofBytes (format_coordinate (o_lng lng))) (o_lng lng).hemi).1.fix.longitude
      - lng| ≤ 1 / 10000 ∧
    has_flag (nmea_reader_update_latlong r
        (Token.ofBytes (format_coordinate (o_lat lat))) (o_lat lat).hemi
        (Token.ofBytes (format_coordinate (o_lng lng))) (o_lng lng).hemi).1.fix.flags
      GPS_LOCATION_HAS_LAT_LONG = true := by
  obtain ⟨a1, a2, a3⟩ := degrees_minutes_round_trip lat 'S' 'N' (by decide) hlat
  obtain ⟨b1, b2, b3⟩ := degrees_minutes_round_trip lng 'W' 'E' (by decide) hlng
  unfold o_lat o_lng
  rw [update_latlong_valid r _ _ _ _ a1 a2 b1 b2]
  exact ⟨rfl, a3, b3, has_flag_self_or _ _ (by decide)⟩

set_option maxRecDepth 100000 in
/-- C11, witness: latitude 48.1173 and longitude -11.5167, printed as
`4807.0380`, `N` and `1131.0020`, `W`. -/
theorem synthesizer_round_trip_witness :
    format_coordinate (o_lat (481173 / 10000)) = "4807.0380".toList ∧
    (o_lat (481173 / 10000)).hemi = 'N' ∧
    format_coordinate (o_lng (-(115167 / 10000))) = "1131.0020".toList ∧
    (o_lng (-(115167 / 10000))).hemi = 'W' ∧
    |(nmea_reader_update_latlong sampleReader
        (Token.ofBytes (format_coordinate (o_lat (481173 / 10000))))
        (o_lat (481173 / 10000)).hemi
        (Token.ofBytes (format_coordinate (o_lng (-(115167 / 10000)))))
        (o_lng (-(115167 / 10000))).hemi).1.fix.longitude
      - (-(115167 / 10000))| ≤ 1 / 10000 :=
  ⟨by decide!, by decide!, by decide!, by decide!,
   (synthesizer_round_trip sampleReader (481173 / 10000) (-(115167 / 10000))
      (by decide!) (by decide!)).2.2.1⟩

/-! ## Scalar parser `str2int` -/

/-- C29: for every byte range of decimal digits only whose value is below 2^31,
`str2int` returns that value, 0 for the empty range; for every byte range that
holds a byte that is not a decimal digit, a sign or a decimal point included,
it returns -1. -/
theorem str2int_spec (s : List Char) :
    (allDigits s = true → decimalValue s < 2 ^ 31 → str2int s = (decimalValue s : Int)) ∧
    ((∃ c ∈ s, isdigit c = false) → str2int s = -1) ∧
    str2int [] = 0 ∧ isdigit '-' = false ∧ isdigit '+' = false ∧ isdigit '.' = false := by
  refine ⟨?_, ?_, rfl, by decide, by decide, by decide⟩
  · intro hd hv
    exact str2int_digits s hd (by norm_num at hv; exact hv)
  · rintro ⟨c, hc, hnd⟩
    apply str2int_nondigit
    cases h : allDigits s with
    | false => rfl
    | true =>
      simp only [allDigits, List.all_eq_true] at h
      rw [h c hc] at hnd
      exact absurd hnd (by decide)

/-- C29, witness: the ranges `2147483647`, `-5` and `3.5`. -/
theorem str2int_spec_witness :
    str2int "2147483647".toList = 2147483647 ∧ str2int "-5".toList = -1 ∧
    str2int "3.5".toList = -1 :=
  ⟨by
    have h := (str2int_spec "2147483647".toList).1 (by decide) (by decide)
    rw [h]; decide,
   (str2int_spec "-5".toList).2.1 ⟨'-', by decide, by decide⟩,
   (str2int_spec "3.5".toList).2.1 ⟨'.', by decide, by decide⟩⟩

/-! ## Synthesizer: `readBody` -/

/-- C28: when `readBody` has received the whole frame, for every payload that
carries a GPS record it writes `GPS_ENABLED` to the status key, whether the
record declares its status as enabled or not, together with the coordinates of
the record; for every payload without a GPS record, as when the frame is not
received in full, it leaves the shared state store unchanged. -/
theorem readBody_status (props : Properties) (siz : Nat) (body : BodyInput) :
    (body.bytecount = (siz : Int) + 4 →
      ∀ gps, body.payload.gps = some gps →
        readBody props siz body =
          { status := GpsStatusProperty.GPS_ENABLED, latitude := gps.latitude,
            longitude := gps.longitude, altitude := gps.altitude, bearing := gps.bearing }) ∧
    (body.payload.gps = none → readBody props siz body = props) ∧
    (body.bytecount ≠ (siz : Int) + 4 → readBody props siz body = props) := by
  refine ⟨?_, ?_, ?_⟩
  · intro hb gps hg
    unfold readBody
    rw [if_neg (by omega), if_neg (by simp [hb]), hg]
  · intro hg
    unfold readBody
    split
    · rfl
    · split
      · rfl
      · rw [hg]
  · intro hb
    unfold readBody
    by_cases h1 : body.bytecount = -1
    · rw [if_pos h1]
    · rw [if_neg h1, if_pos hb]

/-- C28, witness: a record that declares its status as disabled, on a store
whose status is disabled: the status key is enabled afterwards. -/
theorem readBody_status_witness :
    (readBody
      { status := GpsStatusProperty.GPS_DISABLED, latitude := 0, longitude := 0,
        altitude := 0, bearing := 0 } 10
      { bytecount := 14,
        payload := { gps := some { enabled := false, latitude := 48, longitude := 11,
                                   altitude := 500, bearing := 90 } } }).status
      = GpsStatusProperty.GPS_ENABLED ∧
    readBody
      { status := GpsStatusProperty.GPS_DISABLED, latitude := 0, longitude := 0,
        altitude := 0, bearing := 0 } 10
      { bytecount := 14, payload := { gps := none } }
      = { status := GpsStatusProperty.GPS_DISABLED, latitude := 0, longitude := 0,
          altitude := 0, bearing := 0 } :=
  ⟨congrArg Properties.status ((readBody_status _ 10
      { bytecount := 14,
        payload := { gps := some { enabled := false, latitude := 48, longitude := 11,
                                   altitude := 500, bearing := 90 } } }).1 (by decide) _ rfl),
   (readBody_status _ 10 { bytecount := 14, payload := { gps := none } }).2.1 rfl⟩

/-! ## Frame of the update routines -/

theorem touchesOnly_refl (own : Nat) (r : NmeaReader) : TouchesOnly own r r :=
  ⟨rfl, rfl, rfl, rfl, rfl, rfl, rfl, rfl, fun _ => ⟨rfl, rfl⟩, fun _ => rfl, fun _ => rfl,
    fun _ => rfl, fun _ => rfl, fun _ _ => rfl, fun _ h => h⟩

theorem has_flag_or_other (flags own bit : Nat) (h : bit &&& own = 0) :
    has_flag (flags ||| own) bit = has_flag flags bit := by
  rw [has_flag_or]
  have : has_flag own bit = false := by
    unfold has_flag
    rw [Nat.and_comm, h]
    rfl
  rw [this, Bool.or_false]

theorem update_altitude_cases (r : NmeaReader) (a u : Token) :
    nmea_reader_update_altitude r a u = (r, -1) ∨
    nmea_reader_update_altitude r a u =
      ({ r with fix := { r.fix with flags := r.fix.flags ||| GPS_LOCATION_HAS_ALTITUDE,
                                    altitude := str2float a.bytes } }, 0) := by
  unfold nmea_reader_update_altitude
  split
  · exact Or.inl rfl
  · exact Or.inr rfl

theorem update_bearing_cases (r : NmeaReader) (a : Token) :
    nmea_reader_update_bearing r a = (r, -1) ∨
    nmea_reader_update_bearing r a =
      ({ r with fix := { r.fix with flags := r.fix.flags ||| GPS_LOCATION_HAS_BEARING,
                                    bearing := str2float a.bytes } }, 0) := by
  unfold nmea_reader_update_bearing
  split
  · exact Or.inl rfl
  · exact Or.inr rfl

theorem update_speed_cases (r : NmeaReader) (a : Token) :
    nmea_reader_update_speed r a = (r, -1) ∨
    nmea_reader_update_speed r a =
      ({ r with fix := { r.fix with flags := r.fix.flags ||| GPS_LOCATION_HAS_SPEED,
                                    speed := str2float a.bytes } }, 0) := by
  unfold nmea_reader_update_speed
  split
  · exact Or.inl rfl
  · exact Or.inr rfl

theorem update_accuracy_cases (r : NmeaReader) (a : Token) :
    nmea_reader_update_accuracy r a = (r, -1) ∨
    nmea_reader_update_accuracy r a =
      ({ r with fix := { r.fix with
            accuracy := if str2int a.bytes < 0 ∨ str2int a.bytes > 200 then 1
                        else (str2int a.bytes : ℚ),
            flags := r.fix.flags ||| GPS_LOCATION_HAS_ACCURACY } }, 0) := by
  unfold nmea_reader_update_accuracy
  split
  · exact Or.inl rfl
  · exact Or.inr rfl

theorem update_latlong_cases (r : NmeaReader) (la : Token) (lah : Char) (lo : Token)
    (loh : Char) :
    nmea_reader_update_latlong r la lah lo loh = (r, -1) ∨
    nmea_reader_update_latlong r la lah lo loh =
      ({ r with fix := { r.fix with
            flags := r.fix.flags ||| GPS_LOCATION_HAS_LAT_LONG,
            latitude := if lah = 'S' then - convert_from_hhmm la else convert_from_hhmm la,
            longitude := if loh = 'W' then - convert_from_hhmm lo
                         else convert_from_hhmm lo } }, 0) := by
  unfold nmea_reader_update_latlong
  split
  · exact Or.inl rfl
  · dsimp only
    split
    · exact Or.inl rfl
    · exact Or.inr rfl

theorem touches_altitude (r : NmeaReader) (a u : Token) :
    TouchesOnly GPS_LOCATION_HAS_ALTITUDE r (nmea_reader_update_altitude r a u).1 := by
  rcases update_altitude_cases r a u with h | h <;> rw [h]
  · exact touchesOnly_refl _ r
  · exact ⟨rfl, rfl, rfl, rfl, rfl, rfl, rfl, rfl, fun _ => ⟨rfl, rfl⟩,
      fun h => absurd rfl h, fun _ => rfl, fun _ => rfl, fun _ => rfl,
      fun bit hb => has_flag_or_other _ _ bit hb,
      fun bit hb => has_flag_or_left _ _ bit hb⟩

theorem touches_bearing (r : NmeaReader) (a : Token) :
    TouchesOnly GPS_LOCATION_HAS_BEARING r (nmea_reader_update_bearing r a).1 := by
  rcases update_bearing_cases r a with h | h <;> rw [h]
  · exact touchesOnly_refl _ r
  · exact ⟨rfl, rfl, rfl, rfl, rfl, rfl, rfl, rfl, fun _ => ⟨rfl, rfl⟩,
      fun _ => rfl, fun _ => rfl, fun h => absurd rfl h, fun _ => rfl,
      fun bit hb => has_flag_or_other _ _ bit hb,
      fun bit hb => has_flag_or_left _ _ bit hb⟩

theorem touches_speed (r : NmeaReader) (a : Token) :
    TouchesOnly GPS_LOCATION_HAS_SPEED r (nmea_reader_update_speed r a).1 := by
  rcases update_speed_cases r a with h | h <;> rw [h]
  · exact touchesOnly_refl _ r
  · exact ⟨rfl, rfl, rfl, rfl, rfl, rfl, rfl, rfl, fun _ => ⟨rfl, rfl⟩,
      fun _ => rfl, fun h => absurd rfl h, fun _ => rfl, fun _ => rfl,
      fun bit hb => has_flag_or_other _ _ bit hb,
      fun bit hb => has_flag_or_left _ _ bit hb⟩

theorem touches_accuracy (r : NmeaReader) (a : Token) :
    TouchesOnly GPS_LOCATION_HAS_ACCURACY r (nmea_reader_update_accuracy r a).1 := by
  rcases update_accuracy_cases r a with h | h <;> rw [h]
  · exact touchesOnly_refl _ r
  · exact ⟨rfl, rfl, rfl, rfl, rfl, rfl, rfl, rfl, fun _ => ⟨rfl, rfl⟩,
      fun _ => rfl, fun _ => rfl, fun _ => rfl, fun h => absurd rfl h,
      fun bit hb => has_flag_or_other _ _ bit hb,
      fun bit hb => has_flag_or_left _ _ bit hb⟩

theorem touches_latlong (r : NmeaReader) (la : Token) (lah : Char) (lo : Token)
    (loh : Char) :
    TouchesOnly GPS_LOCATION_HAS_LAT_LONG r
      (nmea_reader_update_latlong r la lah lo loh).1 := by
  rcases update_latlong_cases r la lah lo loh with h | h <;> rw [h]
  · exact touchesOnly_refl _ r
  · exact ⟨rfl, rfl, rfl, rfl, rfl, rfl, rfl, rfl, fun h => absurd rfl h,
      fun _ => rfl, fun _ => rfl, fun _ => rfl, fun _ => rfl,
      fun bit hb => has_flag_or_other _ _ bit hb,
      fun bit hb => has_flag_or_left _ _ bit hb⟩

/-- C22: each of `nmea_reader_update_altitude`, `_bearing`, `_speed`,
`_accuracy` and `_latlong`, on every reader and every field, touches only its
own part of the fix record (`TouchesOnly`): it changes no value field but its
own (latitude and longitude for `_latlong`) and no bit of the bitmask outside
its own presence bit, it clears no bit, and it leaves the timestamp, the date
cache and the rest of the reader unchanged; the five presence bits are pairwise
disjoint, so the own bit of one routine is outside the own bit of the others. -/
theorem nmea_reader_update_touches_only (r : NmeaReader) (a u b s acc la lo : Token)
    (lah loh : Char) :
    TouchesOnly GPS_LOCATION_HAS_ALTITUDE r (nmea_reader_update_altitude r a u).1 ∧
    TouchesOnly GPS_LOCATION_HAS_BEARING r (nmea_reader_update_bearing r b).1 ∧
    TouchesOnly GPS_LOCATION_HAS_SPEED r (nmea_reader_update_speed r s).1 ∧
    TouchesOnly GPS_LOCATION_HAS_ACCURACY r (nmea_reader_update_accuracy r acc).1 ∧
    TouchesOnly GPS_LOCATION_HAS_LAT_LONG r
      (nmea_reader_update_latlong r la lah lo loh).1 ∧
    List.Pairwise (fun x y => x &&& y = 0)
      [GPS_LOCATION_HAS_LAT_LONG, GPS_LOCATION_HAS_ALTITUDE, GPS_LOCATION_HAS_SPEED,
       GPS_LOCATION_HAS_BEARING, GPS_LOCATION_HAS_ACCURACY] :=
  ⟨touches_altitude r a u, touches_bearing r b, touches_speed r s, touches_accuracy r acc,
    touches_latlong r la lah lo loh, by decide⟩

/-! ## Fields of 16 or more characters -/

theorem str2float_long (s : List Char) (h : 16 ≤ s.length) : str2float s = 0 := by
  unfold str2float
  rw [if_pos h]

theorem convert_from_hhmm_long (tok : Token) (h : 16 ≤ tok.len) :
    convert_from_hhmm tok = 0 := by
  unfold convert_from_hhmm
  dsimp only
  rw [str2float_long _ (by rw [Token.bytes_length]; exact h)]
  have e : double_to_int (floor 0 / 100) = 0 := by decide!
  rw [e]
  norm_num

/-- C27 (as amended): `str2float` returns 0 for every byte range of 16 or more
characters.  So for every valid latitude field of 16 or more characters whose
longitude field is valid and has at least 6 characters, and for every valid
longitude field of 16 or more characters whose latitude field is valid and has
at least 6 characters, `nmea_reader_update_latlong` stores the coordinate 0 for
the long field and sets the latitude/longitude bit; when the other field has
fewer than 6 characters it stores nothing and returns -1.  Valid altitude,
bearing and speed fields of 16 or more characters are stored as 0 with their
bit set. -/
theorem str2float_long_fields (r : NmeaReader) (la lo t u : Token) (lah loh : Char) :
    (∀ s : List Char, 16 ≤ s.length → str2float s = 0) ∧
    (la.init = true → lo.init = true → 16 ≤ la.len → 6 ≤ lo.len →
      (nmea_reader_update_latlong r la lah lo loh).2 = 0 ∧
      (nmea_reader_update_latlong r la lah lo loh).1.fix.latitude = 0 ∧
      has_flag (nmea_reader_update_latlong r la lah lo loh).1.fix.flags
        GPS_LOCATION_HAS_LAT_LONG = true) ∧
    (la.init = true → lo.init = true → 6 ≤ la.len → 16 ≤ lo.len →
      (nmea_reader_update_latlong r la lah lo loh).2 = 0 ∧
      (nmea_reader_update_latlong r la lah lo loh).1.fix.longitude = 0 ∧
      has_flag (nmea_reader_update_latlong r la lah lo loh).1.fix.flags
        GPS_LOCATION_HAS_LAT_LONG = true) ∧
    (la.len < 6 ∨ lo.len < 6 → nmea_reader_update_latlong r la lah lo loh = (r, -1)) ∧
    (t.init = true → 16 ≤ t.len →
      nmea_reader_update_altitude r t u =
        ({ r with fix := { r.fix with flags := r.fix.flags ||| GPS_LOCATION_HAS_ALTITUDE,
                                      altitude := 0 } }, 0) ∧
      nmea_reader_update_bearing r t =
        ({ r with fix := { r.fix with flags := r.fix.flags ||| GPS_LOCATION_HAS_BEARING,
                                      bearing := 0 } }, 0) ∧
      nmea_reader_update_speed r t =
        ({ r with fix := { r.fix with flags := r.fix.flags ||| GPS_LOCATION_HAS_SPEED,
                                      speed := 0 } }, 0)) := by
  refine ⟨str2float_long, ?_, ?_, ?_, ?_⟩
  · intro h1 h3 h2 h4
    rw [update_latlong_valid r la lah lo loh h1 (by omega) h3 h4]
    refine ⟨rfl, ?_, has_flag_self_or _ _ (by decide)⟩
    show (if lah = 'S' then - convert_from_hhmm la else convert_from_hhmm la) = 0
    rw [convert_from_hhmm_long la h2]
    split <;> simp
  · intro h1 h3 h2 h4
    rw [update_latlong_valid r la lah lo loh h1 h2 h3 (by omega)]
    refine ⟨rfl, ?_, has_flag_self_or _ _ (by decide)⟩
    show (if loh = 'W' then - convert_from_hhmm lo else convert_from_hhmm lo) = 0
    rw [convert_from_hhmm_long lo h4]
    split <;> simp
  · intro h
    unfold nmea_reader_update_latlong
    by_cases g1 : (!la.init || decide (la.len < 6)) = true
    · rw [if_pos g1]
    · rw [if_neg g1]
      dsimp only
      have hla : ¬ la.len < 6 := by
        intro hh; exact g1 (by simp [hh])
      have hlo : lo.len < 6 := h.resolve_left hla
      rw [if_pos (by simp [hlo])]
  · intro h1 h2
    have h0 : str2float t.bytes = 0 :=
      str2float_long _ (by rw [Token.bytes_length]; exact h2)
    refine ⟨?_, ?_, ?_⟩
    · rw [update_altitude_valid r t u h1 (by omega), h0]
    · rw [update_bearing_valid r t h1 (by omega), h0]
    · rw [update_speed_valid r t h1 (by omega), h0]

set_option maxRecDepth 100000 in
/-- C27, witness: the 16-character latitude field `4807.03800000000` with the
longitude field `01131.000` on a fresh reader, and the same 16 characters as an
altitude field. -/
theorem str2float_long_fields_witness :
    (Token.ofBytes "4807.03800000000".toList).len = 16 ∧
    (nmea_reader_update_latlong sampleReader (Token.ofBytes "4807.03800000000".toList) 'N'
        (Token.ofBytes "01131.000".toList) 'E').1.fix.latitude = 0 ∧
    has_flag (nmea_reader_update_latlong sampleReader
        (Token.ofBytes "4807.03800000000".toList) 'N'
        (Token.ofBytes "01131.000".toList) 'E').1.fix.flags GPS_LOCATION_HAS_LAT_LONG
      = true ∧
    (nmea_reader_update_altitude sampleReader (Token.ofBytes "4807.03800000000".toList)
        (Token.ofBytes "M".toList)).1.fix.altitude = 0 :=
  ⟨by decide,
   ((str2float_long_fields sampleReader (Token.ofBytes "4807.03800000000".toList)
      (Token.ofBytes "01131.000".toList) (Token.ofBytes "4807.03800000000".toList)
      (Token.ofBytes "M".toList) 'N' 'E').2.1 rfl rfl (by decide) (by decide)).2.1,
   ((str2float_long_fields sampleReader (Token.ofBytes "4807.03800000000".toList)
      (Token.ofBytes "01131.000".toList) (Token.ofBytes "4807.03800000000".toList)
      (Token.ofBytes "M".toList) 'N' 'E').2.1 rfl rfl (by decide) (by decide)).2.2,
   congrArg (fun x => x.1.fix.altitude)
    ((str2float_long_fields sampleReader (Token.ofBytes "4807.03800000000".toList)
      (Token.ofBytes "01131.000".toList) (Token.ofBytes "4807.03800000000".toList)
      (Token.ofBytes "M".toList) 'N' 'E').2.2.2.2 rfl (by decide)).1⟩

set_option maxRecDepth 100000 in
/-- C27, counterexample: the 16-character latitude field `4807.03800000000`
with the 5-character longitude field `1131.` on a fresh reader: the call
returns -1, no coordinate is stored and the latitude/longitude bit stays
clear. -/
theorem str2float_long_fields_short_other :
    (Token.ofBytes "4807.03800000000".toList).len = 16 ∧
    (nmea_reader_update_latlong sampleReader (Token.ofBytes "4807.03800000000".toList) 'N'
        (Token.ofBytes "1131.".toList) 'E').2 = -1 ∧
    has_flag (nmea_reader_update_latlong sampleReader
        (Token.ofBytes "4807.03800000000".toList) 'N'
        (Token.ofBytes "1131.".toList) 'E').1.fix.flags GPS_LOCATION_HAS_LAT_LONG
      = false := by
  decide!

/-! ## Date cache -/

theorem update_time_joint (env : Env) (r : NmeaReader) (tok : Token)
    (h : DateCacheJoint r) : DateCacheJoint (nmea_reader_update_time env r tok).1 := by
  unfold nmea_reader_update_time
  split
  · exact h
  · dsimp only
    by_cases hy : r.utc_year < 0
    · rw [if_pos hy]
      exact Or.inr ⟨Int.ofNat_nonneg _, Int.ofNat_nonneg _, Int.ofNat_nonneg _⟩
    · rw [if_neg hy]
      exact h

theorem update_date_joint (env : Env) (r : NmeaReader) (date time : Token)
    (h : DateCacheJoint r) : DateCacheJoint (nmea_reader_update_date env r date time).1 := by
  unfold nmea_reader_update_date
  split
  · exact h
  · dsimp only
    split
    · exact h
    · rename_i hneg
      apply update_time_joint
      refine Or.inr ⟨?_, ?_, ?_⟩ <;> (dsimp only; omega)

theorem touches_joint (own : Nat) (r r1 : NmeaReader) (t : TouchesOnly own r r1)
    (h : DateCacheJoint r) : DateCacheJoint r1 := by
  obtain ⟨_, _, _, hy, hm, hd, _⟩ := t
  unfold DateCacheJoint
  rw [hy, hm, hd]
  exact h

theorem parse_always_joint (env : Env) (r : NmeaReader) (T : t_all_tokens) (la lo : Char)
    (h : DateCacheJoint r) : DateCacheJoint (nmea_reader_parse_always env r T la lo) := by
  unfold nmea_reader_parse_always
  dsimp only
  exact touches_joint _ _ _ (touches_accuracy _ _)
    (touches_joint _ _ _ (touches_altitude _ _ _)
      (touches_joint _ _ _ (touches_latlong _ _ _ _ _) (update_time_joint env r _ h)))

theorem parse_gated_joint (env : Env) (r : NmeaReader) (T : t_all_tokens)
    (h : DateCacheJoint r) : DateCacheJoint (nmea_reader_parse_gated env r T) := by
  unfold nmea_reader_parse_gated
  dsimp only
  exact touches_joint _ _ _ (touches_speed _ _)
    (touches_joint _ _ _ (touches_bearing _ _) (update_date_joint env r _ _ h))

theorem parse_updates_cases (env : Env) (r r1 : NmeaReader) (T : t_all_tokens)
    (h : nmea_reader_parse_updates env r T = some r1) :
    ∃ la lo, T.latitudeHemi.first = some la ∧ T.longitudeHemi.first = some lo ∧
      ((r1 = nmea_reader_parse_gated env (nmea_reader_parse_always env r T la lo) T ∧
          T.fixStatus.init = true ∧ T.fixStatus.first = some 'A') ∨
       (r1 = nmea_reader_parse_always env r T la lo ∧
          ¬ (T.fixStatus.init = true ∧ T.fixStatus.first = some 'A'))) := by
  unfold nmea_reader_parse_updates at h
  split at h
  · rename_i la lo hla hlo
    refine ⟨la, lo, hla, hlo, ?_⟩
    dsimp only at h
    by_cases hi : T.fixStatus.init = true
    · rw [if_pos hi] at h
      cases hf : T.fixStatus.first with
      | none => rw [hf] at h; simp at h
      | some c =>
        rw [hf] at h
        dsimp only at h
        by_cases hc : c = 'A'
        · rw [if_pos hc] at h
          simp only [Option.some.injEq] at h
          exact Or.inl ⟨h.symm, hi, by rw [hc]⟩
        · rw [if_neg hc] at h
          simp only [Option.some.injEq] at h
          refine Or.inr ⟨h.symm, ?_⟩
          rintro ⟨_, h2⟩
          simp only [Option.some.injEq] at h2
          exact hc h2
    · rw [if_neg hi] at h
      simp only [Option.some.injEq] at h
      exact Or.inr ⟨h.symm, fun hh => hi hh.1⟩
  · simp at h

theorem deliver_date (r : NmeaReader) :
    (nmea_reader_parse_deliver r).1.utc_year = r.utc_year ∧
    (nmea_reader_parse_deliver r).1.utc_mon = r.utc_mon ∧
    (nmea_reader_parse_deliver r).1.utc_day = r.utc_day := by
  unfold nmea_reader_parse_deliver
  split
  · split
    · exact ⟨rfl, rfl, rfl⟩
    · exact ⟨rfl, rfl, rfl⟩
  · exact ⟨rfl, rfl, rfl⟩

theorem parse_joint (env : Env) (r r2 : NmeaReader) (tokens tokens2 : t_all_tokens)
    (calls : List FixCall) (h : DateCacheJoint r)
    (hp : nmea_reader_parse env r tokens = some (r2, tokens2, calls)) :
    DateCacheJoint r2 := by
  rcases parse_cases env r r2 tokens tokens2 calls hp with ⟨_, h2, _, _⟩ | ⟨r1, hr1, h2, _⟩
  · rw [h2]; exact h
  · obtain ⟨la, lo, _, _, hc⟩ := parse_updates_cases env r r1 tokens2 hr1
    have h1 : DateCacheJoint r1 := by
      rcases hc with ⟨e, _⟩ | ⟨e, _⟩
      · rw [e]; exact parse_gated_joint env _ _ (parse_always_joint env r _ la lo h)
      · rw [e]; exact parse_always_joint env r _ la lo h
    obtain ⟨e1, e2, e3⟩ := deliver_date r1
    unfold DateCacheJoint
    rw [h2, e1, e2, e3]
    exact h1

/-- C21: in every reader state reachable from `nmea_reader_init` through
`nmea_reader_update_time`, `nmea_reader_update_date` and `nmea_reader_parse`
(on any fields, any sentence and field set, under any clock), the cached year,
month and day are all negative or all not negative. -/
theorem date_cache_joint (r : NmeaReader) (h : DateReachable r) : DateCacheJoint r := by
  induction h with
  | init tm_utc tm_local =>
    exact Or.inl ⟨show (-1 : Int) < 0 by decide, show (-1 : Int) < 0 by decide,
      show (-1 : Int) < 0 by decide⟩
  | update_time r env tok _ ih => exact update_time_joint env r tok ih
  | update_date r env date time _ ih => exact update_date_joint env r date time ih
  | parse r env line tokens r1 tokens1 calls _ hp ih =>
    exact parse_joint env (r.withLine line) r1 tokens tokens1 calls ih hp

/-- C21, witness: the state after `nmea_reader_update_date` of the date field
`230394` with the time field `123519` on a fresh reader is reachable; its cache
is (2094, 3, 23), all set. -/
theorem date_cache_joint_witness :
    DateReachable (nmea_reader_update_date sampleEnv sampleReader
      (Token.ofBytes "230394".toList) (Token.ofBytes "123519".toList)).1 ∧
    DateCacheJoint (nmea_reader_update_date sampleEnv sampleReader
      (Token.ofBytes "230394".toList) (Token.ofBytes "123519".toList)).1 ∧
    ((nmea_reader_update_date sampleEnv sampleReader
        (Token.ofBytes "230394".toList) (Token.ofBytes "123519".toList)).1.utc_year,
     (nmea_reader_update_date sampleEnv sampleReader
        (Token.ofBytes "230394".toList) (Token.ofBytes "123519".toList)).1.utc_mon,
     (nmea_reader_update_date sampleEnv sampleReader
        (Token.ofBytes "230394".toList) (Token.ofBytes "123519".toList)).1.utc_day)
      = (2094, 3, 23) :=
  ⟨DateReachable.update_date _ _ _ _ (DateReachable.init sampleTm sampleTm),
   date_cache_joint _ (DateReachable.update_date _ _ _ _ (DateReachable.init sampleTm sampleTm)),
   by decide!⟩

/-! ## Session gating -/

theorem deliver_keeps_callback (r : NmeaReader) :
    (nmea_reader_parse_deliver r).1.callback = r.callback := by
  unfold nmea_reader_parse_deliver
  split
  · split
    · rfl
    · rfl
  · rfl

theorem parse_callback (env : Env) (r r2 : NmeaReader) (tokens tokens2 : t_all_tokens)
    (calls : List FixCall)
    (hp : nmea_reader_parse env r tokens = some (r2, tokens2, calls)) :
    r2.callback = r.callback ∧ (r.callback = none → calls = []) := by
  rcases parse_cases env r r2 tokens tokens2 calls hp with ⟨_, h2, _, h4⟩ | ⟨r1, hr1, h2, h4⟩
  · rw [h2, h4]; exact ⟨rfl, fun _ => rfl⟩
  · have g := parse_updates_grows env r r1 tokens2 hr1
    rw [h2, h4, deliver_keeps_callback]
    refine ⟨g.1, fun hn => ?_⟩
    rw [deliver_no_callback r1 (g.1.trans hn)]

theorem addc_callback (env : Env) (r r1 : NmeaReader) (tokens tokens1 : t_all_tokens)
    (c : Char) (calls : List FixCall)
    (hp : nmea_reader_addc env r tokens c = some (r1, tokens1, calls)) :
    r1.callback = r.callback ∧ (r.callback = none → calls = []) := by
  unfold nmea_reader_addc at hp
  split at hp
  · simp only [Option.some.injEq, Prod.mk.injEq] at hp
    rw [← hp.1, ← hp.2.2]; exact ⟨rfl, fun _ => rfl⟩
  · split at hp
    · simp only [Option.some.injEq, Prod.mk.injEq] at hp
      rw [← hp.1, ← hp.2.2]; exact ⟨rfl, fun _ => rfl⟩
    · dsimp only at hp
      split at hp
      · split at hp
        · rename_i r2 tokens2 calls2 hparse
          simp only [Option.some.injEq, Prod.mk.injEq] at hp
          have g := parse_callback env _ r2 tokens tokens2 calls2 hparse
          rw [← hp.1, ← hp.2.2]
          exact ⟨g.1, g.2⟩
        · simp at hp
      · simp only [Option.some.injEq, Prod.mk.injEq] at hp
        rw [← hp.1, ← hp.2.2]; exact ⟨rfl, fun _ => rfl⟩

theorem data_callback (env : Env) (bytes : List Char) (r r1 : NmeaReader)
    (tokens tokens1 : t_all_tokens) (calls : List FixCall)
    (hp : gps_state_thread_data env bytes r tokens = some (r1, tokens1, calls)) :
    r1.callback = r.callback ∧ (r.callback = none → calls = []) := by
  induction bytes generalizing r r1 tokens tokens1 calls with
  | nil =>
    simp only [gps_state_thread_data, Option.some.injEq, Prod.mk.injEq] at hp
    rw [← hp.1, ← hp.2.2]; exact ⟨rfl, fun _ => rfl⟩
  | cons c cs ih =>
    simp only [gps_state_thread_data] at hp
    cases ha : nmea_reader_addc env r tokens c with
    | none => rw [ha] at hp; simp at hp
    | some x =>
      obtain ⟨ra, ta, ca⟩ := x
      rw [ha] at hp
      dsimp only at hp
      cases hd : gps_state_thread_data env cs ra ta with
      | none => rw [hd] at hp; simp at hp
      | some y =>
        obtain ⟨rb, tb, cb⟩ := y
        rw [hd] at hp
        simp only [Option.some.injEq, Prod.mk.injEq] at hp
        have g1 := addc_callback env r ra tokens ta c ca ha
        have g2 := ih ra rb ta tb cb hd
        rw [← hp.1, ← hp.2.2]
        refine ⟨g2.1.trans g1.1, fun hn => ?_⟩
        rw [g1.2 hn, g2.2 (g1.1.trans hn)]
        rfl

theorem fixDeliveries_append (a b : List Call) :
    fixDeliveries (a ++ b) = fixDeliveries a ++ fixDeliveries b := by
  simp [fixDeliveries, List.filterMap_append]

theorem fixDeliveries_status (state : GpsState) (val : GpsStatusValue) :
    fixDeliveries (gps_update_status state val) = [] := by
  unfold gps_update_status
  cases state.callbacks.status_cb <;> rfl

theorem fixDeliveries_location (calls : List FixCall) :
    fixDeliveries (calls.map (fun c => Call.location c.1 c.2)) = calls.map (fun c => c.2) := by
  induction calls with
  | nil => rfl
  | cons c cs ih =>
    simp only [List.map_cons, fixDeliveries, List.filterMap_cons] at ih ⊢
    rw [ih]

theorem control_gated (state : GpsState) (s : ThreadState) (cmd : Nat)
    (hinv : s.started = false → s.reader.callback = none) :
    ((gps_state_thread_control state s cmd).1.started = false →
      (gps_state_thread_control state s cmd).1.reader.callback = none) ∧
    (fixDeliveries (gps_state_thread_control state s cmd).2 ≠ [] →
      cmd = CMD_START ∧ s.started = false ∧
      (gps_state_thread_control state s cmd).1.started = true) := by
  unfold gps_state_thread_control
  by_cases h0 : cmd = CMD_QUIT
  · rw [if_pos h0]
    exact ⟨hinv, fun h => absurd (fixDeliveries_status state _) h⟩
  · rw [if_neg h0]
    by_cases h1 : cmd = CMD_START
    · rw [if_pos h1]
      by_cases hs : s.started = true
      · rw [if_neg (by simp [hs])]
        exact ⟨hinv, fun h => absurd rfl h⟩
      · rw [if_pos (by simpa using hs)]
        dsimp only
        exact ⟨fun h => absurd h (by decide), fun _ => ⟨h1, by simpa using hs, rfl⟩⟩
    · rw [if_neg h1]
      by_cases h2 : cmd = CMD_STOP
      · rw [if_pos h2]
        by_cases hs : s.started = true
        · rw [if_pos hs]
          dsimp only
          refine ⟨fun _ => rfl, fun h => ?_⟩
          exfalso
          apply h
          rw [fixDeliveries_append, fixDeliveries_status]
          rfl
        · rw [if_neg hs]
          exact ⟨hinv, fun h => absurd rfl h⟩
      · rw [if_neg h2]
        exact ⟨hinv, fun h => absurd rfl h⟩

theorem event_gated (state : GpsState) (s s1 : ThreadState) (e : Event) (calls : List Call)
    (hinv : s.started = false → s.reader.callback = none)
    (he : gps_state_thread_event state s e = (Outcome.running s1, calls)) :
    s1.started = false → s1.reader.callback = none := by
  cases e with
  | hangup => simp [gps_state_thread_event] at he
  | control cmd =>
    simp only [gps_state_thread_event, Prod.mk.injEq, Outcome.running.injEq] at he
    rw [← he.1]
    exact (control_gated state s cmd hinv).1
  | data env bytes =>
    simp only [gps_state_thread_event] at he
    cases hd : gps_state_thread_data env bytes s.reader s.tokens with
    | none => rw [hd] at he; simp at he
    | some x =>
      obtain ⟨r, tokens, cs⟩ := x
      rw [hd] at he
      simp only [Prod.mk.injEq, Outcome.running.injEq] at he
      rw [← he.1]
      intro hst
      exact (data_callback env bytes s.reader r s.tokens tokens cs hd).1.trans (hinv hst)

theorem loop_gated (state : GpsState) (events : List Event) (s0 s : ThreadState)
    (hinv : s0.started = false → s0.reader.callback = none)
    (h : (gps_state_thread_loop state events s0).1 = Outcome.running s) :
    s.started = false → s.reader.callback = none := by
  induction events generalizing s0 with
  | nil =>
    simp only [gps_state_thread_loop, Outcome.running.injEq] at h
    rw [← h]; exact hinv
  | cons e es ih =>
    simp only [gps_state_thread_loop] at h
    cases he : gps_state_thread_event state s0 e with
    | mk o calls =>
      rw [he] at h
      cases o with
      | running s1 =>
        dsimp only at h
        exact ih s1 (event_gated state s0 s1 e calls hinv he) h
      | returned => simp at h
      | crashed => simp at h

/-- C26: in every state that the loop of `gps_state_thread` reaches from its
initial state by any sequence of control and data events, a stopped session has
no callback registered on its reader; a data event makes a fix delivery only
while the session is started; and a control event makes a fix delivery only
when it is `CMD_START` on a stopped session, which is started when the callback
is registered and receives the buffered fix. -/
theorem gps_state_thread_gated (state : GpsState) (tm_utc tm_local : Tm)
    (tokens : t_all_tokens) (events : List Event) (s : ThreadState)
    (h : (gps_state_thread state tm_utc tm_local tokens events).1 = Outcome.running s) :
    (s.started = false → s.reader.callback = none) ∧
    (∀ env bytes,
      fixDeliveries (gps_state_thread_event state s (Event.data env bytes)).2 ≠ [] →
      s.started = true) ∧
    (∀ cmd,
      fixDeliveries (gps_state_thread_event state s (Event.control cmd)).2 ≠ [] →
      cmd = CMD_START ∧ s.started = false ∧
      (gps_state_thread_control state s cmd).1.started = true) := by
  have hinv : s.started = false → s.reader.callback = none :=
    loop_gated state events _ s (fun _ => rfl) h
  refine ⟨hinv, ?_, ?_⟩
  · intro env bytes hne
    by_contra hst
    have hst' : s.started = false := by simpa using hst
    apply hne
    simp only [gps_state_thread_event]
    cases hd : gps_state_thread_data env bytes s.reader s.tokens with
    | none => rfl
    | some x =>
      obtain ⟨r, tokens, cs⟩ := x
      dsimp only
      rw [(data_callback env bytes s.reader r s.tokens tokens cs hd).2 (hinv hst')]
      rfl
  · intro cmd hne
    exact (control_gated state s cmd hinv).2 hne

/-- C26, witness: after `CMD_START` and `CMD_STOP` the session is stopped and
its reader has no callback; the bytes of an RMC sentence then make no
delivery. -/
theorem gps_state_thread_gated_witness :
    (gps_state_thread sampleState sampleTm sampleTm t_all_tokens.zero
        [Event.control CMD_START, Event.control CMD_STOP]).1
      = Outcome.running
          { reader := sampleReader, started := false, tokens := t_all_tokens.zero } ∧
    ({ reader := sampleReader, started := false, tokens := t_all_tokens.zero } :
        ThreadState).reader.callback = none ∧
    fixDeliveries (gps_state_thread_event sampleState
      { reader := sampleReader, started := false, tokens := t_all_tokens.zero }
      (Event.data sampleEnv sampleRMC)).2 = [] :=
  ⟨rfl,
   (gps_state_thread_gated sampleState sampleTm sampleTm t_all_tokens.zero
      [Event.control CMD_START, Event.control CMD_STOP]
      { reader := sampleReader, started := false, tokens := t_all_tokens.zero } rfl).1 rfl,
   by
    by_contra hne
    exact absurd ((gps_state_thread_gated sampleState sampleTm sampleTm t_all_tokens.zero
      [Event.control CMD_START, Event.control CMD_STOP]
      { reader := sampleReader, started := false, tokens := t_all_tokens.zero } rfl).2.1
      sampleEnv sampleRMC hne) (by decide)⟩

/-! ## Fields left by earlier sentences -/

theorem update_date_frame (env : Env) (r : NmeaReader) (date time : Token) :
    (nmea_reader_update_date env r date time).1.fix.flags = r.fix.flags ∧
    (nmea_reader_update_date env r date time).1.fix.latitude = r.fix.latitude ∧
    (nmea_reader_update_date env r date time).1.fix.longitude = r.fix.longitude ∧
    (nmea_reader_update_date env r date time).1.fix.altitude = r.fix.altitude ∧
    (nmea_reader_update_date env r date time).1.fix.speed = r.fix.speed ∧
    (nmea_reader_update_date env r date time).1.fix.bearing = r.fix.bearing ∧
    (nmea_reader_update_date env r date time).1.fix.accuracy = r.fix.accuracy := by
  unfold nmea_reader_update_date
  split
  · exact ⟨rfl, rfl, rfl, rfl, rfl, rfl, rfl⟩
  · dsimp only
    split
    · exact ⟨rfl, rfl, rfl, rfl, rfl, rfl, rfl⟩
    · obtain ⟨h1, h2, h3, h4, h5, h6, h7, _⟩ := update_time_frame env
        { r with utc_year := str2int ((date.bytes.drop 4).take 2) + 2000,
                 utc_mon := str2int ((date.bytes.drop 2).take 2),
                 utc_day := str2int (date.bytes.take 2) } time
      exact ⟨h1, h2, h3, h4, h5, h6, h7⟩

theorem parse_eq (env : Env) (r : NmeaReader) (tokens : t_all_tokens) (id : List Char)
    (hpos : ¬ r.pos < 9)
    (hlen : ¬ (nmea_tokenizer_get (nmea_tokenizer_init r.in_) 0).len < 5)
    (hid : [(nmea_tokenizer_get (nmea_tokenizer_init r.in_) 0).byte 2,
      (nmea_tokenizer_get (nmea_tokenizer_init r.in_) 0).byte 3,
      (nmea_tokenizer_get (nmea_tokenizer_init r.in_) 0).byte 4] = id)
    (r1 : NmeaReader)
    (hu : nmea_reader_parse_updates env r
      (nmea_reader_parse_fields (nmea_tokenizer_init r.in_) id tokens) = some r1) :
    nmea_reader_parse env r tokens =
      some ((nmea_reader_parse_deliver r1).1,
        nmea_reader_parse_fields (nmea_tokenizer_init r.in_) id tokens,
        (nmea_reader_parse_deliver r1).2) := by
  unfold nmea_reader_parse
  rw [if_neg hpos]
  dsimp only
  rw [if_neg hlen, hid, hu]

theorem sentence_id (line : List Char) (a b c d e : Char) (f0rest : List Char)
    (fields : List (List Char))
    (hfields : (nmea_tokenizer_init line).tokens.map Token.bytes =
      (a :: b :: c :: d :: e :: f0rest) :: fields) :
    ¬ (nmea_tokenizer_get (nmea_tokenizer_init line) 0).len < 5 ∧
    [(nmea_tokenizer_get (nmea_tokenizer_init line) 0).byte 2,
      (nmea_tokenizer_get (nmea_tokenizer_init line) 0).byte 3,
      (nmea_tokenizer_get (nmea_tokenizer_init line) 0).byte 4] = [c, d, e] := by
  obtain ⟨_, s0, b0⟩ := get_of_field_at line 0 0 rfl _ (by rw [hfields]; rfl)
  have hl0 := Token.len_of_span _ _ s0
  constructor
  · rw [hl0]; simp
  · rw [Token.byte_of_bytes _ 2 (by rw [hl0]; simp), Token.byte_of_bytes _ 3 (by rw [hl0]; simp),
      Token.byte_of_bytes _ 4 (by rw [hl0]; simp), b0]
    rfl

theorem get_out_of_range (line : List Char) (n : Nat) (j : Int) (hj : j = (n : Int))
    (h : ((nmea_tokenizer_init line).tokens.map Token.bytes).length ≤ n) :
    nmea_tokenizer_get (nmea_tokenizer_init line) j
      = { buff := [], init := true, span := some 0 } := by
  have hc := (tokenizer_inv line).1
  rw [List.length_map] at h
  unfold nmea_tokenizer_get
  rw [if_pos (Or.inr (by rw [hj, hc]; exact_mod_cast h))]

theorem has_flag_ne_zero (flags bit : Nat) (h : has_flag flags bit = true) : flags ≠ 0 := by
  intro h0
  rw [h0, has_flag_zero] at h
  exact absurd h (by decide)

theorem parse_gated_touch (env : Env) (r : NmeaReader) (T : t_all_tokens) :
    (nmea_reader_parse_gated env r T).fix.altitude = r.fix.altitude ∧
    (nmea_reader_parse_gated env r T).fix.accuracy = r.fix.accuracy ∧
    (∀ bit, has_flag r.fix.flags bit = true →
      has_flag (nmea_reader_parse_gated env r T).fix.flags bit = true) := by
  unfold nmea_reader_parse_gated
  dsimp only
  have d := update_date_frame env r T.date T.time
  have b := touches_bearing (nmea_reader_update_date env r T.date T.time).1 T.bearing
  have s := touches_speed (nmea_reader_update_bearing
    (nmea_reader_update_date env r T.date T.time).1 T.bearing).1 T.speed
  obtain ⟨_, _, _, _, _, _, _, _, _, ba, _, _, bc, _, bg⟩ := b
  obtain ⟨_, _, _, _, _, _, _, _, _, sa, _, _, sc, _, sg⟩ := s
  refine ⟨?_, ?_, ?_⟩
  · rw [sa (by decide), ba (by decide), d.2.2.2.1]
  · rw [sc (by decide), bc (by decide), d.2.2.2.2.2.2]
  · intro bit hb
    apply sg
    apply bg
    rw [d.1]
    exact hb

theorem parse_always_accuracy (env : Env) (r : NmeaReader) (T : t_all_tokens) (la lo : Char)
    (h : T.accuracy.init = true) :
    (nmea_reader_parse_always env r T la lo).fix.accuracy
      = (if str2int T.accuracy.bytes < 0 ∨ str2int T.accuracy.bytes > 200 then 1
         else (str2int T.accuracy.bytes : ℚ)) ∧
    has_flag (nmea_reader_parse_always env r T la lo).fix.flags GPS_LOCATION_HAS_ACCURACY
      = true := by
  unfold nmea_reader_parse_always
  dsimp only
  rcases update_accuracy_cases (nmea_reader_update_altitude
      (nmea_reader_update_latlong (nmea_reader_update_time env r T.time).1 T.latitude la
        T.longitude lo).1 T.altitude T.altitudeUnits).1 T.accuracy with e | e
  · exfalso
    unfold nmea_reader_update_accuracy at e
    rw [if_neg (by simp [h])] at e
    have := congrArg Prod.snd e
    simp at this
  · rw [e]
    exact ⟨rfl, has_flag_self_or _ _ (by decide)⟩

theorem parse_always_altitude (env : Env) (r : NmeaReader) (T : t_all_tokens) (la lo : Char)
    (h : T.altitude.init = true) (hl : 0 < T.altitude.len) :
    (nmea_reader_parse_always env r T la lo).fix.altitude = str2float T.altitude.bytes ∧
    has_flag (nmea_reader_parse_always env r T la lo).fix.flags GPS_LOCATION_HAS_ALTITUDE
      = true := by
  unfold nmea_reader_parse_always
  dsimp only
  obtain ⟨_, _, _, _, _, _, _, _, _, aa, _, _, _, _, ag⟩ := touches_accuracy
    (nmea_reader_update_altitude
      (nmea_reader_update_latlong (nmea_reader_update_time env r T.time).1 T.latitude la
        T.longitude lo).1 T.altitude T.altitudeUnits).1 T.accuracy
  rw [aa (by decide)]
  refine ⟨?_, ag _ ?_⟩
  · rw [update_altitude_valid _ _ _ h hl]
  · rw [update_altitude_valid _ _ _ h hl]
    exact has_flag_self_or _ _ (by decide)

theorem parse_updates_accuracy (env : Env) (r r1 : NmeaReader) (T : t_all_tokens)
    (hu : nmea_reader_parse_updates env r T = some r1) (h : T.accuracy.init = true) :
    r1.fix.accuracy
      = (if str2int T.accuracy.bytes < 0 ∨ str2int T.accuracy.bytes > 200 then 1
         else (str2int T.accuracy.bytes : ℚ)) ∧
    has_flag r1.fix.flags GPS_LOCATION_HAS_ACCURACY = true := by
  obtain ⟨la, lo, _, _, hc⟩ := parse_updates_cases env r r1 T hu
  have g := parse_always_accuracy env r T la lo h
  rcases hc with ⟨e, _⟩ | ⟨e, _⟩
  · obtain ⟨_, t2, t3⟩ := parse_gated_touch env (nmea_reader_parse_always env r T la lo) T
    rw [e, t2]
    exact ⟨g.1, t3 _ g.2⟩
  · rw [e]; exact g

theorem parse_updates_altitude (env : Env) (r r1 : NmeaReader) (T : t_all_tokens)
    (hu : nmea_reader_parse_updates env r T = some r1) (h : T.altitude.init = true)
    (hl : 0 < T.altitude.len) :
    r1.fix.altitude = str2float T.altitude.bytes ∧
    has_flag r1.fix.flags GPS_LOCATION_HAS_ALTITUDE = true := by
  obtain ⟨la, lo, _, _, hc⟩ := parse_updates_cases env r r1 T hu
  have g := parse_always_altitude env r T la lo h hl
  rcases hc with ⟨e, _⟩ | ⟨e, _⟩
  · obtain ⟨t1, _, t3⟩ := parse_gated_touch env (nmea_reader_parse_always env r T la lo) T
    rw [e, t1]
    exact ⟨g.1, t3 _ g.2⟩
  · rw [e]; exact g

theorem deliver_flagged (r1 : NmeaReader) (bit : Nat)
    (h : has_flag r1.fix.flags bit = true) :
    (r1.callback = none → nmea_reader_parse_deliver r1 = (r1, [])) ∧
    (∀ cb, r1.callback = some cb →
      nmea_reader_parse_deliver r1
        = ({ r1 with fix := { r1.fix with flags := 0 } }, [(cb, r1.fix)])) :=
  ⟨deliver_no_callback r1,
   fun cb hcb => deliver_callback r1 cb hcb (has_flag_ne_zero _ _ h)⟩

/-- C23, the code at the failing inputs: for every GGA sentence of at least 9
bytes that has fewer than 9 non-empty fields, so none at the accuracy position
8, on every reader and field set, the dispatch is not a no-op for the accuracy:
`nmea_tokenizer_get` writes an empty token with `init` set to the accuracy
slot, `nmea_reader_update_accuracy` takes it, and the reader `r1` that
`nmea_reader_parse` hands to its delivery step has the accuracy 0 and the
accuracy bit set; so a fix with the accuracy bit is delivered when a callback
is registered, and kept in the reader otherwise. -/
theorem nmea_reader_parse_gga_no_accuracy (env : Env) (r : NmeaReader)
    (tokens : t_all_tokens) (a b : Char) (f0rest : List Char) (fields : List (List Char))
    (hfields : (nmea_tokenizer_init r.in_).tokens.map Token.bytes =
      (a :: b :: 'G' :: 'G' :: 'A' :: f0rest) :: fields)
    (hfew : fields.length < 8) (hpos : 9 ≤ r.pos) :
    ∃ r1,
      nmea_reader_parse env r tokens =
        some ((nmea_reader_parse_deliver r1).1,
          nmea_reader_parse_fields (nmea_tokenizer_init r.in_) ['G', 'G', 'A'] tokens,
          (nmea_reader_parse_deliver r1).2) ∧
      (nmea_reader_parse_fields (nmea_tokenizer_init r.in_) ['G', 'G', 'A'] tokens).accuracy
        = { buff := [], init := true, span := some 0 } ∧
      r1.fix.accuracy = 0 ∧
      has_flag r1.fix.flags GPS_LOCATION_HAS_ACCURACY = true ∧
      (r.callback = none → nmea_reader_parse_deliver r1 = (r1, [])) ∧
      (∀ cb, r.callback = some cb → (nmea_reader_parse_deliver r1).2 = [(cb, r1.fix)]) := by
  obtain ⟨hlen0, hid⟩ := sentence_id r.in_ a b 'G' 'G' 'A' f0rest fields hfields
  have hacc : (nmea_reader_parse_fields (nmea_tokenizer_init r.in_) ['G', 'G', 'A']
      tokens).accuracy = { buff := [], init := true, span := some 0 } := by
    rw [parse_fields_gga]
    exact get_out_of_range r.in_ 8 8 rfl (by rw [hfields, List.length_cons]; omega)
  have hnn : (nmea_reader_parse_fields (nmea_tokenizer_init r.in_) ['G', 'G', 'A']
      tokens).nonNull := by
    rw [parse_fields_gga]
    exact ⟨get_span _ _, get_span _ _, get_span _ _⟩
  obtain ⟨r1, hu⟩ := parse_updates_returns env r _ hnn
  have hg := parse_updates_grows env r r1 _ hu
  obtain ⟨ha, hb⟩ := parse_updates_accuracy env r r1 _ hu (by rw [hacc])
  obtain ⟨d1, d2⟩ := deliver_flagged r1 _ hb
  refine ⟨r1, parse_eq env r tokens _ (by omega) hlen0 hid r1 hu, hacc, ?_, hb, ?_, ?_⟩
  · rw [ha, hacc]
    decide!
  · intro hn
    exact d1 (hg.1.trans hn)
  · intro cb hcb
    rw [d2 cb (hg.1.trans hcb)]

set_option maxRecDepth 100000 in
/-- C23, witness: a GGA sentence of 8 fields on a fresh reader with a callback:
a fix with the bitmask 16 and the accuracy 0 is delivered. -/
theorem nmea_reader_parse_gga_no_accuracy_witness :
    ∃ r1,
      nmea_reader_parse sampleEnv
          (({ sampleReader with callback := some 1 } : NmeaReader).withLine sampleGGA8)
          t_all_tokens.zero =
        some ((nmea_reader_parse_deliver r1).1,
          nmea_reader_parse_fields (nmea_tokenizer_init sampleGGA8) ['G', 'G', 'A']
            t_all_tokens.zero,
          (nmea_reader_parse_deliver r1).2) ∧
      r1.fix.accuracy = 0 ∧
      has_flag r1.fix.flags GPS_LOCATION_HAS_ACCURACY = true ∧
      (nmea_reader_parse_deliver r1).2 = [(1, r1.fix)] := by
  obtain ⟨r1, h1, _, h3, h4, _, h6⟩ := nmea_reader_parse_gga_no_accuracy sampleEnv
    (({ sampleReader with callback := some 1 } : NmeaReader).withLine sampleGGA8)
    t_all_tokens.zero 'G' 'P' []
    ["123519".toList, "4807.038".toList, "N".toList, "01131.000".toList, "E".toList,
      "1".toList, "08".toList]
    (by decide) (by decide) (by decide)
  exact ⟨r1, h1, h3, h4, h6 1 rfl⟩

set_option maxRecDepth 100000 in
/-- A GGA sentence without a field at the accuracy position, through the byte
loop: the sentence `$GPGGA,123519,4807.038,N,01131.000,E,1,08` has 8 non-empty
fields; fed to a fresh reader with a callback, whose accuracy
bit is clear, it delivers a fix whose bitmask is 16, the accuracy bit alone,
with the accuracy 0: the accuracy bit has changed, and a fix is delivered
though no other field has set a bit. -/
theorem nmea_reader_parse_gga_no_accuracy_delivers :
    (nmea_tokenizer_init sampleGGA8).count = 8 ∧
    has_flag sampleReader.fix.flags GPS_LOCATION_HAS_ACCURACY = false ∧
    (gps_state_thread_data sampleEnv sampleGGA8
        { sampleReader with callback := some 1 } t_all_tokens.zero).map
      (fun x => x.2.2.map (fun c => (c.1, c.2.flags, c.2.accuracy)))
      = some [(1, 16, 0)] := by
  decide!

theorem parse_gated_speed (env : Env) (r : NmeaReader) (T : t_all_tokens)
    (h : T.speed.init = true) (hl : 0 < T.speed.len) :
    (nmea_reader_parse_gated env r T).fix.speed = str2float T.speed.bytes ∧
    has_flag (nmea_reader_parse_gated env r T).fix.flags GPS_LOCATION_HAS_SPEED = true := by
  unfold nmea_reader_parse_gated
  dsimp only
  rw [update_speed_valid _ _ h hl]
  exact ⟨rfl, has_flag_self_or _ _ (by decide)⟩

theorem parse_gated_bearing (env : Env) (r : NmeaReader) (T : t_all_tokens)
    (h : T.bearing.init = true) (hl : 0 < T.bearing.len) :
    (nmea_reader_parse_gated env r T).fix.bearing = str2float T.bearing.bytes ∧
    has_flag (nmea_reader_parse_gated env r T).fix.flags GPS_LOCATION_HAS_BEARING = true := by
  unfold nmea_reader_parse_gated
  dsimp only
  obtain ⟨_, _, _, _, _, _, _, _, _, _, _, sb, _, _, sg⟩ := touches_speed
    (nmea_reader_update_bearing (nmea_reader_update_date env r T.date T.time).1 T.bearing).1
    T.speed
  rw [sb (by decide)]
  refine ⟨?_, sg _ ?_⟩
  · rw [update_bearing_valid _ _ h hl]
  · rw [update_bearing_valid _ _ h hl]
    exact has_flag_self_or _ _ (by decide)

theorem parse_gated_date (env : Env) (r : NmeaReader) (T : t_all_tokens) :
    (nmea_reader_parse_gated env r T).utc_year
      = (nmea_reader_update_date env r T.date T.time).1.utc_year ∧
    (nmea_reader_parse_gated env r T).utc_mon
      = (nmea_reader_update_date env r T.date T.time).1.utc_mon ∧
    (nmea_reader_parse_gated env r T).utc_day
      = (nmea_reader_update_date env r T.date T.time).1.utc_day := by
  unfold nmea_reader_parse_gated
  dsimp only
  obtain ⟨_, _, _, sy, sm, sd, _⟩ := touches_speed
    (nmea_reader_update_bearing (nmea_reader_update_date env r T.date T.time).1 T.bearing).1
    T.speed
  obtain ⟨_, _, _, b_y, bm, bd, _⟩ := touches_bearing
    (nmea_reader_update_date env r T.date T.time).1 T.bearing
  exact ⟨sy.trans b_y, sm.trans bm, sd.trans bd⟩

theorem parse_updates_started (env : Env) (r r1 : NmeaReader) (T : t_all_tokens)
    (hu : nmea_reader_parse_updates env r T = some r1)
    (hi : T.fixStatus.init = true) (hf : T.fixStatus.first = some 'A') :
    ∃ la lo, r1 = nmea_reader_parse_gated env (nmea_reader_parse_always env r T la lo) T := by
  obtain ⟨la, lo, _, _, hc⟩ := parse_updates_cases env r r1 T hu
  rcases hc with ⟨e, _⟩ | ⟨_, hn⟩
  · exact ⟨la, lo, e⟩
  · exact absurd ⟨hi, hf⟩ hn

/-! ## Shifted fields -/

theorem pos_of_fields (line : List Char) (f0 : List Char) (fields : List (List Char))
    (hfields : (nmea_tokenizer_init line).tokens.map Token.bytes = f0 :: fields) :
    f0.length + (fields.map List.length).sum ≤ line.length := by
  have := (tokenizer_inv line).2.2
  rw [sum_len_eq, hfields] at this
  simpa using this

theorem parse_always_touch (env : Env) (r : NmeaReader) (T : t_all_tokens) (la lo : Char) :
    (nmea_reader_parse_always env r T la lo).fix.bearing = r.fix.bearing ∧
    (nmea_reader_parse_always env r T la lo).fix.speed = r.fix.speed ∧
    has_flag (nmea_reader_parse_always env r T la lo).fix.flags GPS_LOCATION_HAS_BEARING
      = has_flag r.fix.flags GPS_LOCATION_HAS_BEARING ∧
    has_flag (nmea_reader_parse_always env r T la lo).fix.flags GPS_LOCATION_HAS_SPEED
      = has_flag r.fix.flags GPS_LOCATION_HAS_SPEED ∧
    (nmea_reader_parse_always env r T la lo).utc_year
      = (nmea_reader_update_time env r T.time).1.utc_year ∧
    (nmea_reader_parse_always env r T la lo).utc_mon
      = (nmea_reader_update_time env r T.time).1.utc_mon ∧
    (nmea_reader_parse_always env r T la lo).utc_day
      = (nmea_reader_update_time env r T.time).1.utc_day := by
  unfold nmea_reader_parse_always
  dsimp only
  have t := update_time_frame env r T.time
  obtain ⟨_, _, _, ly, lm, ld, _, _, _, _, ls, lb, _, lf, _⟩ := touches_latlong
    (nmea_reader_update_time env r T.time).1 T.latitude la T.longitude lo
  obtain ⟨_, _, _, a_y, am, ad, _, _, _, _, as, ab, _, af, _⟩ := touches_altitude
    (nmea_reader_update_latlong (nmea_reader_update_time env r T.time).1 T.latitude la
      T.longitude lo).1 T.altitude T.altitudeUnits
  obtain ⟨_, _, _, cy, cm, cd, _, _, _, _, cs, cb, _, cf, _⟩ := touches_accuracy
    (nmea_reader_update_altitude
      (nmea_reader_update_latlong (nmea_reader_update_time env r T.time).1 T.latitude la
        T.longitude lo).1 T.altitude T.altitudeUnits).1 T.accuracy
  refine ⟨?_, ?_, ?_, ?_, ?_, ?_, ?_⟩
  · rw [cb (by decide), ab (by decide), lb (by decide), t.2.2.2.2.2.1]
  · rw [cs (by decide), as (by decide), ls (by decide), t.2.2.2.2.1]
  · rw [cf _ (by decide), af _ (by decide), lf _ (by decide), t.1]
  · rw [cf _ (by decide), af _ (by decide), lf _ (by decide), t.1]
  · rw [cy, a_y, ly]
  · rw [cm, am, lm]
  · rw [cd, ad, ld]

theorem parse_gated_no_bearing (env : Env) (r : NmeaReader) (T : t_all_tokens)
    (hb : T.bearing.len = 0) :
    (nmea_reader_parse_gated env r T).fix.bearing = r.fix.bearing ∧
    has_flag (nmea_reader_parse_gated env r T).fix.flags GPS_LOCATION_HAS_BEARING
      = has_flag r.fix.flags GPS_LOCATION_HAS_BEARING := by
  unfold nmea_reader_parse_gated
  dsimp only
  have d := update_date_frame env r T.date T.time
  have e : nmea_reader_update_bearing (nmea_reader_update_date env r T.date T.time).1
      T.bearing = ((nmea_reader_update_date env r T.date T.time).1, -1) := by
    unfold nmea_reader_update_bearing
    rw [if_pos (by simp [hb])]
  rw [e]
  obtain ⟨_, _, _, _, _, _, _, _, _, _, _, sb, _, sf, _⟩ := touches_speed
    (nmea_reader_update_date env r T.date T.time).1 T.speed
  dsimp only
  exact ⟨by rw [sb (by decide), d.2.2.2.2.2.1], by rw [sf _ (by decide), d.1]⟩

theorem parse_gated_no_date (env : Env) (r : NmeaReader) (T : t_all_tokens)
    (hd : T.date.len ≠ 6) :
    (nmea_reader_parse_gated env r T).utc_year = r.utc_year ∧
    (nmea_reader_parse_gated env r T).utc_mon = r.utc_mon ∧
    (nmea_reader_parse_gated env r T).utc_day = r.utc_day := by
  obtain ⟨g1, g2, g3⟩ := parse_gated_date env r T
  have e : nmea_reader_update_date env r T.date T.time = (r, -1) := by
    unfold nmea_reader_update_date
    rw [if_pos (by simp [hd])]
  rw [g1, g2, g3, e]
  exact ⟨rfl, rfl, rfl⟩

set_option maxHeartbeats 1000000 in
/-- C25 (as amended): for every RMC sentence with status `A` whose speed and
bearing fields are both empty, so that its non-empty fields after the sentence
id are time, status, latitude, hemisphere, longitude, hemisphere, date and then
the fields `more` that follow the date: the date field is at position 7, and
the reader `r1` that `nmea_reader_parse` hands to its delivery step has the
value `str2float` of the date field as its speed, with the speed bit set.  When
no field follows the date, bearing and bearing bit are unchanged and the date
cache is the one that `nmea_reader_update_time` leaves, not the date of the
sentence.  When a field follows the date, as the magnetic variation, it is at
the bearing position 8: its value is stored as the bearing and the bearing bit
is set. -/
theorem nmea_reader_parse_rmc_shifted (env : Env) (r : NmeaReader) (tokens : t_all_tokens)
    (a b la lo : Char) (f0rest time srest lat larest lon lorest date : List Char)
    (more : List (List Char))
    (hfields : (nmea_tokenizer_init r.in_).tokens.map Token.bytes =
      (a :: b :: 'R' :: 'M' :: 'C' :: f0rest) :: time :: ('A' :: srest) :: lat ::
        (la :: larest) :: lon :: (lo :: lorest) :: date :: more)
    (hdate : date ≠ []) :
    ∃ r1,
      nmea_reader_parse env r tokens =
        some ((nmea_reader_parse_deliver r1).1,
          nmea_reader_parse_fields (nmea_tokenizer_init r.in_) ['R', 'M', 'C'] tokens,
          (nmea_reader_parse_deliver r1).2) ∧
      (nmea_reader_parse_fields (nmea_tokenizer_init r.in_) ['R', 'M', 'C'] tokens).speed.bytes
        = date ∧
      r1.fix.speed = str2float date ∧
      has_flag r1.fix.flags GPS_LOCATION_HAS_SPEED = true ∧
      (∀ cb, r.callback = some cb → (nmea_reader_parse_deliver r1).2 = [(cb, r1.fix)]) ∧
      (more = [] →
        r1.fix.bearing = r.fix.bearing ∧
        has_flag r1.fix.flags GPS_LOCATION_HAS_BEARING
          = has_flag r.fix.flags GPS_LOCATION_HAS_BEARING ∧
        r1.utc_year = (nmea_reader_update_time env r
          (nmea_tokenizer_get (nmea_tokenizer_init r.in_) 1)).1.utc_year ∧
        r1.utc_mon = (nmea_reader_update_time env r
          (nmea_tokenizer_get (nmea_tokenizer_init r.in_) 1)).1.utc_mon ∧
        r1.utc_day = (nmea_reader_update_time env r
          (nmea_tokenizer_get (nmea_tokenizer_init r.in_) 1)).1.utc_day) ∧
      (∀ v rest, more = v :: rest → v ≠ [] →
        r1.fix.bearing = str2float v ∧
        has_flag r1.fix.flags GPS_LOCATION_HAS_BEARING = true) := by
  obtain ⟨hlen0, hid⟩ := sentence_id r.in_ a b 'R' 'M' 'C' f0rest _ hfields
  have hpos : ¬ r.pos < 9 := by
    have := pos_of_fields r.in_ _ _ hfields
    have hd : 0 < date.length := List.length_pos.mpr hdate
    simp only [List.map_cons, List.sum_cons, List.length_cons] at this
    unfold NmeaReader.pos
    omega
  obtain ⟨i2, s2, b2⟩ := get_of_field_at r.in_ 2 2 rfl _ (by rw [hfields]; rfl)
  obtain ⟨i7, s7, b7⟩ := get_of_field_at r.in_ 7 7 rfl _ (by rw [hfields]; rfl)
  have hnn : (nmea_reader_parse_fields (nmea_tokenizer_init r.in_) ['R', 'M', 'C']
      tokens).nonNull := by
    rw [parse_fields_rmc]
    exact ⟨get_span _ _, get_span _ _, get_span _ _⟩
  obtain ⟨r1, hu⟩ := parse_updates_returns env r _ hnn
  have hg := parse_updates_grows env r r1 _ hu
  have ktime : (nmea_reader_parse_fields (nmea_tokenizer_init r.in_) ['R', 'M', 'C']
      tokens).time = nmea_tokenizer_get (nmea_tokenizer_init r.in_) 1 := by
    rw [parse_fields_rmc]
  have kfs : (nmea_reader_parse_fields (nmea_tokenizer_init r.in_) ['R', 'M', 'C']
      tokens).fixStatus = nmea_tokenizer_get (nmea_tokenizer_init r.in_) 2 := by
    rw [parse_fields_rmc]
  have kspeed : (nmea_reader_parse_fields (nmea_tokenizer_init r.in_) ['R', 'M', 'C']
      tokens).speed = nmea_tokenizer_get (nmea_tokenizer_init r.in_) 7 := by
    rw [parse_fields_rmc]
  have kbearing : (nmea_reader_parse_fields (nmea_tokenizer_init r.in_) ['R', 'M', 'C']
      tokens).bearing = nmea_tokenizer_get (nmea_tokenizer_init r.in_) 8 := by
    rw [parse_fields_rmc]
  have kdate : (nmea_reader_parse_fields (nmea_tokenizer_init r.in_) ['R', 'M', 'C']
      tokens).date = nmea_tokenizer_get (nmea_tokenizer_init r.in_) 9 := by
    rw [parse_fields_rmc]
  obtain ⟨la1, lo1, e1⟩ := parse_updates_started env r r1 _ hu (by rw [kfs]; exact i2)
    (by rw [kfs]; exact first_of_field _ 'A' srest s2 b2)
  have hsl : 0 < (nmea_tokenizer_get (nmea_tokenizer_init r.in_) 7).len := by
    rw [Token.len_of_span _ _ s7]; exact List.length_pos.mpr hdate
  obtain ⟨p1, p2⟩ := parse_gated_speed env
    (nmea_reader_parse_always env r
      (nmea_reader_parse_fields (nmea_tokenizer_init r.in_) ['R', 'M', 'C'] tokens) la1 lo1)
    (nmea_reader_parse_fields (nmea_tokenizer_init r.in_) ['R', 'M', 'C'] tokens)
    (by rw [kspeed]; exact i7) (by rw [kspeed]; exact hsl)
  rw [← e1] at p1 p2
  obtain ⟨q1, q2, q3, _, q5, q6, q7⟩ := parse_always_touch env r
    (nmea_reader_parse_fields (nmea_tokenizer_init r.in_) ['R', 'M', 'C'] tokens) la1 lo1
  refine ⟨r1, parse_eq env r tokens _ hpos hlen0 hid r1 hu, by rw [kspeed]; exact b7,
    by rw [p1, kspeed, b7], p2, ?_, ?_, ?_⟩
  · intro cb hcb
    rw [(deliver_flagged r1 _ p2).2 cb (hg.1.trans hcb)]
  · intro hm
    have h8 : nmea_tokenizer_get (nmea_tokenizer_init r.in_) 8
        = { buff := [], init := true, span := some 0 } :=
      get_out_of_range r.in_ 8 8 rfl (by rw [hfields, hm]; simp)
    have h9 : nmea_tokenizer_get (nmea_tokenizer_init r.in_) 9
        = { buff := [], init := true, span := some 0 } :=
      get_out_of_range r.in_ 9 9 rfl (by rw [hfields, hm]; simp)
    obtain ⟨n1, n2⟩ := parse_gated_no_bearing env
      (nmea_reader_parse_always env r
        (nmea_reader_parse_fields (nmea_tokenizer_init r.in_) ['R', 'M', 'C'] tokens) la1 lo1)
      (nmea_reader_parse_fields (nmea_tokenizer_init r.in_) ['R', 'M', 'C'] tokens)
      (by rw [kbearing, h8]; rfl)
    obtain ⟨m1, m2, m3⟩ := parse_gated_no_date env
      (nmea_reader_parse_always env r
        (nmea_reader_parse_fields (nmea_tokenizer_init r.in_) ['R', 'M', 'C'] tokens) la1 lo1)
      (nmea_reader_parse_fields (nmea_tokenizer_init r.in_) ['R', 'M', 'C'] tokens)
      (by rw [kdate, h9]; decide)
    rw [← e1] at n1 n2 m1 m2 m3
    rw [ktime] at q5 q6 q7
    exact ⟨n1.trans q1, n2.trans q3, m1.trans q5, m2.trans q6, m3.trans q7⟩
  · intro v rest hm hv
    obtain ⟨i8, s8, b8⟩ := get_of_field_at r.in_ 8 8 rfl v (by rw [hfields, hm]; rfl)
    have hbl : 0 < (nmea_tokenizer_get (nmea_tokenizer_init r.in_) 8).len := by
      rw [Token.len_of_span _ _ s8]; exact List.length_pos.mpr hv
    obtain ⟨c1, c2⟩ := parse_gated_bearing env
      (nmea_reader_parse_always env r
        (nmea_reader_parse_fields (nmea_tokenizer_init r.in_) ['R', 'M', 'C'] tokens) la1 lo1)
      (nmea_reader_parse_fields (nmea_tokenizer_init r.in_) ['R', 'M', 'C'] tokens)
      (by rw [kbearing]; exact i8) (by rw [kbearing]; exact hbl)
    rw [← e1] at c1 c2
    exact ⟨by rw [c1, kbearing, b8], c2⟩

set_option maxRecDepth 100000 in
/-- C25, witness: the RMC sentence `$GPRMC,123519,A,4807.038,N,01131.000,E,,,230394`
on a fresh reader: the speed is 230394 with its bit set, and the bearing bit
stays clear. -/
theorem nmea_reader_parse_rmc_shifted_witness :
    ∃ r1,
      nmea_reader_parse sampleEnv (sampleReader.withLine sampleRMCdate) t_all_tokens.zero =
        some ((nmea_reader_parse_deliver r1).1,
          nmea_reader_parse_fields (nmea_tokenizer_init sampleRMCdate) ['R', 'M', 'C']
            t_all_tokens.zero,
          (nmea_reader_parse_deliver r1).2) ∧
      r1.fix.speed = 230394 ∧
      has_flag r1.fix.flags GPS_LOCATION_HAS_SPEED = true ∧
      has_flag r1.fix.flags GPS_LOCATION_HAS_BEARING = false := by
  obtain ⟨r1, h1, _, h3, h4, _, h6, _⟩ := nmea_reader_parse_rmc_shifted sampleEnv
    (sampleReader.withLine sampleRMCdate) t_all_tokens.zero 'G' 'P' 'N' 'E' []
    "123519".toList [] "4807.038".toList [] "01131.000".toList [] "230394".toList []
    (by decide) (by decide)
  refine ⟨r1, h1, ?_, h4, ?_⟩
  · rw [h3]; decide!
  · rw [(h6 rfl).2.1]; decide

set_option maxRecDepth 100000 in
/-- C25, counterexample: the RMC sentence
`$GPRMC,123519,A,4807.038,N,01131.000,E,,,230394,003.1,W*6A` has status `A` and
empty speed and bearing fields.  Its date is stored as the speed 230394, and
the field `003.1` that follows the date is found at the bearing position: the
bearing 3.1 is stored and the bearing bit is set (bitmask 13), on a fresh
reader whose bearing bit was clear. -/
theorem nmea_reader_parse_rmc_shifted_bearing :
    ((nmea_tokenizer_init sampleRMCshift).tokens.map Token.bytes).get? 7
      = some "230394".toList ∧
    ((nmea_tokenizer_init sampleRMCshift).tokens.map Token.bytes).get? 8
      = some "003.1".toList ∧
    has_flag sampleReader.fix.flags GPS_LOCATION_HAS_BEARING = false ∧
    (nmea_reader_parse sampleEnv (sampleReader.withLine sampleRMCshift)
        t_all_tokens.zero).map
      (fun x => (x.1.fix.speed, x.1.fix.bearing, x.1.fix.flags,
        has_flag x.1.fix.flags GPS_LOCATION_HAS_BEARING))
      = some (230394, 31 / 10, 13, true) := by
  decide!

/-! ## Fields kept from earlier sentences -/

/-- C24 (as amended): the field set is process-wide and `nmea_reader_parse`
does not reset it.  For every RMC sentence of at least 9 bytes the altitude,
altitude-units and accuracy slots keep the tokens that the field set held
before, and the updates apply them again: a valid non-empty altitude token sets
the altitude and its bit, a valid accuracy token sets the accuracy bit, in the
reader `r1` handed to the delivery step, so a registered callback receives
them.  For every GGA sentence of at least 9 bytes the speed, bearing and date
slots keep their tokens; they are applied again exactly when the status gate of
the dispatch is open: when the status slot begins with `A`, a valid non-empty
speed or bearing token is applied and the date cache is what
`nmea_reader_update_date` makes of the kept date token, and when it does not,
speed, bearing, their bits and the date cache are what the ungated updates
leave, untouched by the kept tokens. -/
theorem nmea_reader_parse_stale_fields (env : Env) (r : NmeaReader) (tokens : t_all_tokens)
    (a b c d e : Char) (f0rest : List Char) (fields : List (List Char))
    (hfields : (nmea_tokenizer_init r.in_).tokens.map Token.bytes =
      (a :: b :: c :: d :: e :: f0rest) :: fields)
    (hpos : 9 ≤ r.pos) :
    ([c, d, e] = ['R', 'M', 'C'] →
      ∃ r1,
        nmea_reader_parse env r tokens =
          some ((nmea_reader_parse_deliver r1).1,
            nmea_reader_parse_fields (nmea_tokenizer_init r.in_) ['R', 'M', 'C'] tokens,
            (nmea_reader_parse_deliver r1).2) ∧
        (nmea_reader_parse_fields (nmea_tokenizer_init r.in_) ['R', 'M', 'C'] tokens).altitude
          = tokens.altitude ∧
        (nmea_reader_parse_fields (nmea_tokenizer_init r.in_) ['R', 'M', 'C']
          tokens).altitudeUnits = tokens.altitudeUnits ∧
        (nmea_reader_parse_fields (nmea_tokenizer_init r.in_) ['R', 'M', 'C'] tokens).accuracy
          = tokens.accuracy ∧
        (tokens.altitude.init = true → 0 < tokens.altitude.len →
          r1.fix.altitude = str2float tokens.altitude.bytes ∧
          has_flag r1.fix.flags GPS_LOCATION_HAS_ALTITUDE = true ∧
          ∀ cb, r.callback = some cb → (nmea_reader_parse_deliver r1).2 = [(cb, r1.fix)]) ∧
        (tokens.accuracy.init = true →
          has_flag r1.fix.flags GPS_LOCATION_HAS_ACCURACY = true ∧
          ∀ cb, r.callback = some cb → (nmea_reader_parse_deliver r1).2 = [(cb, r1.fix)])) ∧
    ([c, d, e] = ['G', 'G', 'A'] →
      ∃ r1,
        nmea_reader_parse env r tokens =
          some ((nmea_reader_parse_deliver r1).1,
            nmea_reader_parse_fields (nmea_tokenizer_init r.in_) ['G', 'G', 'A'] tokens,
            (nmea_reader_parse_deliver r1).2) ∧
        (nmea_reader_parse_fields (nmea_tokenizer_init r.in_) ['G', 'G', 'A'] tokens).speed
          = tokens.speed ∧
        (nmea_reader_parse_fields (nmea_tokenizer_init r.in_) ['G', 'G', 'A'] tokens).bearing
          = tokens.bearing ∧
        (nmea_reader_parse_fields (nmea_tokenizer_init r.in_) ['G', 'G', 'A'] tokens).date
          = tokens.date ∧
        ((nmea_reader_parse_fields (nmea_tokenizer_init r.in_) ['G', 'G', 'A']
            tokens).fixStatus.first = some 'A' →
          (tokens.speed.init = true → 0 < tokens.speed.len →
            r1.fix.speed = str2float tokens.speed.bytes ∧
            has_flag r1.fix.flags GPS_LOCATION_HAS_SPEED = true) ∧
          (tokens.bearing.init = true → 0 < tokens.bearing.len →
            r1.fix.bearing = str2float tokens.bearing.bytes ∧
            has_flag r1.fix.flags GPS_LOCATION_HAS_BEARING = true) ∧
          (tokens.date.init = true → tokens.date.len = 6 →
            allDigits tokens.date.bytes = true →
            r1.utc_year = 2000 + (decimalValue ((tokens.date.bytes.drop 4).take 2) : Int) ∧
            r1.utc_mon = (decimalValue ((tokens.date.bytes.drop 2).take 2) : Int) ∧
            r1.utc_day = (decimalValue (tokens.date.bytes.take 2) : Int))) ∧
        ((nmea_reader_parse_fields (nmea_tokenizer_init r.in_) ['G', 'G', 'A']
            tokens).fixStatus.first ≠ some 'A' →
          r1.fix.speed = r.fix.speed ∧ r1.fix.bearing = r.fix.bearing ∧
          has_flag r1.fix.flags GPS_LOCATION_HAS_SPEED
            = has_flag r.fix.flags GPS_LOCATION_HAS_SPEED ∧
          has_flag r1.fix.flags GPS_LOCATION_HAS_BEARING
            = has_flag r.fix.flags GPS_LOCATION_HAS_BEARING ∧
          r1.utc_year = (nmea_reader_update_time env r
            (nmea_tokenizer_get (nmea_tokenizer_init r.in_) 1)).1.utc_year ∧
          r1.utc_mon = (nmea_reader_update_time env r
            (nmea_tokenizer_get (nmea_tokenizer_init r.in_) 1)).1.utc_mon ∧
          r1.utc_day = (nmea_reader_update_time env r
            (nmea_tokenizer_get (nmea_tokenizer_init r.in_) 1)).1.utc_day)) := by
  obtain ⟨hlen0, hid⟩ := sentence_id r.in_ a b c d e f0rest fields hfields
  constructor
  · intro hk
    rw [hk] at hid
    have hnn : (nmea_reader_parse_fields (nmea_tokenizer_init r.in_) ['R', 'M', 'C']
        tokens).nonNull := by
      rw [parse_fields_rmc]
      exact ⟨get_span _ _, get_span _ _, get_span _ _⟩
    obtain ⟨r1, hu⟩ := parse_updates_returns env r _ hnn
    have hg := parse_updates_grows env r r1 _ hu
    have k1 : (nmea_reader_parse_fields (nmea_tokenizer_init r.in_) ['R', 'M', 'C']
        tokens).altitude = tokens.altitude := by rw [parse_fields_rmc]
    have k3 : (nmea_reader_parse_fields (nmea_tokenizer_init r.in_) ['R', 'M', 'C']
        tokens).accuracy = tokens.accuracy := by rw [parse_fields_rmc]
    refine ⟨r1, parse_eq env r tokens _ (by omega) hlen0 hid r1 hu, k1,
      by rw [parse_fields_rmc], k3, ?_, ?_⟩
    · intro hi hl
      obtain ⟨h1, h2⟩ := parse_updates_altitude env r r1 _ hu (by rw [k1]; exact hi)
        (by rw [k1]; exact hl)
      rw [k1] at h1
      refine ⟨h1, h2, fun cb hcb => ?_⟩
      rw [(deliver_flagged r1 _ h2).2 cb (hg.1.trans hcb)]
    · intro hi
      obtain ⟨_, h2⟩ := parse_updates_accuracy env r r1 _ hu (by rw [k3]; exact hi)
      refine ⟨h2, fun cb hcb => ?_⟩
      rw [(deliver_flagged r1 _ h2).2 cb (hg.1.trans hcb)]
  · intro hk
    rw [hk] at hid
    have hnn : (nmea_reader_parse_fields (nmea_tokenizer_init r.in_) ['G', 'G', 'A']
        tokens).nonNull := by
      rw [parse_fields_gga]
      exact ⟨get_span _ _, get_span _ _, get_span _ _⟩
    obtain ⟨r1, hu⟩ := parse_updates_returns env r _ hnn
    have k1 : (nmea_reader_parse_fields (nmea_tokenizer_init r.in_) ['G', 'G', 'A']
        tokens).speed = tokens.speed := by rw [parse_fields_gga]
    have k2 : (nmea_reader_parse_fields (nmea_tokenizer_init r.in_) ['G', 'G', 'A']
        tokens).bearing = tokens.bearing := by rw [parse_fields_gga]
    have k3 : (nmea_reader_parse_fields (nmea_tokenizer_init r.in_) ['G', 'G', 'A']
        tokens).date = tokens.date := by rw [parse_fields_gga]
    refine ⟨r1, parse_eq env r tokens _ (by omega) hlen0 hid r1 hu, k1, k2, k3, ?_⟩
    have hfs : (nmea_reader_parse_fields (nmea_tokenizer_init r.in_) ['G', 'G', 'A']
        tokens).fixStatus = nmea_tokenizer_get (nmea_tokenizer_init r.in_) 2 := by
      rw [parse_fields_gga]
    have hinit : (nmea_reader_parse_fields (nmea_tokenizer_init r.in_) ['G', 'G', 'A']
        tokens).fixStatus.init = true := by
      rw [hfs]; unfold nmea_tokenizer_get; split
      · rfl
      · split <;> rfl
    have ktime : (nmea_reader_parse_fields (nmea_tokenizer_init r.in_) ['G', 'G', 'A']
        tokens).time = nmea_tokenizer_get (nmea_tokenizer_init r.in_) 1 := by
      rw [parse_fields_gga]
    constructor
    · intro hA
      obtain ⟨la, lo, e1⟩ := parse_updates_started env r r1 _ hu hinit hA
      rw [e1]
      refine ⟨?_, ?_, ?_⟩
      · intro hi hl
        have := parse_gated_speed env (nmea_reader_parse_always env r
          (nmea_reader_parse_fields (nmea_tokenizer_init r.in_) ['G', 'G', 'A'] tokens) la lo)
          (nmea_reader_parse_fields (nmea_tokenizer_init r.in_) ['G', 'G', 'A'] tokens)
          (by rw [k1]; exact hi) (by rw [k1]; exact hl)
        rw [k1] at this
        exact this
      · intro hi hl
        have := parse_gated_bearing env (nmea_reader_parse_always env r
          (nmea_reader_parse_fields (nmea_tokenizer_init r.in_) ['G', 'G', 'A'] tokens) la lo)
          (nmea_reader_parse_fields (nmea_tokenizer_init r.in_) ['G', 'G', 'A'] tokens)
          (by rw [k2]; exact hi) (by rw [k2]; exact hl)
        rw [k2] at this
        exact this
      · intro hi hl hd
        obtain ⟨g1, g2, g3⟩ := parse_gated_date env (nmea_reader_parse_always env r
          (nmea_reader_parse_fields (nmea_tokenizer_init r.in_) ['G', 'G', 'A'] tokens) la lo)
          (nmea_reader_parse_fields (nmea_tokenizer_init r.in_) ['G', 'G', 'A'] tokens)
        rw [g1, g2, g3, k3]
        obtain ⟨v1, v2, v3, _⟩ := update_date_valid env (nmea_reader_parse_always env r
          (nmea_reader_parse_fields (nmea_tokenizer_init r.in_) ['G', 'G', 'A'] tokens) la lo)
          tokens.date
          (nmea_reader_parse_fields (nmea_tokenizer_init r.in_) ['G', 'G', 'A'] tokens).time
          hi hl hd
        exact ⟨v1, v2, v3⟩
    · intro hA
      obtain ⟨la, lo, _, _, hc⟩ := parse_updates_cases env r r1 _ hu
      rcases hc with ⟨_, _, hf⟩ | ⟨e1, _⟩
      · exact absurd hf hA
      · obtain ⟨q1, q2, q3, q4, q5, q6, q7⟩ := parse_always_touch env r
          (nmea_reader_parse_fields (nmea_tokenizer_init r.in_) ['G', 'G', 'A'] tokens) la lo
        rw [ktime] at q5 q6 q7
        rw [e1]
        exact ⟨q2, q1, q4, q3, q5, q6, q7⟩

set_option maxRecDepth 100000 in
/-- C24, witness: the RMC sample dispatched with the field set that the GGA
sample has left, on a reader with a callback: the altitude 545.4 of the GGA
sentence is applied again and delivered. -/
theorem nmea_reader_parse_stale_fields_witness :
    ∃ r1,
      nmea_reader_parse sampleEnv
          (({ sampleReader with callback := some 1 } : NmeaReader).withLine sampleRMC)
          (nmea_reader_parse_fields (nmea_tokenizer_init sampleGGA) ['G', 'G', 'A']
            t_all_tokens.zero) =
        some ((nmea_reader_parse_deliver r1).1,
          nmea_reader_parse_fields (nmea_tokenizer_init sampleRMC) ['R', 'M', 'C']
            (nmea_reader_parse_fields (nmea_tokenizer_init sampleGGA) ['G', 'G', 'A']
              t_all_tokens.zero),
          (nmea_reader_parse_deliver r1).2) ∧
      r1.fix.altitude = 5454 / 10 ∧
      has_flag r1.fix.flags GPS_LOCATION_HAS_ALTITUDE = true ∧
      (nmea_reader_parse_deliver r1).2 = [(1, r1.fix)] := by
  obtain ⟨r1, h1, _, _, _, h5, _⟩ := (nmea_reader_parse_stale_fields sampleEnv
    (({ sampleReader with callback := some 1 } : NmeaReader).withLine sampleRMC)
    (nmea_reader_parse_fields (nmea_tokenizer_init sampleGGA) ['G', 'G', 'A']
      t_all_tokens.zero) 'G' 'P' 'R' 'M' 'C' []
    ["123519".toList, "A".toList, "4807.038".toList, "N".toList, "01131.000".toList,
      "E".toList, "022.4".toList, "084.4".toList, "230394".toList, "003.1".toList,
      "W".toList]
    (by decide) (by decide)).1 rfl
  obtain ⟨h6, h7, h8⟩ := h5 (by decide) (by decide)
  refine ⟨r1, h1, ?_, h7, h8 1 rfl⟩
  rw [h6]
  decide!

set_option maxRecDepth 100000 in
/-- C24, counterexample: the GGA sample and then the RMC sample, fed to a fresh
reader with a callback.  The GGA sentence delivers a fix with the bitmask 18
(altitude, accuracy), which clears the bitmask; the RMC sentence then delivers
a fix with the bitmask 31: the altitude and accuracy bits, clear before the RMC
sentence, are set again, with the altitude 545.4 of the GGA sentence, where the
RMC sentence alone delivers the bitmask 13. -/
theorem nmea_reader_parse_stale_fields_gga_rmc :
    (gps_state_thread_data sampleEnv (sampleGGA ++ sampleRMC)
        { sampleReader with callback := some 1 } t_all_tokens.zero).map
      (fun x => x.2.2.map (fun c => (c.2.flags, c.2.altitude)))
      = some [(18, 5454 / 10), (31, 5454 / 10)] ∧
    (gps_state_thread_data sampleEnv sampleRMC
        { sampleReader with callback := some 1 } t_all_tokens.zero).map
      (fun x => x.2.2.map (fun c => (c.2.flags, c.2.altitude)))
      = some [(13, 0)] ∧
    has_flag 31 GPS_LOCATION_HAS_ALTITUDE = true ∧
    has_flag 31 GPS_LOCATION_HAS_ACCURACY = true := by
  decide!

/-! ## Decimal fields and the coordinate split -/

theorem isHexPrefix_digits (ip rest : List Char) (hip : allDigits ip = true)
    (hrest : rest = [] ∨ ∃ fs, rest = '.' :: fs) : isHexPrefix (ip ++ rest) = false := by
  cases ip with
  | nil =>
    rcases hrest with h | ⟨fs, h⟩
    · rw [h]; rfl
    · rw [h]; rfl
  | cons c cs =>
    cases cs with
    | nil =>
      rcases hrest with h | ⟨fs, h⟩
      · rw [h]
        show isHexPrefix [c] = false
        unfold isHexPrefix
        split
        · rename_i heq; simp at heq
        · rfl
      · rw [h]; exact isHexPrefix_cons c '.' fs (by decide)
    | cons d ds =>
      have hd : isdigit d = true := by
        simp only [allDigits, List.all_cons, Bool.and_eq_true] at hip
        exact hip.2.1
      exact isHexPrefix_cons c d _ (isdigit_not_hex d hd)

theorem readDigits_all (ds : List Char) (acc : Nat) (h : allDigits ds = true) :
    readDigits ds acc 0
      = (ds.foldl (fun x c => x * 10 + (c.toNat - 48)) acc, ds.length, []) := by
  have := readDigits_append ds [] acc 0 h
  rw [List.append_nil] at this
  rw [this]
  simp [readDigits]

theorem strtod_number_digits (ip : List Char) (hip : allDigits ip = true) (hne : ip ≠ []) :
    strtod_number ip = (decimalValue ip : ℚ) := by
  have hhex : isHexPrefix ip = false := by
    have := isHexPrefix_digits ip [] hip (Or.inl rfl)
    rwa [List.append_nil] at this
  have hlen : 0 < ip.length := List.length_pos.mpr hne
  unfold strtod_number
  rw [hhex]
  simp only [Bool.false_eq_true, if_false, readDigits_all ip 0 hip, List.head?_nil,
    reduceCtorEq, readExponent]
  rw [if_neg (by omega)]
  simp [decimalValue, Rat.mkRat_eq_div]

theorem strtod_number_point (ip fs : List Char) (hip : allDigits ip = true)
    (hfs : allDigits fs = true) (hne : ip ≠ [] ∨ fs ≠ []) :
    strtod_number (ip ++ '.' :: fs)
      = (decimalValue (ip ++ fs) : ℚ) / 10 ^ fs.length := by
  have hhex := isHexPrefix_digits ip ('.' :: fs) hip (Or.inr ⟨fs, rfl⟩)
  have hr : readDigits (ip ++ '.' :: fs) 0 0
      = (ip.foldl (fun x c => x * 10 + (c.toNat - 48)) 0, ip.length, '.' :: fs) := by
    rw [readDigits_append _ _ _ _ hip]
    have : isdigit '.' = false := by decide
    simp only [readDigits, this, Nat.zero_add]
    rfl
  have hlen : 0 < ip.length + fs.length := by
    rcases hne with h | h
    · have := List.length_pos.mpr h; omega
    · have := List.length_pos.mpr h; omega
  have hV : decimalValue (ip ++ fs)
      = fs.foldl (fun x c => x * 10 + (c.toNat - 48))
          (ip.foldl (fun x c => x * 10 + (c.toNat - 48)) 0) := by
    unfold decimalValue
    rw [List.foldl_append]
  unfold strtod_number
  rw [hhex]
  simp only [Bool.false_eq_true, if_false, hr, List.head?_cons, if_true, List.drop_succ_cons,
    List.drop_zero, readDigits_all fs _ hfs, readExponent]
  rw [if_neg (by omega), hV]
  by_cases h0 : fs.length = 0
  · rw [if_pos (by omega)]
    simp [h0, Rat.mkRat_eq_div]
  · rw [if_neg (by omega)]
    have hn : (-((0 : Int) - (fs.length : Int))).toNat = fs.length := by omega
    rw [hn, Rat.mkRat_eq_div]
    push_cast
    rfl

theorem takeWhile_allDigits (body : List Char) :
    allDigits (body.takeWhile isdigit) = true := by
  simp only [allDigits, List.all_eq_true]
  intro c hc
  exact List.mem_takeWhile_imp hc

theorem decimalBody_number (neg : Bool) (body : List Char) (p : Bool × List Char × List Char)
    (h : decimalBody neg body = some p) :
    p.1 = neg ∧
    strtod_number body = (decimalValue (p.2.1 ++ p.2.2) : ℚ) / 10 ^ p.2.2.length ∧
    ∃ c rest, body = c :: rest ∧ (isdigit c = true ∨ c = '.') := by
  have hsplit : body.takeWhile isdigit ++ body.dropWhile isdigit = body :=
    List.takeWhile_append_dropWhile isdigit body
  have hip := takeWhile_allDigits body
  unfold decimalBody at h
  split at h
  · rename_i hrest
    split at h
    · simp at h
    · rename_i hne
      simp only [Option.some.injEq] at h
      rw [hrest, List.append_nil] at hsplit
      have hne' : body.takeWhile isdigit ≠ [] := by
        intro h0; rw [h0] at hne; exact hne rfl
      rw [← h]
      refine ⟨rfl, ?_, ?_⟩
      · dsimp only
        rw [List.append_nil, List.length_nil, pow_zero, div_one, hsplit]
        exact strtod_number_digits body (by rw [← hsplit]; exact hip)
          (by rw [← hsplit]; exact hne')
      · obtain ⟨c, rest, hc⟩ := List.exists_cons_of_ne_nil hne'
        refine ⟨c, rest, by rw [← hsplit, hc], Or.inl ?_⟩
        have := hip
        rw [hc] at this
        simp only [allDigits, List.all_cons, Bool.and_eq_true] at this
        exact this.1
  · rename_i c fs hrest
    split at h
    · rename_i hcond
      obtain ⟨hc, hfs, hne⟩ := hcond
      simp only [Option.some.injEq] at h
      rw [hrest, hc] at hsplit
      have hne' : body.takeWhile isdigit ≠ [] ∨ fs ≠ [] := by
        rcases hne with h1 | h1
        · left; intro h0; rw [h0] at h1; simp at h1
        · right; intro h0; rw [h0] at h1; simp at h1
      rw [← h]
      refine ⟨rfl, ?_, ?_⟩
      · dsimp only
        have := strtod_number_point (body.takeWhile isdigit) fs hip hfs hne'
        rw [hsplit] at this
        exact this
      · cases hb : body.takeWhile isdigit with
        | nil =>
          rw [hb] at hsplit
          exact ⟨'.', fs, hsplit.symm, Or.inr rfl⟩
        | cons d ds =>
          rw [hb] at hsplit
          refine ⟨d, ds ++ '.' :: fs, hsplit.symm, Or.inl ?_⟩
          have := hip
          rw [hb] at this
          simp only [allDigits, List.all_cons, Bool.and_eq_true] at this
          exact this.1
    · simp at h

theorem strtod_cons (c : Char) (cs : List Char) (hc : isspace c = false) :
    strtod (c :: cs) =
      (if c = '-' then - strtod_number cs
       else if c = '+' then strtod_number cs else strtod_number (c :: cs)) := by
  have hdw : (c :: cs).dropWhile isspace = c :: cs := by
    simp [List.dropWhile, hc]
  unfold strtod
  simp only [hdw, List.head?_cons, Option.some.injEq, List.drop_succ_cons, List.drop_zero]
  by_cases h1 : c = '-'
  · simp [h1]
  · by_cases h2 : c = '+'
    · simp [h2]
    · simp [h1, h2]

theorem strtod_decimalNumber (s : List Char) (v : ℚ) (h : decimalNumber s = some v) :
    strtod s = v := by
  unfold decimalNumber at h
  cases hp : decimalParts s with
  | none => rw [hp] at h; simp at h
  | some p =>
    rw [hp] at h
    simp only [Option.map_some', Option.some.injEq] at h
    unfold decimalParts at hp
    cases s with
    | nil =>
      simp [decimalBody] at hp
    | cons c cs =>
      simp only [List.head?_cons, Option.some.injEq, List.drop_succ_cons, List.drop_zero] at hp
      by_cases h1 : c = '-'
      · rw [if_pos (Or.inl h1)] at hp
        obtain ⟨e1, e2, _⟩ := decimalBody_number _ _ p hp
        rw [strtod_cons c cs (by rw [h1]; decide), if_pos h1, e2, ← h]
        have : p.1 = true := by rw [e1]; simp [h1]
        rw [if_pos this]
      · by_cases h2 : c = '+'
        · rw [if_pos (Or.inr h2)] at hp
          obtain ⟨e1, e2, _⟩ := decimalBody_number _ _ p hp
          rw [strtod_cons c cs (by rw [h2]; decide), if_neg h1, if_pos h2, e2, ← h]
          have : p.1 = false := by rw [e1]; simp [h1]
          rw [if_neg (by rw [this]; simp)]
        · rw [if_neg (by simp [h1, h2])] at hp
          obtain ⟨e1, e2, d, rest, hd, hdig⟩ := decimalBody_number _ _ p hp
          have hcd : c = d := by
            simp only [List.cons.injEq] at hd
            exact hd.1
          have hsp : isspace c = false := by
            rw [hcd]
            rcases hdig with hdd | hdd
            · exact (isdigit_not_special d hdd).1
            · rw [hdd]; decide
          rw [strtod_cons c cs hsp, if_neg h1, if_neg h2, e2, ← h]
          have : p.1 = false := by rw [e1]; simp [h1]
          rw [if_neg (by rw [this]; simp)]

theorem str2float_decimalNumber (s : List Char) (v : ℚ) (h : decimalNumber s = some v)
    (hl : s.length < 16) : str2float s = v := by
  unfold str2float
  rw [if_neg (by omega)]
  exact strtod_decimalNumber s v h

theorem int_part_neg (q : ℚ) : int_part (-q) = - int_part q := by
  unfold int_part
  rw [Rat.neg_num, Rat.neg_den, Int.neg_tdiv]

theorem int_part_range (q : ℚ) (lo hi : Int) (hlo : lo ≤ 0) (hhi : 0 ≤ hi)
    (h1 : (lo : ℚ) - 1 < q) (h2 : q < (hi : ℚ) + 1) : lo ≤ int_part q ∧ int_part q ≤ hi := by
  by_cases h0 : 0 ≤ q
  · rw [int_part_nonneg q h0]
    have a : (0 : Int) ≤ ⌊q⌋ := Int.floor_nonneg.mpr h0
    have b : ⌊q⌋ < hi + 1 := Int.floor_lt.mpr (by push_cast; exact h2)
    omega
  · have hq : 0 ≤ -q := by linarith
    have e : int_part q = - ⌊-q⌋ := by
      have := int_part_neg (-q)
      rw [neg_neg] at this
      rw [this, int_part_nonneg (-q) hq]
    have a : (0 : Int) ≤ ⌊-q⌋ := Int.floor_nonneg.mpr hq
    have b : ⌊-q⌋ < -lo + 1 := Int.floor_lt.mpr (by push_cast; linarith)
    rw [e]
    omega

theorem convert_from_hhmm_of (tok : Token) (h1 : -214748364800 ≤ str2float tok.bytes)
    (h2 : str2float tok.bytes < 214748364800) :
    convert_from_hhmm tok = hhmm_of (str2float tok.bytes) := by
  have hf1 : ((-214748364800 : Int) : ℚ) ≤ floor (str2float tok.bytes) := by
    unfold floor
    have : (-214748364800 : Int) ≤ ⌊str2float tok.bytes⌋ :=
      Int.le_floor.mpr (by push_cast; exact h1)
    exact_mod_cast this
  have hf2 : floor (str2float tok.bytes) ≤ str2float tok.bytes := Int.floor_le _
  have hr := int_part_range (floor (str2float tok.bytes) / 100) (-2147483648) 2147483647
    (by decide) (by decide)
    (by push_cast at hf1 ⊢; rw [lt_div_iff₀ (by norm_num)]; linarith)
    (by push_cast; rw [div_lt_iff₀ (by norm_num)]; linarith)
  unfold convert_from_hhmm hhmm_of
  dsimp only
  rw [double_to_int_in_range _ hr.1 hr.2]

theorem hhmm_of_nonneg (v : ℚ) (h : 0 ≤ v) : hhmm_of v = spec_hhmm v := by
  have hf : (0 : ℚ) ≤ floor v / 100 := by
    unfold floor
    have : (0 : Int) ≤ ⌊v⌋ := Int.floor_nonneg.mpr h
    have : (0 : ℚ) ≤ ((⌊v⌋ : Int) : ℚ) := by exact_mod_cast this
    positivity
  have hd : int_part (floor v / 100) = int_part (v / 100) := by
    rw [int_part_nonneg _ hf, int_part_nonneg _ (by positivity)]
    exact floor_floor_div _
  unfold hhmm_of spec_hhmm
  dsimp only
  rw [hd]
  ring

/-- C17 (as amended): `nmea_reader_update_latlong` on two valid fields of at
least 6 characters returns 0 and sets the latitude/longitude bit.  For a
latitude field that spells a decimal number in fewer than 16 characters, of a
value `v` with `-214748364800 ≤ v < 214748364800` (so that the cast to `int` is
defined), `str2float` reads `v` and the stored latitude is `D + M/60` with
`D` = integer part of `floor(v)/100` and `M = v - 100 D`, negated exactly for
the hemisphere `S`; likewise the longitude, negated exactly for `W`; and when
`v` is not negative this is the split of the specification, `D` = integer part
of `v/100`.  When either field has fewer than 6 characters the reader, with
latitude, longitude and bitmask, is unchanged and the call returns -1. -/
theorem nmea_reader_update_latlong_spec (r : NmeaReader) (la : Token) (lah : Char)
    (lo : Token) (loh : Char) :
    (la.init = true → lo.init = true → 6 ≤ la.len → 6 ≤ lo.len →
      (nmea_reader_update_latlong r la lah lo loh).2 = 0 ∧
      has_flag (nmea_reader_update_latlong r la lah lo loh).1.fix.flags
        GPS_LOCATION_HAS_LAT_LONG = true ∧
      (∀ v, decimalNumber la.bytes = some v → la.len < 16 →
        -214748364800 ≤ v → v < 214748364800 →
        str2float la.bytes = v ∧
        (nmea_reader_update_latlong r la lah lo loh).1.fix.latitude
          = (if lah = 'S' then - hhmm_of v else hhmm_of v) ∧
        (0 ≤ v → hhmm_of v = spec_hhmm v)) ∧
      (∀ w, decimalNumber lo.bytes = some w → lo.len < 16 →
        -214748364800 ≤ w → w < 214748364800 →
        str2float lo.bytes = w ∧
        (nmea_reader_update_latlong r la lah lo loh).1.fix.longitude
          = (if loh = 'W' then - hhmm_of w else hhmm_of w) ∧
        (0 ≤ w → hhmm_of w = spec_hhmm w))) ∧
    (la.len < 6 ∨ lo.len < 6 → nmea_reader_update_latlong r la lah lo loh = (r, -1)) := by
  constructor
  · intro h1 h3 h2 h4
    rw [update_latlong_valid r la lah lo loh h1 h2 h3 h4]
    refine ⟨rfl, has_flag_self_or _ _ (by decide), ?_, ?_⟩
    · intro v hv hl hv1 hv2
      have e := str2float_decimalNumber la.bytes v hv (by rw [Token.bytes_length]; exact hl)
      refine ⟨e, ?_, hhmm_of_nonneg v⟩
      show (if lah = 'S' then - convert_from_hhmm la else convert_from_hhmm la) = _
      rw [convert_from_hhmm_of la (by rw [e]; exact hv1) (by rw [e]; exact hv2), e]
    · intro w hw hl hw1 hw2
      have e := str2float_decimalNumber lo.bytes w hw (by rw [Token.bytes_length]; exact hl)
      refine ⟨e, ?_, hhmm_of_nonneg w⟩
      show (if loh = 'W' then - convert_from_hhmm lo else convert_from_hhmm lo) = _
      rw [convert_from_hhmm_of lo (by rw [e]; exact hw1) (by rw [e]; exact hw2), e]
  · intro h
    unfold nmea_reader_update_latlong
    by_cases g1 : (!la.init || decide (la.len < 6)) = true
    · rw [if_pos g1]
    · rw [if_neg g1]
      dsimp only
      have hla : ¬ la.len < 6 := by
        intro hh; exact g1 (by simp [hh])
      have hlo : lo.len < 6 := h.resolve_left hla
      rw [if_pos (by simp [hlo])]

set_option maxRecDepth 100000 in
/-- C17, witness: the fields `4807.038` and `01131.000` with the hemispheres
`S` and `E` on a fresh reader, and the 5-character latitude field `4807.`. -/
theorem nmea_reader_update_latlong_spec_witness :
    decimalNumber (Token.ofBytes "4807.038".toList).bytes = some (4807038 / 1000) ∧
    (nmea_reader_update_latlong sampleReader (Token.ofBytes "4807.038".toList) 'S'
        (Token.ofBytes "01131.000".toList) 'E').1.fix.latitude = - (481173 / 10000) ∧
    spec_hhmm (4807038 / 1000) = 481173 / 10000 ∧
    nmea_reader_update_latlong sampleReader (Token.ofBytes "4807.".toList) 'S'
        (Token.ofBytes "01131.000".toList) 'E' = (sampleReader, -1) :=
  ⟨by decide!,
   by
    rw [(((nmea_reader_update_latlong_spec sampleReader (Token.ofBytes "4807.038".toList) 'S'
      (Token.ofBytes "01131.000".toList) 'E').1 rfl rfl (by decide) (by decide)).2.2.1
      (4807038 / 1000) (by decide!) (by decide) (by decide!) (by decide!)).2.1]
    decide!,
   by
    rw [← (((nmea_reader_update_latlong_spec sampleReader (Token.ofBytes "4807.038".toList) 'S'
      (Token.ofBytes "01131.000".toList) 'E').1 rfl rfl (by decide) (by decide)).2.2.1
      (4807038 / 1000) (by decide!) (by decide) (by decide!) (by decide!)).2.2 (by decide!)]
    decide!,
   (nmea_reader_update_latlong_spec sampleReader (Token.ofBytes "4807.".toList) 'S'
      (Token.ofBytes "01131.000".toList) 'E').2 (Or.inl (by decide))⟩

set_option maxRecDepth 100000 in
/-- C17, counterexample: the 6-character field `-99.50` spells the decimal
number -99.5, whose integer part of `v/100` is 0, so that the split of the
specification gives -99.5/60 = -199/120, but the code stores
-1 + 0.5/60 = -119/120; and with the integer part read as the floor, the field
`-100.5` gives -2 + 99.5/60 = -41/120 where the code stores
-1 - 0.5/60 = -121/120. -/
theorem nmea_reader_update_latlong_negative :
    (Token.ofBytes "-99.50".toList).len = 6 ∧
    decimalNumber (Token.ofBytes "-99.50".toList).bytes = some (- (995 / 10)) ∧
    str2float (Token.ofBytes "-99.50".toList).bytes = - (995 / 10) ∧
    spec_hhmm (- (995 / 10)) = - (199 / 120) ∧
    (nmea_reader_update_latlong sampleReader (Token.ofBytes "-99.50".toList) 'N'
        (Token.ofBytes "-99.50".toList) 'E').1.fix.latitude = - (119 / 120) ∧
    (nmea_reader_update_latlong sampleReader (Token.ofBytes "-99.50".toList) 'N'
        (Token.ofBytes "-99.50".toList) 'E').1.fix.latitude
      ≠ spec_hhmm (str2float (Token.ofBytes "-99.50".toList).bytes) ∧
    str2float (Token.ofBytes "-100.5".toList).bytes = - (1005 / 10) ∧
    ((⌊(- (1005 / 10) : ℚ) / 100⌋ : Int) : ℚ)
      + (- (1005 / 10) - 100 * ((⌊(- (1005 / 10) : ℚ) / 100⌋ : Int) : ℚ)) / 60
      = - (41 / 120) ∧
    (nmea_reader_update_latlong sampleReader (Token.ofBytes "-100.5".toList) 'N'
        (Token.ofBytes "-100.5".toList) 'E').1.fix.latitude = - (121 / 120) := by
  decide!

end AicGps
